import Mathlib

/-!
# BLIP message state machines

A shallow embedding of `src/src/blip/Message.cc` (outbound frame slicing,
acknowledgement counters, inbound frame reassembly) together with the
properties proved about it.

Bytes, flags, sizes and counters are natural numbers; where the C++ code
computes in a fixed-width unsigned type the reduction modulo `2^32` or
`2^64` is written out.  A byte string (`slice`) is a `List Nat`; an
`alloc_slice` that may be the null slice is an `Option (List Nat)`.
-/

namespace Blip

/-! ## Constants and helpers declared outside `Message.cc` -/

/-- Modelled from the spec: `BLIPInternal.hh` is absent; message type REQUEST = 0. -/
def kRequestType : Nat := 0

/-- Modelled from the spec: `BLIPInternal.hh` is absent; message type RESPONSE = 1. -/
def kResponseType : Nat := 1

/-- Modelled from the spec: `BLIPInternal.hh` is absent; message type ERROR = 2. -/
def kErrorType : Nat := 2

/-- Modelled from the spec: `BLIPInternal.hh` is absent; message type ACK-REQUEST = 4. -/
def kAckRequestType : Nat := 4

/-- Modelled from the spec: `BLIPInternal.hh` is absent; message type ACK-RESPONSE = 5. -/
def kAckResponseType : Nat := 5

/-- Modelled from the spec: `BLIPInternal.hh` is absent.  The type field is the
low bits of the flags byte, below the `compressed` bit 0x08; the listed type
values 0..5 need the three bits 0..2. -/
def kTypeMask : Nat := 0x07

/-- Modelled from the spec: `BLIPInternal.hh` is absent; flag bit 3, compressed. -/
def kCompressed : Nat := 0x08

/-- Modelled from the spec: `BLIPInternal.hh` is absent; flag bit 4, urgent. -/
def kUrgent : Nat := 0x10

/-- Modelled from the spec: `BLIPInternal.hh` is absent; flag bit 5, no-reply. -/
def kNoReply : Nat := 0x20

/-- Modelled from the spec: `BLIPInternal.hh` is absent; flag bit 6, more-coming. -/
def kMoreComing : Nat := 0x40

/-- The value of `UINT32_MAX`. -/
def UINT32_MAX : Nat := 4294967295

/-- Modulus of `uint32_t` arithmetic, `2^32`. -/
def kMod32 : Nat := 4294967296

/-- Modulus of `size_t` and `uint64_t` arithmetic, `2^64`. -/
def kMod64 : Nat := 18446744073709551616

/-- From `Message.cc` line 25: how many bytes to receive before sending an ACK. -/
def kIncomingAckThreshold : Nat := 50000

/-- Modelled from the spec: `varint.hh` is absent.  `PutUVarInt(value)`, the
unsigned LEB128 encoding: seven bits per byte, least significant group first,
every byte but the last with the high bit set. -/
def PutUVarInt (n : Nat) : List Nat :=
  if n < 128 then [n] else (n % 128 + 128) :: PutUVarInt (n / 128)
decreasing_by omega

/-- Modelled from the spec: `varint.hh` is absent.  Unsigned LEB128 decoding of
the front of a buffer: the decoded value and the buffer moved past the varint,
or `none` when the buffer ends in the middle of the varint. -/
def GetUVarInt : List Nat → Option (Nat × List Nat)
  | [] => none
  | b :: bs =>
    if b < 128 then some (b, bs)
    else
      match GetUVarInt bs with
      | none => none
      | some (v, rest) => some (b % 128 + 128 * v, rest)

/-- Modelled from the spec: `varint.hh` is absent.  `ReadUVarInt32(&buf, &n)`
reads a varint and advances the buffer view; it fails if the decoded value
exceeds `2^32 - 1` or if the buffer ends in the middle of the varint. -/
def ReadUVarInt32 (buf : List Nat) : Option (Nat × List Nat) :=
  match GetUVarInt buf with
  | none => none
  | some (v, rest) => if v ≤ UINT32_MAX then some (v, rest) else none

/-- Modelled from the spec: `Message.hh` is absent.  The states of a progress
notification that `Message.cc` uses. -/
inductive ProgressState
  | kSending
  | kAwaitingReply
  | kReceivingReply
  | kComplete
deriving DecidableEq, Repr

/-- Modelled from the spec: `Message.hh` is absent.  The argument of a progress
callback, `(state, bytesSent, bytesReceived, reply)`; `reply` is `none` for a
null pointer and the number of the inbound message otherwise. -/
structure MessageProgress where
  state : ProgressState
  bytesSent : Nat
  bytesReceived : Nat
  reply : Option Nat
deriving DecidableEq, Repr

/-- `Message::sendProgress` (lines 28-33): the calls made to the progress
callback, as (callback handle, argument) pairs; nothing when no callback is set. -/
def sendProgress (onProgress : Option Nat) (p : MessageProgress) :
    List (Nat × MessageProgress) :=
  match onProgress with
  | some cb => [(cb, p)]
  | none => []

/-- Modelled from the spec: `Message.hh` is absent.  `Message::type()`, the type
field of a flags byte. -/
def flagsType (flags : Nat) : Nat := flags &&& kTypeMask

/-- Modelled from the spec: `Message.hh` is absent.  `Message::hasFlag`. -/
def hasFlag (flags f : Nat) : Bool := flags &&& f != 0

/-! ## Outbound messages -/

/-- State of a `MessageOut`.  `bytesSent` and `unackedBytes` are `uint32_t`
counters (see `receivedAck`, which computes on them in `uint32_t`). -/
structure MessageOut where
  flags : Nat
  number : Nat
  onProgress : Option Nat
  payload : List Nat
  bytesSent : Nat
  unackedBytes : Nat
deriving DecidableEq, Repr

/-- The constructor `MessageOut::MessageOut` (lines 39-48).  It asserts
`payload.size <= UINT32_MAX`; a failed assertion is `none`. -/
def MessageOut.new (flags : Nat) (payload : List Nat) (number : Nat) :
    Option MessageOut :=
  if payload.length ≤ UINT32_MAX then
    some { flags := flags, number := number, onProgress := none, payload := payload,
           bytesSent := 0, unackedBytes := 0 }
  else none

/-- `Message::noReply()` on an outbound message. -/
def MessageOut.noReply (m : MessageOut) : Bool := hasFlag m.flags kNoReply

/-- `Message::type()` on an outbound message. -/
def MessageOut.type (m : MessageOut) : Nat := flagsType m.flags

/-- What one call of `nextFrameToSend` produces: the updated message, the
returned frame, `outFlags`, and the calls made to the progress callback. -/
structure FrameOut where
  msg : MessageOut
  frame : List Nat
  outFlags : Nat
  progress : List (Nat × MessageProgress)
deriving DecidableEq, Repr

/-- Line 52: `size = min(maxSize, _payload.size - _bytesSent)` in `size_t`. -/
def MessageOut.nextSize (m : MessageOut) (maxSize : Nat) : Nat :=
  min maxSize ((m.payload.length + kMod64 - m.bytesSent) % kMod64)

/-- `MessageOut::nextFrameToSend` (lines 51-68). -/
def MessageOut.nextFrameToSend (m : MessageOut) (maxSize : Nat) : FrameOut :=
  let size := m.nextSize maxSize
  let frame := (m.payload.drop m.bytesSent).take size
  let bytesSent := (m.bytesSent + size) % kMod32
  let unackedBytes := (m.unackedBytes + size) % kMod32
  let m1 : MessageOut := { m with bytesSent := bytesSent, unackedBytes := unackedBytes }
  let more := decide (bytesSent < m.payload.length)
  let outFlags := if more then m.flags ||| kMoreComing else m.flags
  let state :=
    if more then ProgressState.kSending
    else if m.noReply then ProgressState.kComplete
    else ProgressState.kAwaitingReply
  { msg := m1, frame := frame, outFlags := outFlags,
    progress := sendProgress m.onProgress
      { state := state, bytesSent := bytesSent, bytesReceived := 0, reply := none } }

/-- `MessageOut::receivedAck` (lines 71-74). -/
def MessageOut.receivedAck (m : MessageOut) (byteCount : Nat) : MessageOut :=
  if byteCount ≤ m.bytesSent then
    { m with unackedBytes := min m.unackedBytes ((m.bytesSent - byteCount) % kMod32) }
  else m

/-- A call made on an outbound message. -/
inductive OutCall
  | nextFrameToSend (maxSize : Nat)
  | receivedAck (byteCount : Nat)
deriving DecidableEq, Repr

/-- The message after one call. -/
def MessageOut.call (m : MessageOut) : OutCall → MessageOut
  | .nextFrameToSend maxSize => (m.nextFrameToSend maxSize).msg
  | .receivedAck byteCount => m.receivedAck byteCount

/-- The message after a sequence of calls, in order. -/
def MessageOut.calls (m : MessageOut) (cs : List OutCall) : MessageOut :=
  cs.foldl MessageOut.call m

/-- Calls `nextFrameToSend(maxSize)` repeatedly until the returned flags lack
`kMoreComing`, at most `fuel` times; the (frame, flags) pairs in order. -/
def MessageOut.sendAll (maxSize : Nat) : Nat → MessageOut → List (List Nat × Nat)
  | 0, _ => []
  | fuel + 1, m =>
    let r := m.nextFrameToSend maxSize
    (r.frame, r.outFlags) ::
      (if r.outFlags &&& kMoreComing = 0 then [] else MessageOut.sendAll maxSize fuel r.msg)

/-- The class invariant of an outbound message: the counters are ordered and
the payload fits the 32-bit counters. -/
def MessageOut.Valid (m : MessageOut) : Prop :=
  m.unackedBytes ≤ m.bytesSent ∧ m.bytesSent ≤ m.payload.length ∧
    m.payload.length ≤ UINT32_MAX

/-- The number of frames a payload of `len` bytes is cut into:
`max(1, ceil(len / maxSize))`. -/
def frameCount (len maxSize : Nat) : Nat := max 1 ((len + maxSize - 1) / maxSize)

/-- An outbound message in the middle of sending: one byte of three sent, with
a progress callback. -/
def sampleOut : MessageOut :=
  { flags := 0, number := 1, onProgress := some 7, payload := [1, 2, 3],
    bytesSent := 1, unackedBytes := 1 }

/-- A freshly constructed outbound message with a three-byte payload. -/
def freshOut : MessageOut :=
  { flags := 0, number := 1, onProgress := none, payload := [1, 2, 3],
    bytesSent := 0, unackedBytes := 0 }

/-! ## Inbound messages -/

/-- The return value of `receivedFrame`. -/
inductive ReceiveState
  | kOther
  | kBeginning
  | kEnd
deriving DecidableEq, Repr

/-- How a call of `receivedFrame` ends: it returns a state, throws a C string,
fails an `assert`, or has undefined behaviour (a null `_in` dereferenced, or a
read past the end of the frame). -/
inductive Outcome
  | returned (state : ReceiveState)
  | thrown (what : String)
  | assertFailed
  | undefined
deriving DecidableEq, Repr

/-- The external libraries `receivedFrame` calls, whose code is not part of
the repository.  `finishEmptyNull` says whether the encoder's `finish()` gives
the null slice when nothing was written (otherwise a non-null empty slice);
`decompress` is the streaming gzip decompressor, a function of the chunks
fed before and of the chunk fed now. -/
structure Lib where
  finishEmptyNull : Bool
  decompress : List (List Nat) → List Nat → List Nat

/-- The `alloc_slice` returned by `_in->finish()` for the bytes written. -/
def Lib.finish (L : Lib) (written : List Nat) : Option (List Nat) :=
  if written = [] ∧ L.finishEmptyNull = true then none else some written

/-- The bytes of an `alloc_slice`; the null slice has none. -/
def sliceBytes (s : Option (List Nat)) : List Nat := s.getD []

/-- State of a `MessageIn`.  `in_` is `_in`: `none` for a null pointer,
otherwise the bytes written to the encoder since it was last reset.
`decompressor` is `none` for a null pointer, otherwise the chunks fed to the
decompressor so far.  `propertiesSize` and `unackedBytes` are `uint32_t`. -/
structure MessageIn where
  flags : Nat
  number : Nat
  onProgress : Option Nat
  outgoingSize : Nat
  in_ : Option (List Nat)
  decompressor : Option (List (List Nat))
  propertiesSize : Nat
  unackedBytes : Nat
  properties : Option (List Nat)
  body : Option (List Nat)
  complete : Bool
deriving DecidableEq, Repr

/-- The constructor `MessageIn::MessageIn` (lines 95-102). -/
def MessageIn.new (flags : Nat) (n : Nat) (onProgress : Option Nat)
    (outgoingSize : Nat) : MessageIn :=
  { flags := flags, number := n, onProgress := onProgress, outgoingSize := outgoingSize,
    in_ := none, decompressor := none, propertiesSize := 0, unackedBytes := 0,
    properties := none, body := none, complete := false }

/-- `Message::type()` on an inbound message. -/
def MessageIn.type (m : MessageIn) : Nat := flagsType m.flags

/-- Modelled from the spec: `Message.hh` is absent.  `Message::isResponse()`:
whether the message is a reply, which has type RESPONSE or, for an error
reply, type ERROR. -/
def MessageIn.isResponse (m : MessageIn) : Bool :=
  m.type == kResponseType || m.type == kErrorType

/-- `MessageIn::isComplete` (lines 192-195). -/
def MessageIn.isComplete (m : MessageIn) : Bool := m.complete

/-- `MessageOut::createResponse` (lines 77-84): `none` is the null pointer. -/
def MessageOut.createResponse (m : MessageOut) : Option MessageIn :=
  if m.type ≠ kRequestType ∨ m.noReply = true then none
  else some (MessageIn.new kResponseType m.number m.onProgress m.payload.length)

/-- What one call of `receivedFrame` produces: the message as the call leaves
it, the messages handed to `_connection->send`, the calls made to the
progress callback, and how the call ended. -/
structure RecvResult where
  msg : MessageIn
  sent : List MessageOut
  progress : List (Nat × MessageProgress)
  outcome : Outcome
deriving DecidableEq, Repr

/-- The local variables of `receivedFrame` between its steps. -/
structure Locals where
  msg : MessageIn
  frame : List Nat
  state : ReceiveState
  bytesReceived : Nat
  sent : List MessageOut
deriving DecidableEq, Repr

/-- A call that ends without returning: nothing more is sent and the progress
callback is not reached. -/
def Locals.fail (s : Locals) (m : MessageIn) (o : Outcome) : Except RecvResult Locals :=
  .error { msg := m, sent := s.sent, progress := [], outcome := o }

/-- Lines 106-123: `bytesReceived`, and on the first frame the flags, the
encoder and the properties length. -/
def MessageIn.firstFrame (m : MessageIn) (frame : List Nat) (frameFlags : Nat) :
    Except RecvResult Locals :=
  match m.in_ with
  | some w =>
    .ok { msg := m, frame := frame, state := .kOther,
          bytesReceived := (frame.length + w.length) % kMod64, sent := [] }
  | none =>
    if m.number = 0 then
      .error { msg := m, sent := [], progress := [], outcome := .assertFailed }
    else
      let m1 : MessageIn := { m with flags := frameFlags &&& 0xBF, in_ := some [] }
      match ReadUVarInt32 frame with
      | none =>
        .error { msg := m1, sent := [], progress := [], outcome := .thrown "frame too small" }
      | some (n, rest) =>
        .ok { msg := { m1 with propertiesSize := n }, frame := rest, state := .kOther,
              bytesReceived := frame.length % kMod64, sent := [] }

/-- Lines 125-135: completion of the properties. -/
def MessageIn.readProperties (L : Lib) (s : Locals) : Except RecvResult Locals :=
  match s.msg.in_ with
  | none => s.fail s.msg .undefined
  | some w =>
    if s.msg.properties = none ∧ w.length + s.frame.length ≥ s.msg.propertiesSize then
      let remaining := (s.msg.propertiesSize + kMod64 - w.length) % kMod64
      if remaining > s.frame.length then s.fail s.msg .undefined
      else
        let properties := L.finish (w ++ s.frame.take remaining)
        let m1 : MessageIn := { s.msg with properties := properties, in_ := some [] }
        if (sliceBytes properties).length > 0 ∧ (sliceBytes properties).getLast? ≠ some 0 then
          s.fail m1 (.thrown "message properties not null-terminated")
        else
          .ok { s with msg := m1, frame := s.frame.drop remaining, state := .kBeginning }
    else .ok s

/-- Lines 137-149: the unacknowledged-bytes counter and the ACK message. -/
def MessageIn.acknowledge (s : Locals) : Except RecvResult Locals :=
  let unackedBytes := (s.msg.unackedBytes + s.frame.length) % kMod32
  let m1 : MessageIn := { s.msg with unackedBytes := unackedBytes }
  if unackedBytes ≥ kIncomingAckThreshold then
    let msgType := if m1.isResponse then kAckResponseType else kAckRequestType
    match MessageOut.new (msgType ||| kUrgent ||| kNoReply)
        (PutUVarInt s.bytesReceived) m1.number with
    | none => s.fail m1 .assertFailed
    | some ack =>
      .ok { s with msg := { m1 with unackedBytes := 0 }, sent := s.sent ++ [ack] }
  else .ok { s with msg := m1 }

/-- Lines 151-160: the rest of the frame goes to the encoder, through the
decompressor when the properties are present and the message is compressed. -/
def MessageIn.writeBody (L : Lib) (s : Locals) : Except RecvResult Locals :=
  match s.msg.in_ with
  | none => s.fail s.msg .undefined
  | some w =>
    if s.msg.properties ≠ none ∧ s.msg.flags &&& kCompressed ≠ 0 then
      let fed := s.msg.decompressor.getD []
      let output := L.decompress fed s.frame
      let m1 : MessageIn := { s.msg with decompressor := some (fed ++ [s.frame]) }
      if output = [] then s.fail m1 (.thrown "invalid gzipped data")
      else .ok { s with msg := { m1 with in_ := some (w ++ output) } }
    else .ok { s with msg := { s.msg with in_ := some (w ++ s.frame) } }

/-- Lines 162-174: completion of the message. -/
def MessageIn.finishMessage (L : Lib) (frameFlags : Nat) (s : Locals) :
    Except RecvResult Locals :=
  if frameFlags &&& kMoreComing = 0 then
    if s.msg.properties = none then
      s.fail s.msg (.thrown "message ends before end of properties")
    else
      match s.msg.in_ with
      | none => s.fail s.msg .undefined
      | some w =>
        .ok { s with
              msg := { s.msg with body := L.finish w, in_ := none, decompressor := none,
                                  complete := true },
              state := .kEnd }
  else .ok s

/-- The steps of `receivedFrame` up to and including the properties step
(lines 106-135): the state in which the ACK step is reached. -/
def MessageIn.toAckStep (L : Lib) (m : MessageIn) (frame : List Nat) (frameFlags : Nat) :
    Except RecvResult Locals :=
  m.firstFrame frame frameFlags >>= MessageIn.readProperties L

/-- The steps of `receivedFrame` before the completion step (lines 106-160). -/
def MessageIn.toCompletionStep (L : Lib) (m : MessageIn) (frame : List Nat)
    (frameFlags : Nat) : Except RecvResult Locals :=
  m.toAckStep L frame frameFlags >>= MessageIn.acknowledge >>= MessageIn.writeBody L

/-- `MessageIn::receivedFrame` (lines 105-183). -/
def MessageIn.receivedFrame (L : Lib) (m : MessageIn) (frame : List Nat)
    (frameFlags : Nat) : RecvResult :=
  match m.toCompletionStep L frame frameFlags >>= MessageIn.finishMessage L frameFlags with
  | .error r => r
  | .ok s =>
    { msg := s.msg, sent := s.sent,
      progress := sendProgress s.msg.onProgress
        { state := if s.state = .kEnd then .kComplete else .kReceivingReply,
          bytesSent := s.msg.outgoingSize, bytesReceived := s.bytesReceived,
          reply := if s.msg.properties ≠ none then some s.msg.number else none },
      outcome := .returned s.state }

/-- The ACK message that the ACK step builds (lines 140-146) for a message
and a count of bytes received. -/
def ackMessage (m : MessageIn) (bytesReceived : Nat) : MessageOut :=
  { flags := (if m.isResponse then kAckResponseType else kAckRequestType)
               ||| kUrgent ||| kNoReply,
    number := m.number, onProgress := none, payload := PutUVarInt bytesReceived,
    bytesSent := 0, unackedBytes := 0 }

/-- The value of `_unackedBytes` after line 137, `_unackedBytes += frame.size`
in `uint32_t`. -/
def ackSum (s : Locals) : Nat := (s.msg.unackedBytes + s.frame.length) % kMod32

/-- The steps of `receivedFrame` that follow the ACK step (lines 151-183), as
the result of the call. -/
def MessageIn.afterAckStep (L : Lib) (frameFlags : Nat) (s : Locals) : RecvResult :=
  match MessageIn.writeBody L s >>= MessageIn.finishMessage L frameFlags with
  | .error r => r
  | .ok s =>
    { msg := s.msg, sent := s.sent,
      progress := sendProgress s.msg.onProgress
        { state := if s.state = .kEnd then .kComplete else .kReceivingReply,
          bytesSent := s.msg.outgoingSize, bytesReceived := s.bytesReceived,
          reply := if s.msg.properties ≠ none then some s.msg.number else none },
      outcome := .returned s.state }

/-- An inbound message in the middle of its body, one byte short of the ACK
threshold. -/
def sampleIn : MessageIn :=
  { flags := 0, number := 1, onProgress := none, outgoingSize := 0, in_ := some [],
    decompressor := none, propertiesSize := 1, unackedBytes := 49999,
    properties := some [0], body := none, complete := false }

/-- A library whose encoder gives a non-null empty slice and whose
decompressor produces nothing; uncompressed messages never call the latter. -/
def plainLib : Lib := { finishEmptyNull := false, decompress := fun _ _ => [] }

/-- The inbound message after a first frame that carried only the length
field and a one-byte properties block: `receivedFrame [1, 0]` on a fresh
REQUEST number 1. -/
def afterHeaderIn : MessageIn :=
  { flags := 0, number := 1, onProgress := none, outgoingSize := 0, in_ := some [],
    decompressor := none, propertiesSize := 1, unackedBytes := 0,
    properties := some [0], body := none, complete := false }

/-- An uncompressed inbound message that has received the first `r` bytes of
the stream `S` that follows the length field, the properties block being the
first `p` bytes of `S`: while `r < p` the properties are null and the encoder
holds the `r` bytes; from then on the properties are `S[0, p)` and the
encoder holds the body bytes `S[p, r)`. -/
def MessageIn.Receiving (S : List Nat) (p r : Nat) (m : MessageIn) : Prop :=
  m.propertiesSize = p ∧ m.flags &&& kCompressed = 0 ∧
  (r < p → m.properties = none ∧ m.in_ = some (S.take r)) ∧
  (p ≤ r → m.properties = some (S.take p) ∧ m.in_ = some ((S.drop p).take (r - p)))

/-- An inbound message to which the first `t` bytes of a payload have been
delivered, the payload being a length field of `v` bytes followed by the
stream `S`: either nothing was delivered and the message is fresh, or the
length field has been read and the message is receiving the stream. -/
def MessageIn.At (S : List Nat) (p v t : Nat) (m : MessageIn) : Prop :=
  (t = 0 ∧ m.in_ = none ∧ m.number ≠ 0 ∧ m.properties = none) ∨
  (v ≤ t ∧ m.Receiving S p (t - v))

/-- The body of the 120 000-byte scenario message: 119 998 bytes `A`. -/
def scenarioBody : List Nat := List.replicate 119998 65

/-- The 120 000-byte payload of the scenario message: the length field 0x01,
the properties block of one NUL byte, and the body. -/
def scenarioPayload : List Nat := PutUVarInt 1 ++ ([0] ++ scenarioBody)

/-- An inbound message that has received part of its properties: five bytes
announced, two received. -/
def pendingIn : MessageIn :=
  { flags := 0, number := 1, onProgress := none, outgoingSize := 0, in_ := some [1, 2],
    decompressor := none, propertiesSize := 5, unackedBytes := 2,
    properties := none, body := none, complete := false }

/-- What `receivedFrame` checks of a properties block (line 131): it is empty
or its last byte is NUL. -/
def WellTerminated (P : List Nat) : Prop := P = [] ∨ P.getLast? = some 0

/-! ## Property lookup -/

/-- The C function `strlen` at a pointer into the properties block, the list
being the bytes from that pointer to the end of the block: the number of
bytes before the first NUL, or `none` when there is no NUL before the end of
the block, so that the scan would run past it. -/
def strlen : List Nat → Option Nat
  | [] => none
  | b :: bs => if b = 0 then some 0 else (strlen bs).map (fun n => n + 1)

/-- What `MessageIn::property` gives: a non-null slice of the block, the null
slice, a `strlen` that runs past the end of the block (undefined behaviour),
or a loop that is still running when the fuel of the model is spent. -/
inductive PropertyResult
  | found (value : List Nat)
  | nullslice
  | overrun
  | outOfFuel
deriving DecidableEq, Repr

/-- The loop of `MessageIn::property` (lines 271-281); `key` is the bytes from
the pointer `key` to `end`, and each turn of the loop costs one unit of fuel. -/
def propertyLoop (property : List Nat) : Nat → List Nat → PropertyResult
  | 0, _ => .outOfFuel
  | fuel + 1, key =>
    if key = [] then .nullslice
    else
      match strlen key with
      | none => .overrun
      | some n =>
        if key.drop (n + 1) = [] then .nullslice
        else
          match strlen (key.drop (n + 1)) with
          | none => .overrun
          | some k =>
            if property = key.take n then .found ((key.drop (n + 1)).take k)
            else propertyLoop property fuel ((key.drop (n + 1)).drop (k + 1))

/-- The name looked up on the wire (lines 261-263): the one-byte token when
`tokenizeProperty(name)` is non-zero, the name itself otherwise.
`tokenizeProperty` belongs to `MessageBuilder`, which is absent, and is a
parameter. -/
def wireName (tokenizeProperty : List Nat → Nat) (name : List Nat) : List Nat :=
  if tokenizeProperty name ≠ 0 then [tokenizeProperty name] else name

/-- `MessageIn::property` (lines 260-282).  The loop runs on the bytes of
`_properties`, with more fuel than the block has bytes. -/
def MessageIn.property (tokenizeProperty : List Nat → Nat) (m : MessageIn)
    (name : List Nat) : PropertyResult :=
  propertyLoop (wireName tokenizeProperty name) ((sliceBytes m.properties).length + 1)
    (sliceBytes m.properties)

/-- The wire form of a sequence of (key, value) pairs: every key and every
value followed by a NUL byte. -/
def encodePairs (pairs : List (List Nat × List Nat)) : List Nat :=
  (pairs.map (fun kv => kv.1 ++ [0] ++ (kv.2 ++ [0]))).flatten

/-- The value of the first pair whose key is `key`, if there is one. -/
def lookupPairs (key : List Nat) (pairs : List (List Nat × List Nat)) :
    Option (List Nat) :=
  (pairs.find? (fun kv => decide (kv.1 = key))).map Prod.snd

/-- The outcome of `property` that corresponds to a lookup among pairs. -/
def lookupResult : Option (List Nat) → PropertyResult
  | some v => .found v
  | none => .nullslice

/-- The C library predicate `isspace` in the C locale: space, tab, newline,
vertical tab, form feed, carriage return. -/
def isspace (c : Nat) : Bool := c == 32 || (9 ≤ c && c ≤ 13)

/-- The C library predicate `isdigit`: the characters `0` to `9`. -/
def isdigit (c : Nat) : Bool := 48 ≤ c && c ≤ 57

/-- The value of `LONG_MAX` where `long` has 64 bits. -/
def LONG_MAX : Int := 9223372036854775807

/-- The value of `LONG_MIN` where `long` has 64 bits. -/
def LONG_MIN : Int := -9223372036854775808

/-- The number that a string of decimal digits denotes. -/
def decimalValue (digits : List Nat) : Nat :=
  digits.foldl (fun acc d => acc * 10 + (d - 48)) 0

/-- The value `strtol` returns for a mathematical value: the value itself when
it is in the range of `long`, else `LONG_MAX` or `LONG_MIN`. -/
def clampLong (v : Int) : Int :=
  if v > LONG_MAX then LONG_MAX else if v < LONG_MIN then LONG_MIN else v

/-- The C library function `strtol(s, &end, 10)` on the characters of a
string: white space is skipped, then an optional sign and the longest run of
digits are read.  The result is the value, clamped to the range of `long`,
with the characters after the digits as `end`; without any digit no
conversion is made and it is 0 with `end` at the start of the string. -/
def strtol (s : List Nat) : Int × List Nat :=
  let t := s.dropWhile isspace
  let u := if t.head? = some 45 ∨ t.head? = some 43 then t.tail else t
  if u.takeWhile isdigit = [] then (0, s)
  else
    (clampLong (if t.head? = some 45 then -(decimalValue (u.takeWhile isdigit) : Int)
                else (decimalValue (u.takeWhile isdigit) : Int)),
     u.dropWhile isdigit)

/-- Lines 287-293 of `MessageIn::intProperty`, on the bytes of the property
value: the default for the empty string and when `*end` is not the
terminating NUL, else the result of `strtol`. -/
def intOfValue (value : List Nat) (defaultValue : Int) : Int :=
  if value = [] then defaultValue
  else
    match (strtol value).2 with
    | [] => (strtol value).1
    | c :: _ => if c ≠ 0 then defaultValue else (strtol value).1

/-- `MessageIn::intProperty` (lines 285-294); `none` when the lookup of the
property has no defined result. -/
def MessageIn.intProperty (tokenizeProperty : List Nat → Nat) (m : MessageIn)
    (name : List Nat) (defaultValue : Int) : Option Int :=
  match m.property tokenizeProperty name with
  | .found value => some (intOfValue value defaultValue)
  | .nullslice => some defaultValue
  | .overrun => none
  | .outOfFuel => none

/-- A complete inbound message whose properties block is the pair
("n", "99999999999999999999"), the value being twenty digits 9. -/
def bigNumberIn : MessageIn :=
  { flags := 0, number := 1, onProgress := none, outgoingSize := 0, in_ := none,
    decompressor := none, propertiesSize := 23, unackedBytes := 0,
    properties := some ([110, 0] ++ List.replicate 20 57 ++ [0]), body := some [],
    complete := true }

/-- The text of a decimal signed integer as `strtol` reads one: optional white
space, an optional sign, then one or more decimal digits, and nothing else. -/
def IsDecimalText (v : List Nat) : Prop :=
  ∃ ws sg ds, v = ws ++ sg ++ ds ∧ (∀ c ∈ ws, isspace c = true) ∧
    (sg = [] ∨ sg = [43] ∨ sg = [45]) ∧ ds ≠ [] ∧ (∀ c ∈ ds, isdigit c = true)

/-- The integer that a sign (empty, `+` or `-`) and a string of digits denote. -/
def signedValue (sg ds : List Nat) : Int :=
  if sg = [45] then -(decimalValue ds : Int) else (decimalValue ds : Int)

/-- A complete inbound message whose properties block is the pair ("n", "-42"). -/
def numberIn : MessageIn :=
  { flags := 0, number := 1, onProgress := none, outgoingSize := 0, in_ := none,
    decompressor := none, propertiesSize := 6, unackedBytes := 0,
    properties := some [110, 0, 45, 52, 50, 0], body := some [],
    complete := true }

/-! ## Responses -/

/-- `Message::noReply()` on an inbound message. -/
def MessageIn.noReply (m : MessageIn) : Bool := hasFlag m.flags kNoReply

/-- The struct `Error` that `respondWithError` receives and `getError` (lines
318-324) builds: a domain, a code and a message. -/
structure Error where
  domain : List Nat
  code : Int
  message : List Nat
deriving DecidableEq, Repr

/-- Modelled from the spec: `MessageBuilder.hh` is absent.  A message builder:
the type and the flags of the message to build, its progress callback, and the
properties and the body written so far. -/
structure MessageBuilder where
  type : Nat
  urgent : Bool
  compressed : Bool
  noreply : Bool
  onProgress : Option Nat
  properties : List (List Nat × List Nat)
  body : List Nat
deriving DecidableEq, Repr

/-- Modelled from the spec: `MessageBuilder.hh` is absent.  The flags byte of
the message to build: the type field and the urgent, compressed and no-reply
bits. -/
def MessageBuilder.flags (mb : MessageBuilder) : Nat :=
  (((mb.type &&& kTypeMask) ||| (if mb.urgent then kUrgent else 0))
    ||| (if mb.compressed then kCompressed else 0)) ||| (if mb.noreply then kNoReply else 0)

/-- Modelled from the spec: `MessageBuilder.hh` is absent.  The builder
`MessageBuilder mb(this)` for a reply to an inbound message: a RESPONSE without
properties or body. -/
def MessageBuilder.reply (_m : MessageIn) : MessageBuilder :=
  { type := kResponseType, urgent := false, compressed := false, noreply := false,
    onProgress := none, properties := [], body := [] }

/-- The decimal text of an integer, in ASCII. -/
def decimalText (n : Int) : List Nat :=
  if n < 0 then 45 :: (Nat.toDigits 10 n.natAbs).map Char.toNat
  else (Nat.toDigits 10 n.natAbs).map Char.toNat

/-- The property name "Error-Domain", which `getError` (line 321) reads. -/
def kErrorDomainProperty : List Nat := [69, 114, 114, 111, 114, 45, 68, 111, 109, 97, 105, 110]

/-- The property name "Error-Code", which `getError` (line 322) reads. -/
def kErrorCodeProperty : List Nat := [69, 114, 114, 111, 114, 45, 67, 111, 100, 101]

/-- Modelled from the spec: `MessageBuilder.hh` is absent.  `makeError` turns
the message to build into an ERROR that carries the error the way `getError`
reads it back: the domain and the code as properties, the message as body. -/
def MessageBuilder.makeError (mb : MessageBuilder) (err : Error) : MessageBuilder :=
  { mb with
    type := kErrorType,
    properties := mb.properties ++
      [(kErrorDomainProperty, err.domain), (kErrorCodeProperty, decimalText err.code)],
    body := mb.body ++ err.message }

/-- Modelled from the spec: `Message.hh` is absent.  The constructor
`MessageOut(connection, builder, number)`: a new outbound message with the
given number, the flags and the progress callback of the builder, and the
builder's output as payload.  `extractOutput` is the builder's wire encoding. -/
def MessageOut.fromBuilder (extractOutput : MessageBuilder → List Nat)
    (mb : MessageBuilder) (number : Nat) : MessageOut :=
  { flags := mb.flags, number := number, onProgress := mb.onProgress,
    payload := extractOutput mb, bytesSent := 0, unackedBytes := 0 }

/-- `MessageIn::respond` (lines 231-240): the builder as the call leaves it
(it is passed by reference) and the messages handed to `_connection->send`. -/
def MessageIn.respond (extractOutput : MessageBuilder → List Nat) (m : MessageIn)
    (mb : MessageBuilder) : MessageBuilder × List MessageOut :=
  if m.noReply = true then (mb, [])
  else
    let mb1 := if mb.type = kRequestType then { mb with type := kResponseType } else mb
    (mb1, [MessageOut.fromBuilder extractOutput mb1 m.number])

/-- `MessageIn::respondWithError` (lines 243-249): the messages handed to
`_connection->send`. -/
def MessageIn.respondWithError (extractOutput : MessageBuilder → List Nat) (m : MessageIn)
    (err : Error) : List MessageOut :=
  if ¬ (m.noReply = true) then
    (m.respond extractOutput ((MessageBuilder.reply m).makeError err)).2
  else []

/-- The error of `notHandled` (line 253): domain "BLIP", code 404, message
"no handler for message". -/
def kNotHandledError : Error :=
  { domain := [66, 76, 73, 80], code := 404,
    message := [110, 111, 32, 104, 97, 110, 100, 108, 101, 114, 32, 102, 111, 114, 32,
                109, 101, 115, 115, 97, 103, 101] }

/-- `MessageIn::notHandled` (lines 252-254). -/
def MessageIn.notHandled (extractOutput : MessageBuilder → List Nat) (m : MessageIn) :
    List MessageOut :=
  m.respondWithError extractOutput kNotHandledError

/-- A complete inbound request, number 7, with the no-reply flag. -/
def noReplyIn : MessageIn :=
  { flags := kNoReply, number := 7, onProgress := none, outgoingSize := 0, in_ := none,
    decompressor := none, propertiesSize := 0, unackedBytes := 0,
    properties := some [], body := some [], complete := true }

/-- A complete inbound request, number 7, that expects a reply. -/
def requestIn : MessageIn :=
  { flags := kRequestType, number := 7, onProgress := none, outgoingSize := 0, in_ := none,
    decompressor := none, propertiesSize := 0, unackedBytes := 0,
    properties := some [], body := some [], complete := true }

/-- A builder left at type REQUEST, with the body "ok". -/
def requestBuilder : MessageBuilder :=
  { type := kRequestType, urgent := false, compressed := false, noreply := false,
    onProgress := none, properties := [], body := [111, 107] }

/-- A wire encoding for closed examples: the length of the properties block as
a varint, the block, then the body, uncompressed. -/
def plainOutput (mb : MessageBuilder) : List Nat :=
  PutUVarInt (encodePairs mb.properties).length ++ encodePairs mb.properties ++ mb.body

/-! ## WebSocket engine -/

/-- Modelled from the spec: `WebSocketProtocol.hh` is absent.  The opcode of a
text message (RFC 6455). -/
def TEXT : Nat := 1

/-- Modelled from the spec: `WebSocketProtocol.hh` is absent.  The opcode of a
binary message (RFC 6455). -/
def BINARY : Nat := 2

/-- Modelled from the spec: `WebSocketProtocol.hh` is absent.  The opcode of a
CLOSE frame, 0x8. -/
def CLOSE : Nat := 8

/-- Modelled from the spec: `WebSocketProtocol.hh` is absent.  The opcode of a
PING frame (RFC 6455). -/
def PING : Nat := 9

/-- Modelled from the spec: `WebSocketProtocol.hh` is absent.  The opcode of a
PONG frame (RFC 6455). -/
def PONG : Nat := 10

/-- `kSendBufferSize` (line 21). -/
def kSendBufferSize : Nat := 64 * 1024

/-- Modelled from the spec: `WebSocketInterface.hh` is absent.  Status code of a
normal closure. -/
def kCodeNormal : Int := 1000

/-- Modelled from the spec: `WebSocketInterface.hh` is absent.  Status code of an
abnormal closure, only reported locally. -/
def kCodeAbnormal : Int := 1006

/-- Modelled from the spec: `WebSocketInterface.hh` is absent.  Status code
reported when the close payload has no status code (1005 in RFC 6455). -/
def kCodeStatusCodeExpected : Int := 1005

/-- Modelled from the spec: `WebSocketInterface.hh` is absent.  The layer a
close status comes from: the WebSocket layer or a POSIX error number. -/
inductive CloseReason
  | kWebSocketClose
  | kPOSIXError
deriving DecidableEq, Repr

/-- Modelled from the spec: `WebSocketInterface.hh` is absent.  The status that
`onWebSocketClose` receives. -/
structure CloseStatus where
  reason : CloseReason
  code : Int
  message : List Nat
deriving DecidableEq, Repr

/-- The functions of `ClientProtocol` (`WebSocketProtocol.hh`, absent) that the
engine calls: the size of the frame `formatMessage` writes for a message and an
opcode, `isValidUtf8`, `formatClosePayload` of a status code and a message, and
`parseClosePayload`, of which the code and the message are kept. -/
structure Protocol where
  formatMessage : List Nat → Nat → Nat
  isValidUtf8 : List Nat → Bool
  formatClosePayload : Nat → List Nat → List Nat
  parseClosePayload : List Nat → Nat × List Nat

/-- The fields of a `WebSocketImpl` (WebSocketImpl.hh lines 68-76).  A null
`alloc_slice` is `none`; `bufferedBytes` is a `size_t`, `bytesSent` and
`bytesReceived` are `uint64_t`. -/
structure WebSocketImpl where
  curOpCode : Nat
  curMessage : Option (List Nat)
  curMessageCapacity : Nat
  bufferedBytes : Nat
  bytesSent : Nat
  bytesReceived : Nat
  closeSent : Bool
  closeReceived : Bool
  closeMessage : Option (List Nat)
deriving DecidableEq, Repr

/-- A freshly constructed engine: the member initialisers of WebSocketImpl.hh.
`_curOpCode` and `_curMessageCapacity`, which have none, are shown as 0. -/
def WebSocketImpl.new : WebSocketImpl :=
  { curOpCode := 0, curMessage := none, curMessageCapacity := 0, bufferedBytes := 0,
    bytesSent := 0, bytesReceived := 0, closeSent := false, closeReceived := false,
    closeMessage := none }

/-- What the engine does to the outside: `provider().sendBytes` with the frame
that `formatMessage` makes of a message under an opcode (shown by opcode,
message and frame size), `provider().closeSocket`, and the delegate callbacks
`onWebSocketMessage`, `onWebSocketWriteable` and `onWebSocketClose`. -/
inductive Effect
  | sendBytes (opcode : Nat) (message : List Nat) (size : Nat)
  | closeSocket
  | onWebSocketMessage (message : Option (List Nat)) (binary : Bool)
  | onWebSocketWriteable
  | onWebSocketClose (status : CloseStatus)
deriving DecidableEq, Repr

/-- What a call of an engine method that returns `bool` produces. -/
structure Called where
  ws : WebSocketImpl
  effects : List Effect
  result : Bool
deriving DecidableEq, Repr

/-- `WebSocketImpl::sendOp` (lines 113-129). -/
def WebSocketImpl.sendOp (P : Protocol) (ws : WebSocketImpl) (message : List Nat)
    (opcode : Nat) : Called :=
  if ws.closeSent = true ∧ opcode ≠ CLOSE then
    { ws := ws, effects := [], result := false }
  else
    let size := P.formatMessage message opcode
    let buffered := (ws.bufferedBytes + size) % kMod64
    { ws := { ws with bufferedBytes := buffered },
      effects := [.sendBytes opcode message size],
      result := decide (buffered ≤ kSendBufferSize) }

/-- `WebSocketImpl::send` (lines 108-110). -/
def WebSocketImpl.send (P : Protocol) (ws : WebSocketImpl) (message : List Nat)
    (binary : Bool) : Called :=
  ws.sendOp P message (if binary = true then BINARY else TEXT)

/-- `WebSocketImpl::onWriteComplete` (lines 132-152). -/
def WebSocketImpl.onWriteComplete (ws : WebSocketImpl) (size : Nat) :
    WebSocketImpl × List Effect :=
  let notify := decide (ws.bufferedBytes > kSendBufferSize)
  let buffered := (ws.bufferedBytes + (kMod64 - size % kMod64)) % kMod64
  let notify := if buffered > kSendBufferSize then false else notify
  let disconnect := ws.closeSent && ws.closeReceived && buffered == 0
  ({ ws with bytesSent := (ws.bytesSent + size) % kMod64, bufferedBytes := buffered },
   if disconnect = true then [.closeSocket]
   else if notify = true then [.onWebSocketWriteable]
   else [])

/-- `WebSocketImpl::receivedClose` (lines 249-268). -/
def WebSocketImpl.receivedClose (P : Protocol) (ws : WebSocketImpl)
    (message : Option (List Nat)) : Called :=
  if ws.closeReceived = true then { ws := ws, effects := [], result := false }
  else if ws.closeSent = true then
    { ws := { ws with closeReceived := true }, effects := [.closeSocket], result := true }
  else
    let r := WebSocketImpl.sendOp P { ws with closeReceived := true, closeMessage := message }
      (sliceBytes message) CLOSE
    { r with result := true }

/-- `WebSocketImpl::receivedMessage` (lines 199-220).  In the PING case the
call `send(message, PONG)` is a call of `send(slice, bool)`, the only `send`
of the class, so its second argument is PONG converted to `bool`. -/
def WebSocketImpl.receivedMessage (P : Protocol) (ws : WebSocketImpl) (opCode : Nat)
    (message : Option (List Nat)) : Called :=
  if opCode = TEXT then
    if P.isValidUtf8 (sliceBytes message) = false then
      { ws := ws, effects := [], result := false }
    else
      { ws := ws, effects := [.onWebSocketMessage message (decide (opCode = BINARY))],
        result := true }
  else if opCode = BINARY then
    { ws := ws, effects := [.onWebSocketMessage message (decide (opCode = BINARY))],
      result := true }
  else if opCode = CLOSE then ws.receivedClose P message
  else if opCode = PING then
    { ws.send P (sliceBytes message) (decide (PONG ≠ 0)) with result := true }
  else if opCode = PONG then { ws := ws, effects := [], result := true }
  else { ws := ws, effects := [], result := false }

/-- `WebSocketImpl::close` (lines 230-245); `none` when the assertion of line
241 fails.  `status` is an `int`, cast to `uint16_t` for `formatClosePayload`. -/
def WebSocketImpl.close (P : Protocol) (ws : WebSocketImpl) (status : Int)
    (message : List Nat) : Option (WebSocketImpl × List Effect) :=
  if ws.closeSent = true ∨ ws.closeReceived = true then some (ws, [])
  else
    let payload := P.formatClosePayload (status % 65536).toNat message
    if payload.length ≤ 2 + message.length then
      let r := WebSocketImpl.sendOp P { ws with closeSent := true, closeMessage := some payload }
        payload CLOSE
      some (r.ws, r.effects)
    else none

/-- `WebSocketImpl::onClose` (lines 272-309). -/
def WebSocketImpl.onClose (P : Protocol) (ws : WebSocketImpl) (err_no : Int) :
    WebSocketImpl × List Effect :=
  let status : CloseStatus :=
    if err_no = 0 then
      if ws.closeSent = false ∨ ws.closeReceived = false then
        { reason := .kWebSocketClose, code := kCodeAbnormal, message := [] }
      else
        match ws.closeMessage with
        | none => { reason := .kWebSocketClose, code := kCodeNormal, message := [] }
        | some payload =>
          { reason := .kWebSocketClose,
            code := if (P.parseClosePayload payload).1 ≠ 0
                    then ((P.parseClosePayload payload).1 : Int)
                    else kCodeStatusCodeExpected,
            message := (P.parseClosePayload payload).2 }
    else { reason := .kPOSIXError, code := err_no, message := [] }
  ({ ws with closeMessage := none }, [.onWebSocketClose status])

/-- The byte ranges that the bytes after the first byte of a UTF-8 sequence
have to lie in; `none` for a byte that cannot start a sequence. -/
def utf8Tail (b : Nat) : Option (List (Nat × Nat)) :=
  if b < 0x80 then some []
  else if 0xC2 ≤ b ∧ b ≤ 0xDF then some [(0x80, 0xBF)]
  else if b = 0xE0 then some [(0xA0, 0xBF), (0x80, 0xBF)]
  else if b = 0xED then some [(0x80, 0x9F), (0x80, 0xBF)]
  else if 0xE1 ≤ b ∧ b ≤ 0xEF then some [(0x80, 0xBF), (0x80, 0xBF)]
  else if b = 0xF0 then some [(0x90, 0xBF), (0x80, 0xBF), (0x80, 0xBF)]
  else if b = 0xF4 then some [(0x80, 0x8F), (0x80, 0xBF), (0x80, 0xBF)]
  else if 0xF1 ≤ b ∧ b ≤ 0xF3 then some [(0x80, 0xBF), (0x80, 0xBF), (0x80, 0xBF)]
  else none

/-- Whether bytes are well-formed UTF-8 (RFC 3629), given the ranges expected
for the bytes that continue a sequence already begun. -/
def utf8Scan : List (Nat × Nat) → List Nat → Bool
  | [], [] => true
  | _ :: _, [] => false
  | range :: expected, b :: rest =>
    decide (range.1 ≤ b ∧ b ≤ range.2) && utf8Scan expected rest
  | [], b :: rest =>
    match utf8Tail b with
    | some expected => utf8Scan expected rest
    | none => false

/-- Modelled from the spec: `WebSocketProtocol.hh` is absent.  Client-side
RFC 6455 framing for closed examples: a frame is a header of 2, 4 or 10 bytes
(by payload length), a 4-byte mask and the payload; a close payload is the
2-byte big-endian status followed by the message, and parsing one without a
status code gives code 0. -/
def clientProtocol : Protocol :=
  { formatMessage := fun message _ =>
      (if message.length < 126 then 2 else if message.length ≤ 65535 then 4 else 10)
        + 4 + message.length,
    isValidUtf8 := utf8Scan [],
    formatClosePayload := fun code message => [code / 256 % 256, code % 256] ++ message,
    parseClosePayload := fun payload =>
      match payload with
      | hi :: lo :: message => (hi * 256 + lo, message)
      | _ => (0, []) }

/-- An engine on which `close` has set `closeSent` and which has nothing
buffered. -/
def closeSentWs : WebSocketImpl := { WebSocketImpl.new with closeSent := true }

/-- An open engine with 65 530 bytes buffered, 6 below `kSendBufferSize`. -/
def nearlyFullWs : WebSocketImpl := { WebSocketImpl.new with bufferedBytes := 65530 }

/-- An open engine with 70 000 bytes buffered. -/
def fullWs : WebSocketImpl := { WebSocketImpl.new with bufferedBytes := 70000 }

/-- An engine with 70 000 bytes buffered on which the close handshake has been
exchanged in both directions. -/
def closedFullWs : WebSocketImpl :=
  { WebSocketImpl.new with bufferedBytes := 70000, closeSent := true, closeReceived := true }

/-- An engine on which the close handshake has been exchanged and whose
stored close message is the payload (3, 232, "bye"), status code 1000. -/
def closedByeWs : WebSocketImpl :=
  { WebSocketImpl.new with closeSent := true, closeReceived := true,
                           closeMessage := some [3, 232, 98, 121, 101] }

/-! ## Batching queue -/

/-- The fields of a `Batcher` (Batcher.hh lines 82-89) that its methods use.
`latency` is the count of a `Timer::duration`, `capacity` a `size_t`; `items`
is `none` for a null `unique_ptr`, otherwise the vector it owns. -/
structure Batcher (α : Type) where
  latency : Int
  capacity : Nat
  items : Option (List α)
  scheduled : Bool
deriving DecidableEq, Repr

/-- The constructor `Batcher` (lines 44-49), with the member initialisers. -/
def Batcher.new (α : Type) (latency : Int) (capacity : Nat) : Batcher α :=
  { latency := latency, capacity := capacity, items := none, scheduled := false }

/-- The calls a `Batcher` makes to its actor, always with its processor:
`enqueueAfter(latency, processor)` and `enqueue(processor)`. -/
inductive ActorCall
  | enqueueAfter (delay : Int)
  | enqueue
deriving DecidableEq, Repr

/-- `Batcher::push` (lines 52-70): the batcher after the call and the calls
made to the actor, in order. -/
def Batcher.push {α : Type} (b : Batcher α) (item : α) : Batcher α × List ActorCall :=
  let items :=
    (match b.items with
     | none => []
     | some v => v) ++ [item]
  let delayed := if b.scheduled = false then [ActorCall.enqueueAfter b.latency] else []
  let immediate :=
    if b.latency > 0 ∧ b.capacity > 0 ∧ items.length = b.capacity
    then [ActorCall.enqueue] else []
  ({ b with items := some items, scheduled := true }, delayed ++ immediate)

/-- `Batcher::pop` (lines 75-80): the batcher after the call and the returned
`Items`, `none` for a null pointer. -/
def Batcher.pop {α : Type} (b : Batcher α) : Batcher α × Option (List α) :=
  ({ b with scheduled := false, items := none }, b.items)

/-- A call of `push` or of `pop`. -/
inductive BatcherCall (α : Type)
  | push (item : α)
  | pop
deriving DecidableEq, Repr

/-- Runs calls of `push` and `pop` in order, each under the mutex: the batcher
after them and the values the calls of `pop` returned, in order. -/
def Batcher.run {α : Type} : Batcher α → List (BatcherCall α) →
    Batcher α × List (Option (List α))
  | b, [] => (b, [])
  | b, .push item :: calls => Batcher.run (b.push item).1 calls
  | b, .pop :: calls =>
    ((Batcher.run b.pop.1 calls).1, b.pop.2 :: (Batcher.run b.pop.1 calls).2)

/-- The items a batcher holds; none when its vector is null. -/
def Batcher.held {α : Type} (b : Batcher α) : List α := b.items.getD []

/-- The items that calls push, in the order of the calls. -/
def pushedItems {α : Type} : List (BatcherCall α) → List α
  | [] => []
  | .push item :: calls => item :: pushedItems calls
  | .pop :: calls => pushedItems calls

/-- The items of the batches that calls of `pop` returned, one batch after the
other; a null batch has none. -/
def poppedItems {α : Type} (batches : List (Option (List α))) : List α :=
  (batches.map (fun batch => batch.getD [])).flatten

/-! ## WebSocket engine: reassembly -/

/-- `WebSocketImpl::handleFragment` (lines 170-196); `length` is the length of
`data`.  `_curMessage.reset(capacity)` gives a non-null buffer, and the
`alloc_slice` that was moved from is null. -/
def WebSocketImpl.handleFragment (P : Protocol) (ws : WebSocketImpl) (data : List Nat)
    (remainingBytes : Nat) (opCode : Nat) (fin : Bool) : Called :=
  let ws1 : WebSocketImpl :=
    if ws.curMessage = none then
      { ws with curOpCode := opCode, curMessageCapacity := data.length + remainingBytes,
                curMessage := some [] }
    else ws
  if (sliceBytes ws1.curMessage).length + data.length > ws1.curMessageCapacity then
    { ws := ws1, effects := [], result := false }
  else
    let message := sliceBytes ws1.curMessage ++ data
    if fin = true ∧ remainingBytes = 0 then
      WebSocketImpl.receivedMessage P { ws1 with curMessage := none } ws1.curOpCode
        (some message)
    else
      { ws := { ws1 with curMessage := some message }, effects := [], result := true }

/-- The number of payload bytes in fragments, given as (data, opcode) pairs. -/
def fragmentBytes (fragments : List (List Nat × Nat)) : Nat :=
  (fragments.map (fun f => f.1.length)).sum

/-- The payload bytes of fragments, one fragment after the other. -/
def fragmentData (fragments : List (List Nat × Nat)) : List Nat :=
  (fragments.map (fun f => f.1)).flatten

/-- Delivers the payload of one frame to `handleFragment` as fragments, given
as (data, opcode) pairs: each call has `fin` set and the number of payload
bytes still to come as `remainingBytes`.  The results of the calls, in order. -/
def WebSocketImpl.deliver (P : Protocol) : WebSocketImpl → List (List Nat × Nat) → List Called
  | _, [] => []
  | ws, (data, opCode) :: rest =>
    ws.handleFragment P data (fragmentBytes rest) opCode true ::
      WebSocketImpl.deliver P (ws.handleFragment P data (fragmentBytes rest) opCode true).ws rest

/-- The engine as the dispatch of a reassembled message finds it: the opcode and
the capacity set at the first fragment, and no message in progress. -/
def WebSocketImpl.dispatching (ws : WebSocketImpl) (opCode capacity : Nat) : WebSocketImpl :=
  { ws with curOpCode := opCode, curMessageCapacity := capacity, curMessage := none }

/-! ## States of an inbound message between frames -/

/-- The number of bytes in frames, given as (frame, flags) pairs. -/
def framesBytes (frames : List (List Nat × Nat)) : Nat :=
  (frames.map (fun f => f.1.length)).sum

/-- An inbound message that is still collecting its properties block: the
properties are null, and either no frame has arrived or the encoder holds
fewer bytes than the length field announced. -/
def MessageIn.Collecting (m : MessageIn) : Prop :=
  m.properties = none ∧
  (m.in_ = none ∨ ∃ w, m.in_ = some w ∧ w.length < m.propertiesSize ∧ m.propertiesSize < kMod64)

/-- An inbound message whose empty properties block the encoder finished as a
null slice: the properties are still null although all their 0 bytes have
arrived, and the encoder holds at most `bound` bytes. -/
def MessageIn.Stuck (L : Lib) (m : MessageIn) (bound : Nat) : Prop :=
  L.finishEmptyNull = true ∧ m.properties = none ∧ m.propertiesSize = 0 ∧
  ∃ w, m.in_ = some w ∧ w.length ≤ bound

/-- A complete inbound message whose properties block is the pairs
("a", "1") and ("b", "2") on the wire. -/
def twoPropsIn : MessageIn :=
  { flags := 0, number := 1, onProgress := none, outgoingSize := 0, in_ := none,
    decompressor := none, propertiesSize := 8, unackedBytes := 0,
    properties := some [97, 0, 49, 0, 98, 0, 50, 0], body := some [], complete := true }

/-- Feeds (frame, flags) pairs to `receivedFrame` in order, stopping after a
call that does not return; the results of the calls made. -/
def MessageIn.receiveAll (L : Lib) : MessageIn → List (List Nat × Nat) → List RecvResult
  | _, [] => []
  | m, (frame, frameFlags) :: rest =>
    let r := m.receivedFrame L frame frameFlags
    r :: (match r.outcome with
          | .returned _ => MessageIn.receiveAll L r.msg rest
          | _ => [])

/-- The message after the calls of `receiveAll`. -/
def MessageIn.afterAll (m : MessageIn) (rs : List RecvResult) : MessageIn :=
  match rs.getLast? with
  | some r => r.msg
  | none => m

/-! ## Arithmetic and bit-level facts -/

theorem or_moreComing_and (f : Nat) : (f ||| kMoreComing) &&& kMoreComing = kMoreComing := by
  apply Nat.eq_of_testBit_eq
  intro i
  simp only [Nat.testBit_and, Nat.testBit_or]
  cases h : Nat.testBit kMoreComing i <;> simp

theorem or_moreComing_ne_zero (f : Nat) : (f ||| kMoreComing) &&& kMoreComing ≠ 0 := by
  rw [or_moreComing_and]; decide

theorem strip_and_compressed (x : Nat) : (x &&& 0xBF) &&& kCompressed = x &&& kCompressed := by
  rw [Nat.and_assoc]; rfl

theorem or_moreComing_and_compressed (f : Nat) :
    (f ||| kMoreComing) &&& kCompressed = f &&& kCompressed := by
  unfold kMoreComing kCompressed
  rw [Nat.and_comm, Nat.and_or_distrib_left, Nat.and_comm 8 f]
  have h : (8 : Nat) &&& 64 = 0 := by decide
  rw [h, Nat.or_zero]

/-! ## Outbound messages: one call -/

theorem nextSize_eq (m : MessageOut) (maxSize : Nat) (hv : m.Valid) :
    m.nextSize maxSize = min maxSize (m.payload.length - m.bytesSent) := by
  unfold MessageOut.nextSize
  unfold MessageOut.Valid UINT32_MAX at hv
  unfold kMod64
  omega

theorem nextFrameToSend_bytesSent (m : MessageOut) (maxSize : Nat) (hv : m.Valid) :
    (m.nextFrameToSend maxSize).msg.bytesSent
      = m.bytesSent + min maxSize (m.payload.length - m.bytesSent) := by
  have hs := nextSize_eq m maxSize hv
  unfold MessageOut.Valid UINT32_MAX at hv
  simp only [MessageOut.nextFrameToSend, hs, kMod32]
  omega

theorem nextFrameToSend_unackedBytes (m : MessageOut) (maxSize : Nat) (hv : m.Valid) :
    (m.nextFrameToSend maxSize).msg.unackedBytes
      = m.unackedBytes + min maxSize (m.payload.length - m.bytesSent) := by
  have hs := nextSize_eq m maxSize hv
  unfold MessageOut.Valid UINT32_MAX at hv
  simp only [MessageOut.nextFrameToSend, hs, kMod32]
  omega

theorem nextFrameToSend_payload (m : MessageOut) (maxSize : Nat) :
    (m.nextFrameToSend maxSize).msg.payload = m.payload := rfl

theorem nextFrameToSend_flags (m : MessageOut) (maxSize : Nat) :
    (m.nextFrameToSend maxSize).msg.flags = m.flags := rfl

theorem nextFrameToSend_valid (m : MessageOut) (maxSize : Nat) (hv : m.Valid) :
    (m.nextFrameToSend maxSize).msg.Valid := by
  have h1 := nextFrameToSend_bytesSent m maxSize hv
  have h2 := nextFrameToSend_unackedBytes m maxSize hv
  unfold MessageOut.Valid at hv ⊢
  rw [h1, h2, nextFrameToSend_payload]
  omega

theorem receivedAck_valid (m : MessageOut) (byteCount : Nat) (hv : m.Valid) :
    (m.receivedAck byteCount).Valid := by
  unfold MessageOut.Valid at hv ⊢
  unfold MessageOut.receivedAck
  split
  · simp only
    omega
  · exact hv

theorem call_valid (m : MessageOut) (c : OutCall) (hv : m.Valid) : (m.call c).Valid := by
  cases c with
  | nextFrameToSend maxSize => exact nextFrameToSend_valid m maxSize hv
  | receivedAck byteCount => exact receivedAck_valid m byteCount hv

theorem calls_valid (cs : List OutCall) (m : MessageOut) (hv : m.Valid) :
    (m.calls cs).Valid := by
  induction cs generalizing m with
  | nil => exact hv
  | cons c cs ih => exact ih (m.call c) (call_valid m c hv)

theorem new_valid (flags : Nat) (payload : List Nat) (number : Nat) (m : MessageOut)
    (h : MessageOut.new flags payload number = some m) :
    m.Valid ∧ m.payload = payload ∧ m.flags = flags ∧ m.number = number ∧
      m.bytesSent = 0 ∧ m.unackedBytes = 0 := by
  unfold MessageOut.new at h
  split at h
  · cases h
    refine ⟨⟨Nat.le_refl _, Nat.zero_le _, ?_⟩, rfl, rfl, rfl, rfl, rfl⟩
    assumption
  · cases h

theorem calls_payload (cs : List OutCall) (m : MessageOut) :
    (m.calls cs).payload = m.payload := by
  induction cs generalizing m with
  | nil => rfl
  | cons c cs ih =>
    have h : (m.call c).payload = m.payload := by
      cases c with
      | nextFrameToSend maxSize => rfl
      | receivedAck byteCount =>
        simp only [MessageOut.call, MessageOut.receivedAck]
        split <;> rfl
    exact (ih (m.call c)).trans h

theorem nextSize_le (m : MessageOut) (maxSize : Nat) (hv : m.Valid) :
    m.bytesSent + m.nextSize maxSize ≤ m.payload.length := by
  rw [nextSize_eq m maxSize hv]
  unfold MessageOut.Valid at hv
  omega

/-! ## Claims about outbound messages -/

/-- C3: an outbound message can be created for every payload of at most
2^32 - 1 bytes, and after every prefix of every sequence of nextFrameToSend
and receivedAck calls, with arbitrary arguments, unackedBytes <= bytesSent <=
payload.size holds; the additions a further nextFrameToSend would make stay
within 32 bits, so the counters never wrap around. -/
theorem C3_outbound_counter_invariant (flags : Nat) (payload : List Nat) (number : Nat)
    (hp : payload.length ≤ UINT32_MAX) :
    ∃ m0, MessageOut.new flags payload number = some m0 ∧
      ∀ (cs : List OutCall) (k : Nat),
        (m0.calls (cs.take k)).payload = payload ∧
        (m0.calls (cs.take k)).unackedBytes ≤ (m0.calls (cs.take k)).bytesSent ∧
        (m0.calls (cs.take k)).bytesSent ≤ payload.length ∧
        ∀ maxSize : Nat,
          (m0.calls (cs.take k)).bytesSent + (m0.calls (cs.take k)).nextSize maxSize
              ≤ UINT32_MAX ∧
          (m0.calls (cs.take k)).unackedBytes + (m0.calls (cs.take k)).nextSize maxSize
              ≤ UINT32_MAX := by
  have hnew : ∃ m0, MessageOut.new flags payload number = some m0 := by
    unfold MessageOut.new
    rw [if_pos hp]
    exact ⟨_, rfl⟩
  obtain ⟨m0, hm0⟩ := hnew
  refine ⟨m0, hm0, ?_⟩
  intro cs k
  obtain ⟨h0, hpay, -⟩ := new_valid flags payload number m0 hm0
  have hv := calls_valid (cs.take k) m0 h0
  have hpl : (m0.calls (cs.take k)).payload = payload :=
    (calls_payload (cs.take k) m0).trans hpay
  refine ⟨hpl, hv.1, hpl ▸ hv.2.1, ?_⟩
  intro maxSize
  have hle := nextSize_le _ maxSize hv
  have h1 := hv.1
  have h3 := hv.2.2
  omega

/-- C3 at a three-byte payload. -/
theorem C3_outbound_counter_invariant_witness :
    ∃ m0, MessageOut.new 0 [1, 2, 3] 1 = some m0 ∧
      ∀ (cs : List OutCall) (k : Nat),
        (m0.calls (cs.take k)).payload = [1, 2, 3] ∧
        (m0.calls (cs.take k)).unackedBytes ≤ (m0.calls (cs.take k)).bytesSent ∧
        (m0.calls (cs.take k)).bytesSent ≤ [1, 2, 3].length ∧
        ∀ maxSize : Nat,
          (m0.calls (cs.take k)).bytesSent + (m0.calls (cs.take k)).nextSize maxSize
              ≤ UINT32_MAX ∧
          (m0.calls (cs.take k)).unackedBytes + (m0.calls (cs.take k)).nextSize maxSize
              ≤ UINT32_MAX :=
  C3_outbound_counter_invariant 0 [1, 2, 3] 1 (by decide)

/-- C4: one nextFrameToSend(maxSize) call on a message that satisfies the
class invariant, with n = min(maxSize, payload.size - bytesSent): the frame is
the n bytes payload[bytesSent, bytesSent + n); bytesSent and unackedBytes both
advance by n; the returned flags are the message flags, with MORE_COMING added
exactly when the new bytesSent < payload.size; and a progress callback, when
set, is called once with (state, new bytesSent, 0, null), state being sending
if bytes remain, complete if none remain and the message is no-reply, and
awaitingReply otherwise. -/
theorem C4_nextFrameToSend_postcondition (m : MessageOut) (maxSize : Nat) (hv : m.Valid) :
    (m.nextFrameToSend maxSize).frame.length
        = min maxSize (m.payload.length - m.bytesSent) ∧
    (∀ i, i < min maxSize (m.payload.length - m.bytesSent) →
        (m.nextFrameToSend maxSize).frame.get? i = m.payload.get? (m.bytesSent + i)) ∧
    (m.nextFrameToSend maxSize).msg.bytesSent
        = m.bytesSent + min maxSize (m.payload.length - m.bytesSent) ∧
    (m.nextFrameToSend maxSize).msg.unackedBytes
        = m.unackedBytes + min maxSize (m.payload.length - m.bytesSent) ∧
    (m.nextFrameToSend maxSize).msg.payload = m.payload ∧
    (m.nextFrameToSend maxSize).msg.flags = m.flags ∧
    (m.nextFrameToSend maxSize).outFlags
        = (if (m.nextFrameToSend maxSize).msg.bytesSent < m.payload.length
           then m.flags ||| kMoreComing else m.flags) ∧
    (∀ cb, m.onProgress = some cb →
        (m.nextFrameToSend maxSize).progress
          = [(cb, { state :=
                      if (m.nextFrameToSend maxSize).msg.bytesSent < m.payload.length
                      then ProgressState.kSending
                      else if m.noReply = true then ProgressState.kComplete
                      else ProgressState.kAwaitingReply,
                    bytesSent := (m.nextFrameToSend maxSize).msg.bytesSent,
                    bytesReceived := 0, reply := none })]) ∧
    (m.onProgress = none → (m.nextFrameToSend maxSize).progress = []) := by
  have hs := nextSize_eq m maxSize hv
  have hb := nextFrameToSend_bytesSent m maxSize hv
  have hu := nextFrameToSend_unackedBytes m maxSize hv
  have hframe : (m.nextFrameToSend maxSize).frame
      = (m.payload.drop m.bytesSent).take (min maxSize (m.payload.length - m.bytesSent)) := by
    simp only [MessageOut.nextFrameToSend, hs]
  refine ⟨?_, ?_, hb, hu, rfl, rfl, ?_, ?_, ?_⟩
  · rw [hframe, List.length_take, List.length_drop]
    omega
  · intro i hi
    rw [hframe, List.get?_eq_getElem?, List.get?_eq_getElem?, List.getElem?_take_of_lt hi,
      List.getElem?_drop]
  · simp only [MessageOut.nextFrameToSend, decide_eq_true_eq]
  · intro cb hcb
    simp only [MessageOut.nextFrameToSend, hcb, sendProgress, decide_eq_true_eq]
  · intro hnone
    simp only [MessageOut.nextFrameToSend, hnone, sendProgress]

/-- C4 at a message with one of three bytes sent and maxSize = 1. -/
theorem C4_nextFrameToSend_postcondition_witness :
    sampleOut.Valid ∧
    (sampleOut.nextFrameToSend 1).frame.length
        = min 1 (sampleOut.payload.length - sampleOut.bytesSent) ∧
    (sampleOut.nextFrameToSend 1).msg.bytesSent = 2 :=
  have hv : sampleOut.Valid := by
    unfold MessageOut.Valid
    decide
  ⟨hv, (C4_nextFrameToSend_postcondition sampleOut 1 hv).1,
    (C4_nextFrameToSend_postcondition sampleOut 1 hv).2.2.1⟩

/-- C5: receivedAck(byteCount) on a message whose bytesSent is a 32-bit value:
if byteCount <= bytesSent then afterwards unackedBytes = min(old unackedBytes,
bytesSent - byteCount); if byteCount > bytesSent the call changes nothing; in
both cases bytesSent, the payload and the flags are unchanged and unackedBytes
does not increase. -/
theorem C5_receivedAck (m : MessageOut) (byteCount : Nat) (h32 : m.bytesSent ≤ UINT32_MAX) :
    (byteCount ≤ m.bytesSent →
        (m.receivedAck byteCount).unackedBytes
          = min m.unackedBytes (m.bytesSent - byteCount)) ∧
    (m.bytesSent < byteCount → m.receivedAck byteCount = m) ∧
    (m.receivedAck byteCount).bytesSent = m.bytesSent ∧
    (m.receivedAck byteCount).payload = m.payload ∧
    (m.receivedAck byteCount).flags = m.flags ∧
    (m.receivedAck byteCount).unackedBytes ≤ m.unackedBytes := by
  unfold UINT32_MAX at h32
  unfold MessageOut.receivedAck
  by_cases h : byteCount ≤ m.bytesSent
  · rw [if_pos h]
    have hmod : (m.bytesSent - byteCount) % kMod32 = m.bytesSent - byteCount := by
      unfold kMod32
      omega
    refine ⟨fun _ => ?_, fun h2 => ?_, rfl, rfl, rfl, ?_⟩
    · show min m.unackedBytes ((m.bytesSent - byteCount) % kMod32) = _
      rw [hmod]
    · omega
    · show min m.unackedBytes ((m.bytesSent - byteCount) % kMod32) ≤ _
      exact Nat.min_le_left _ _
  · rw [if_neg h]
    refine ⟨fun h2 => absurd h2 h, fun _ => rfl, rfl, rfl, rfl, Nat.le_refl _⟩

/-- C5 at a message with one byte sent and unacknowledged, acknowledged in full. -/
theorem C5_receivedAck_witness :
    sampleOut.bytesSent ≤ UINT32_MAX ∧ (sampleOut.receivedAck 1).unackedBytes = 0 :=
  ⟨by decide, ((C5_receivedAck sampleOut 1 (by decide)).1 (by decide)).trans (by decide)⟩

/-- C6: createResponse() returns null exactly when the message type is not
REQUEST or the no-reply flag is set; otherwise it returns the inbound message
constructed with type RESPONSE, the number of the request, the callback of the
request and the payload size of the request, which is not complete. -/
theorem C6_createResponse (m : MessageOut) :
    (m.createResponse = none ↔ (m.type ≠ kRequestType ∨ m.noReply = true)) ∧
    (¬ (m.type ≠ kRequestType ∨ m.noReply = true) →
        m.createResponse
          = some (MessageIn.new kResponseType m.number m.onProgress m.payload.length)) ∧
    (∀ r, m.createResponse = some r →
        r.number = m.number ∧ r.type = kResponseType ∧ r.isResponse = true ∧
        r.onProgress = m.onProgress ∧ r.isComplete = false ∧
        r.properties = none ∧ r.body = none ∧ r.in_ = none) := by
  unfold MessageOut.createResponse
  by_cases h : m.type ≠ kRequestType ∨ m.noReply = true
  · rw [if_pos h]
    refine ⟨⟨fun _ => h, fun _ => rfl⟩, fun h2 => absurd h h2, ?_⟩
    intro r hr
    cases hr
  · rw [if_neg h]
    refine ⟨⟨fun h2 => Option.noConfusion h2, fun h2 => absurd h2 h⟩, fun _ => rfl, ?_⟩
    intro r hr
    cases hr
    have h1 : flagsType kResponseType = kResponseType := by decide
    have h2 : (flagsType kResponseType == kResponseType
        || flagsType kResponseType == kErrorType) = true := by decide
    exact ⟨rfl, h1, h2, rfl, rfl, rfl, rfl, rfl⟩

/-! ## Slicing a payload into frames -/

theorem frameCount_of_le (r a : Nat) (ha : 0 < a) (h : r ≤ a) : frameCount r a = 1 := by
  unfold frameCount
  have h2 : (r + a - 1) / a < 2 := by
    rw [Nat.div_lt_iff_lt_mul ha]
    omega
  omega

theorem frameCount_of_lt (r a : Nat) (ha : 0 < a) (h : a < r) :
    frameCount r a = frameCount (r - a) a + 1 := by
  unfold frameCount
  have e : r + a - 1 = (r - a + a - 1) + a := by omega
  rw [e, Nat.add_div_right _ ha]
  have h2 : 1 ≤ (r - a + a - 1) / a := by
    rw [Nat.le_div_iff_mul_le ha]
    omega
  omega

theorem frameCount_pos (r a : Nat) : 1 ≤ frameCount r a := by
  unfold frameCount
  omega

theorem nextFrameToSend_frame (m : MessageOut) (maxSize : Nat) (hv : m.Valid) :
    (m.nextFrameToSend maxSize).frame
      = (m.payload.drop m.bytesSent).take (min maxSize (m.payload.length - m.bytesSent)) := by
  have hs := nextSize_eq m maxSize hv
  simp only [MessageOut.nextFrameToSend, hs]

theorem nextFrameToSend_outFlags (m : MessageOut) (maxSize : Nat) :
    (m.nextFrameToSend maxSize).outFlags
      = (if (m.nextFrameToSend maxSize).msg.bytesSent < m.payload.length
         then m.flags ||| kMoreComing else m.flags) := by
  simp only [MessageOut.nextFrameToSend, decide_eq_true_eq]

/-- The last frame: when at most maxSize bytes remain, one call returns them
all with the flags of the message. -/
theorem nextFrameToSend_last (m : MessageOut) (maxSize : Nat) (hv : m.Valid)
    (h : m.payload.length - m.bytesSent ≤ maxSize) :
    (m.nextFrameToSend maxSize).frame = m.payload.drop m.bytesSent ∧
    (m.nextFrameToSend maxSize).outFlags = m.flags := by
  have hb := nextFrameToSend_bytesSent m maxSize hv
  constructor
  · rw [nextFrameToSend_frame m maxSize hv]
    apply List.take_of_length_le
    rw [List.length_drop]
    omega
  · rw [nextFrameToSend_outFlags, hb, if_neg]
    unfold MessageOut.Valid at hv
    omega

/-- A frame that is not the last: when more than maxSize bytes remain, one call
returns maxSize of them with MORE_COMING set. -/
theorem nextFrameToSend_more (m : MessageOut) (maxSize : Nat) (hv : m.Valid)
    (h : maxSize < m.payload.length - m.bytesSent) :
    (m.nextFrameToSend maxSize).frame = (m.payload.drop m.bytesSent).take maxSize ∧
    (m.nextFrameToSend maxSize).outFlags = m.flags ||| kMoreComing ∧
    (m.nextFrameToSend maxSize).msg.bytesSent = m.bytesSent + maxSize := by
  have hb := nextFrameToSend_bytesSent m maxSize hv
  have hmin : min maxSize (m.payload.length - m.bytesSent) = maxSize := by omega
  refine ⟨?_, ?_, ?_⟩
  · rw [nextFrameToSend_frame m maxSize hv, hmin]
  · rw [nextFrameToSend_outFlags, hb, if_pos]
    omega
  · rw [hb, hmin]

/-- The frames of `sendAll` from any valid state whose flags lack MORE_COMING. -/
theorem sendAll_spec (maxSize : Nat) (ha : 0 < maxSize) :
    ∀ (fuel : Nat) (m : MessageOut), m.Valid → m.flags &&& kMoreComing = 0 →
      frameCount (m.payload.length - m.bytesSent) maxSize ≤ fuel →
      (m.sendAll maxSize fuel).length
          = frameCount (m.payload.length - m.bytesSent) maxSize ∧
      (∀ p ∈ m.sendAll maxSize fuel, p.1.length ≤ maxSize) ∧
      (m.sendAll maxSize fuel).map Prod.snd
          = List.replicate (frameCount (m.payload.length - m.bytesSent) maxSize - 1)
              (m.flags ||| kMoreComing) ++ [m.flags] ∧
      ((m.sendAll maxSize fuel).map Prod.fst).flatten = m.payload.drop m.bytesSent := by
  intro fuel
  induction fuel with
  | zero =>
    intro m _ _ hf
    have := frameCount_pos (m.payload.length - m.bytesSent) maxSize
    omega
  | succ fuel ih =>
    intro m hv hfl hf
    by_cases hrem : m.payload.length - m.bytesSent ≤ maxSize
    · obtain ⟨hframe, hflags⟩ := nextFrameToSend_last m maxSize hv hrem
      have hN := frameCount_of_le _ maxSize ha hrem
      have hs : m.sendAll maxSize (fuel + 1) = [(m.payload.drop m.bytesSent, m.flags)] := by
        simp only [MessageOut.sendAll, hframe, hflags, hfl, if_true]
      rw [hs, hN]
      refine ⟨rfl, ?_, rfl, ?_⟩
      · intro p hp
        simp only [List.mem_singleton] at hp
        subst hp
        simp only [List.length_drop]
        exact hrem
      · simp
    · have hlt : maxSize < m.payload.length - m.bytesSent := by omega
      obtain ⟨hframe, hflags, hbs⟩ := nextFrameToSend_more m maxSize hv hlt
      have hN := frameCount_of_lt _ maxSize ha hlt
      have hv2 := nextFrameToSend_valid m maxSize hv
      have hrem2 : (m.nextFrameToSend maxSize).msg.payload.length
          - (m.nextFrameToSend maxSize).msg.bytesSent
          = m.payload.length - m.bytesSent - maxSize := by
        rw [nextFrameToSend_payload, hbs]
        omega
      have hih := ih (m.nextFrameToSend maxSize).msg hv2
        (by rw [nextFrameToSend_flags]; exact hfl) (by rw [hrem2]; omega)
      rw [hrem2, nextFrameToSend_flags, nextFrameToSend_payload, hbs] at hih
      obtain ⟨h1, h2, h3, h4⟩ := hih
      have hs : m.sendAll maxSize (fuel + 1)
          = ((m.payload.drop m.bytesSent).take maxSize, m.flags ||| kMoreComing)
            :: (m.nextFrameToSend maxSize).msg.sendAll maxSize fuel := by
        simp only [MessageOut.sendAll, hframe, hflags]
        rw [if_neg (or_moreComing_ne_zero m.flags)]
      rw [hs, hN]
      refine ⟨?_, ?_, ?_, ?_⟩
      · simp only [List.length_cons, h1]
      · intro p hp
        rcases List.mem_cons.mp hp with hp | hp
        · subst hp
          simp only [List.length_take]
          omega
        · exact h2 p hp
      · simp only [List.map_cons, h3, Nat.add_sub_cancel]
        have hpos := frameCount_pos (m.payload.length - m.bytesSent - maxSize) maxSize
        obtain ⟨k, hk⟩ : ∃ k, frameCount (m.payload.length - m.bytesSent - maxSize) maxSize
            = k + 1 := ⟨_, (Nat.sub_add_cancel hpos).symm⟩
        rw [hk, Nat.add_sub_cancel, List.replicate_succ, List.cons_append]
      · simp only [List.map_cons, List.flatten_cons, h4]
        rw [← List.drop_drop]
        exact List.take_append_drop maxSize _

/-- C2: for every payload and every maxSize >= 1, calling
nextFrameToSend(maxSize) repeatedly on a fresh MessageOut until it returns
flags without MORE_COMING takes exactly max(1, ceil(payload.size / maxSize))
calls, whatever larger bound is put on the number of calls; every returned
frame has size <= maxSize; the flags returned are the message flags with
MORE_COMING for every frame but the last and the message flags, without
MORE_COMING, for the last; and the returned frames concatenated in order are
the payload.  The flags of the message are without MORE_COMING, as those of
every message the program builds: the bit belongs to a frame, line 59 adds it
to the flags of a frame and line 116 strips it from the flags kept. -/
theorem C2_frame_slicing (flags : Nat) (payload : List Nat) (number maxSize fuel : Nat)
    (m0 : MessageOut) (hnew : MessageOut.new flags payload number = some m0)
    (hfl : flags &&& kMoreComing = 0) (ha : 1 ≤ maxSize)
    (hf : frameCount payload.length maxSize ≤ fuel) :
    (m0.sendAll maxSize fuel).length = frameCount payload.length maxSize ∧
    (∀ p ∈ m0.sendAll maxSize fuel, p.1.length ≤ maxSize) ∧
    (m0.sendAll maxSize fuel).map Prod.snd
        = List.replicate (frameCount payload.length maxSize - 1) (flags ||| kMoreComing)
            ++ [flags] ∧
    (flags ||| kMoreComing) &&& kMoreComing ≠ 0 ∧
    flags &&& kMoreComing = 0 ∧
    ((m0.sendAll maxSize fuel).map Prod.fst).flatten = payload := by
  obtain ⟨hv, hpay, hflags, -, hbs, -⟩ := new_valid flags payload number m0 hnew
  have h := sendAll_spec maxSize ha fuel m0 hv (by rw [hflags]; exact hfl)
    (by rw [hpay, hbs]; exact hf)
  rw [hpay, hbs, hflags, Nat.sub_zero, List.drop_zero] at h
  exact ⟨h.1, h.2.1, h.2.2.1, or_moreComing_ne_zero flags, hfl, h.2.2.2⟩

/-- C2 at a three-byte payload cut into frames of at most two bytes. -/
theorem C2_frame_slicing_witness :
    (freshOut.sendAll 2 2).length = frameCount [1, 2, 3].length 2 ∧
    ((freshOut.sendAll 2 2).map Prod.fst).flatten = [1, 2, 3] :=
  have h := C2_frame_slicing 0 [1, 2, 3] 1 2 2 freshOut (by decide) (by decide) (by decide)
    (by decide)
  ⟨h.1, h.2.2.2.2.2⟩

/-! ## Varints -/

theorem GetUVarInt_PutUVarInt (n : Nat) (rest : List Nat) :
    GetUVarInt (PutUVarInt n ++ rest) = some (n, rest) := by
  induction n using Nat.strong_induction_on with
  | _ n ih =>
    rw [PutUVarInt]
    by_cases h : n < 128
    · rw [if_pos h]
      simp [GetUVarInt, h]
    · rw [if_neg h]
      have hlt : n / 128 < n := by omega
      have h2 : ¬ (n % 128 + 128 < 128) := by omega
      have h3 : (n % 128 + 128) % 128 + 128 * (n / 128) = n := by omega
      show GetUVarInt ((n % 128 + 128) :: (PutUVarInt (n / 128) ++ rest)) = _
      simp only [GetUVarInt, h2, if_false, ih (n / 128) hlt, h3]

theorem ReadUVarInt32_PutUVarInt (n : Nat) (rest : List Nat) (hn : n ≤ UINT32_MAX) :
    ReadUVarInt32 (PutUVarInt n ++ rest) = some (n, rest) := by
  unfold ReadUVarInt32
  rw [GetUVarInt_PutUVarInt]
  simp only [hn, if_true]

theorem PutUVarInt_length_le (k : Nat) :
    ∀ n, n < 128 ^ (k + 1) → (PutUVarInt n).length ≤ k + 1 := by
  induction k with
  | zero =>
    intro n hn
    rw [PutUVarInt, if_pos (by simpa using hn)]
    simp
  | succ k ih =>
    intro n hn
    rw [PutUVarInt]
    by_cases h : n < 128
    · rw [if_pos h]
      simp
    · rw [if_neg h]
      have h2 : n / 128 < 128 ^ (k + 1) := by
        rw [Nat.div_lt_iff_lt_mul (by norm_num)]
        rw [pow_succ] at hn
        exact hn
      have h3 := ih (n / 128) h2
      simp only [List.length_cons]
      omega

theorem PutUVarInt_length_le_ten (n : Nat) (hn : n < kMod64) : (PutUVarInt n).length ≤ 10 := by
  apply PutUVarInt_length_le 9 n
  unfold kMod64 at hn
  have h : (18446744073709551616 : Nat) ≤ 128 ^ (9 + 1) := by norm_num
  omega

theorem PutUVarInt_length_pos (n : Nat) : 1 ≤ (PutUVarInt n).length := by
  rw [PutUVarInt]
  split <;> simp

theorem GetUVarInt_suffix : ∀ (buf : List Nat) (v : Nat) (rest : List Nat),
    GetUVarInt buf = some (v, rest) → ∃ pre, buf = pre ++ rest ∧ 1 ≤ pre.length := by
  intro buf
  induction buf with
  | nil =>
    intro v rest h
    simp [GetUVarInt] at h
  | cons b bs ih =>
    intro v rest h
    simp only [GetUVarInt] at h
    split at h
    · cases h
      exact ⟨[b], rfl, by simp⟩
    · split at h
      · cases h
      · rename_i v2 rest2 heq
        cases h
        obtain ⟨pre, hpre, _⟩ := ih v2 rest heq
        exact ⟨b :: pre, by rw [hpre]; rfl, by simp⟩

/-! ## Inbound messages: the steps of one call -/

theorem receivedFrame_eq (L : Lib) (m : MessageIn) (frame : List Nat) (frameFlags : Nat) :
    m.receivedFrame L frame frameFlags
      = (match m.toAckStep L frame frameFlags >>= MessageIn.acknowledge with
         | .error r => r
         | .ok s => MessageIn.afterAckStep L frameFlags s) := by
  unfold MessageIn.receivedFrame MessageIn.toCompletionStep MessageIn.afterAckStep
  cases h : m.toAckStep L frame frameFlags >>= MessageIn.acknowledge with
  | error r => rfl
  | ok s => rfl

theorem acknowledge_eq (s : Locals) (hb : s.bytesReceived < kMod64) :
    MessageIn.acknowledge s
      = .ok { s with
              msg := { s.msg with
                       unackedBytes :=
                         if kIncomingAckThreshold ≤ ackSum s then 0 else ackSum s },
              sent := s.sent ++
                (if kIncomingAckThreshold ≤ ackSum s
                 then [ackMessage s.msg s.bytesReceived] else []) } := by
  have hlen := PutUVarInt_length_le_ten s.bytesReceived hb
  have hnew : ∀ fl n, MessageOut.new fl (PutUVarInt s.bytesReceived) n
      = some { flags := fl, number := n, onProgress := none,
               payload := PutUVarInt s.bytesReceived, bytesSent := 0, unackedBytes := 0 } := by
    intro fl n
    unfold MessageOut.new
    rw [if_pos]
    unfold UINT32_MAX
    omega
  unfold MessageIn.acknowledge
  simp only [hnew]
  by_cases h : kIncomingAckThreshold ≤ ackSum s
  · have h2 : (s.msg.unackedBytes + s.frame.length) % kMod32 ≥ kIncomingAckThreshold := h
    simp only [h, h2, if_true, ackMessage, MessageIn.isResponse, MessageIn.type]
  · have h2 : ¬ (s.msg.unackedBytes + s.frame.length) % kMod32 ≥ kIncomingAckThreshold := h
    simp only [h, h2, if_false, List.append_nil]
    rfl

theorem firstFrame_ok (m : MessageIn) (frame : List Nat) (frameFlags : Nat) (s : Locals)
    (h : m.firstFrame frame frameFlags = .ok s) :
    s.sent = [] ∧ s.bytesReceived < kMod64 ∧ s.msg.number = m.number ∧
    s.msg.unackedBytes = m.unackedBytes ∧ s.msg.complete = m.complete ∧
    s.msg.properties = m.properties ∧ s.msg.body = m.body ∧
    s.state = .kOther ∧
    (∃ w, s.msg.in_ = some w) ∧ (∃ consumed, frame = consumed ++ s.frame) := by
  have hpos : 0 < kMod64 := by decide
  unfold MessageIn.firstFrame at h
  split at h
  · rename_i w hw
    cases h
    exact ⟨rfl, Nat.mod_lt _ hpos, rfl, rfl, rfl, rfl, rfl, rfl, ⟨w, hw⟩, ⟨[], rfl⟩⟩
  · split at h
    · cases h
    · split at h
      · cases h
      · rename_i n rest hread
        cases h
        refine ⟨rfl, Nat.mod_lt _ hpos, rfl, rfl, rfl, rfl, rfl, rfl, ⟨[], rfl⟩, ?_⟩
        unfold ReadUVarInt32 at hread
        split at hread
        · cases hread
        · rename_i v rest2 hget
          split at hread
          · cases hread
            obtain ⟨pre, hpre, -⟩ := GetUVarInt_suffix frame n rest hget
            exact ⟨pre, hpre⟩
          · cases hread

theorem firstFrame_error (m : MessageIn) (frame : List Nat) (frameFlags : Nat)
    (r : RecvResult) (h : m.firstFrame frame frameFlags = .error r) :
    r.sent = [] ∧ r.msg.unackedBytes = m.unackedBytes ∧ r.msg.complete = m.complete ∧
    r.msg.properties = m.properties ∧
    (r.outcome = .assertFailed ∨ r.outcome = .thrown "frame too small") := by
  unfold MessageIn.firstFrame at h
  split at h
  · cases h
  · split at h
    · cases h
      exact ⟨rfl, rfl, rfl, rfl, Or.inl rfl⟩
    · split at h
      · cases h
        exact ⟨rfl, rfl, rfl, rfl, Or.inr rfl⟩
      · cases h

theorem readProperties_ok (L : Lib) (s s2 : Locals) (h : MessageIn.readProperties L s = .ok s2) :
    s2.sent = s.sent ∧ s2.bytesReceived = s.bytesReceived ∧ s2.msg.number = s.msg.number ∧
    s2.msg.unackedBytes = s.msg.unackedBytes ∧ s2.msg.complete = s.msg.complete ∧
    s2.msg.flags = s.msg.flags ∧ s2.msg.body = s.msg.body ∧
    (s2.state = s.state ∨ s2.state = .kBeginning) ∧
    (∃ w, s2.msg.in_ = some w) ∧ (∃ consumed, s.frame = consumed ++ s2.frame) := by
  unfold MessageIn.readProperties Locals.fail at h
  split at h
  · cases h
  · rename_i w hw
    split at h
    · simp only at h
      split at h
      · cases h
      · split at h
        · cases h
        · cases h
          exact ⟨rfl, rfl, rfl, rfl, rfl, rfl, rfl, Or.inr rfl, ⟨[], rfl⟩,
            ⟨_, (List.take_append_drop _ _).symm⟩⟩
    · cases h
      exact ⟨rfl, rfl, rfl, rfl, rfl, rfl, rfl, Or.inl rfl, ⟨w, hw⟩, ⟨[], rfl⟩⟩

theorem readProperties_error (L : Lib) (s : Locals) (r : RecvResult)
    (h : MessageIn.readProperties L s = .error r) :
    r.sent = s.sent ∧ r.msg.unackedBytes = s.msg.unackedBytes ∧
    r.msg.complete = s.msg.complete ∧
    (r.outcome = .undefined ∨
      (r.outcome = .thrown "message properties not null-terminated" ∧
        r.msg.properties ≠ none)) := by
  unfold MessageIn.readProperties Locals.fail at h
  split at h
  · cases h
    exact ⟨rfl, rfl, rfl, Or.inl rfl⟩
  · split at h
    · simp only at h
      split at h
      · cases h
        exact ⟨rfl, rfl, rfl, Or.inl rfl⟩
      · split at h
        · rename_i hbad
          cases h
          refine ⟨rfl, rfl, rfl, Or.inr ⟨rfl, ?_⟩⟩
          intro hnone
          simp only at hnone
          rw [hnone] at hbad
          simp [sliceBytes] at hbad
        · cases h
    · cases h

theorem writeBody_ok (L : Lib) (s s2 : Locals) (h : MessageIn.writeBody L s = .ok s2) :
    s2.sent = s.sent ∧ s2.bytesReceived = s.bytesReceived ∧ s2.state = s.state ∧
    s2.msg.number = s.msg.number ∧ s2.msg.unackedBytes = s.msg.unackedBytes ∧
    s2.msg.complete = s.msg.complete ∧ s2.msg.flags = s.msg.flags ∧
    s2.msg.properties = s.msg.properties ∧ s2.msg.body = s.msg.body ∧
    (∃ w, s2.msg.in_ = some w) := by
  unfold MessageIn.writeBody Locals.fail at h
  split at h
  · cases h
  · split at h
    · simp only at h
      split at h
      · cases h
      · cases h
        exact ⟨rfl, rfl, rfl, rfl, rfl, rfl, rfl, rfl, rfl, ⟨_, rfl⟩⟩
    · cases h
      exact ⟨rfl, rfl, rfl, rfl, rfl, rfl, rfl, rfl, rfl, ⟨_, rfl⟩⟩

theorem writeBody_error (L : Lib) (s : Locals) (r : RecvResult)
    (h : MessageIn.writeBody L s = .error r) :
    r.sent = s.sent ∧ r.msg.number = s.msg.number ∧
    r.msg.unackedBytes = s.msg.unackedBytes ∧ r.msg.complete = s.msg.complete ∧
    r.msg.flags = s.msg.flags ∧ r.msg.properties = s.msg.properties ∧
    (r.outcome = .undefined ∨ r.outcome = .thrown "invalid gzipped data") := by
  unfold MessageIn.writeBody Locals.fail at h
  split at h
  · cases h
    exact ⟨rfl, rfl, rfl, rfl, rfl, rfl, Or.inl rfl⟩
  · split at h
    · simp only at h
      split at h
      · cases h
        exact ⟨rfl, rfl, rfl, rfl, rfl, rfl, Or.inr rfl⟩
      · cases h
    · cases h

theorem finishMessage_ok (L : Lib) (frameFlags : Nat) (s s2 : Locals)
    (h : MessageIn.finishMessage L frameFlags s = .ok s2) :
    s2.sent = s.sent ∧ s2.bytesReceived = s.bytesReceived ∧
    s2.msg.number = s.msg.number ∧ s2.msg.unackedBytes = s.msg.unackedBytes ∧
    s2.msg.flags = s.msg.flags ∧ s2.msg.properties = s.msg.properties ∧
    (frameFlags &&& kMoreComing ≠ 0 → s2 = s) ∧
    (frameFlags &&& kMoreComing = 0 →
      s2.state = .kEnd ∧ s2.msg.complete = true ∧ s.msg.properties ≠ none ∧
      s2.msg.in_ = none ∧ s2.msg.decompressor = none ∧
      ∃ w, s.msg.in_ = some w ∧ s2.msg.body = L.finish w) := by
  unfold MessageIn.finishMessage Locals.fail at h
  split at h
  · rename_i hmc
    split at h
    · cases h
    · rename_i hprops
      split at h
      · cases h
      · rename_i w hw
        cases h
        exact ⟨rfl, rfl, rfl, rfl, rfl, rfl, fun h2 => absurd hmc h2,
          fun _ => ⟨rfl, rfl, hprops, rfl, rfl, ⟨w, hw, rfl⟩⟩⟩
  · rename_i hmc
    cases h
    exact ⟨rfl, rfl, rfl, rfl, rfl, rfl, fun _ => rfl, fun h2 => absurd h2 hmc⟩

theorem finishMessage_error (L : Lib) (frameFlags : Nat) (s : Locals) (r : RecvResult)
    (h : MessageIn.finishMessage L frameFlags s = .error r) :
    r.sent = s.sent ∧ r.msg = s.msg ∧ frameFlags &&& kMoreComing = 0 ∧
    ((r.outcome = .thrown "message ends before end of properties" ∧ s.msg.properties = none)
      ∨ (r.outcome = .undefined ∧ s.msg.properties ≠ none)) := by
  unfold MessageIn.finishMessage Locals.fail at h
  split at h
  · rename_i hmc
    split at h
    · rename_i hprops
      cases h
      exact ⟨rfl, rfl, hmc, Or.inl ⟨rfl, hprops⟩⟩
    · rename_i hprops
      split at h
      · cases h
        exact ⟨rfl, rfl, hmc, Or.inr ⟨rfl, hprops⟩⟩
      · cases h
  · cases h

theorem afterAckStep_keeps (L : Lib) (frameFlags : Nat) (s : Locals) :
    (MessageIn.afterAckStep L frameFlags s).sent = s.sent ∧
    (MessageIn.afterAckStep L frameFlags s).msg.unackedBytes = s.msg.unackedBytes ∧
    (MessageIn.afterAckStep L frameFlags s).msg.number = s.msg.number ∧
    (MessageIn.afterAckStep L frameFlags s).msg.flags = s.msg.flags ∧
    (MessageIn.afterAckStep L frameFlags s).msg.properties = s.msg.properties := by
  unfold MessageIn.afterAckStep
  cases hw : MessageIn.writeBody L s with
  | error r =>
    obtain ⟨h1, h2, h3, -, h5, h6, -⟩ := writeBody_error L s r hw
    exact ⟨h1, h3, h2, h5, h6⟩
  | ok s2 =>
    obtain ⟨h1, -, -, h2, h3, -, h5, h6, -⟩ := writeBody_ok L s s2 hw
    cases hf : MessageIn.finishMessage L frameFlags s2 with
    | error r =>
      obtain ⟨g1, g2, -⟩ := finishMessage_error L frameFlags s2 r hf
      simp only [bind, Except.bind, hf]
      rw [g2]
      exact ⟨g1.trans h1, h3, h2, h5, h6⟩
    | ok s3 =>
      obtain ⟨g1, -, g2, g3, g4, g5, -⟩ := finishMessage_ok L frameFlags s2 s3 hf
      simp only [bind, Except.bind, hf]
      exact ⟨g1.trans h1, g3.trans h3, g2.trans h2, g4.trans h5, g5.trans h6⟩

/-- The ways a call of `receivedFrame` can go, step by step. -/
theorem receivedFrame_cases (L : Lib) (m : MessageIn) (frame : List Nat) (frameFlags : Nat) :
    (∃ r, m.firstFrame frame frameFlags = .error r ∧
        m.toAckStep L frame frameFlags = .error r ∧
        m.toCompletionStep L frame frameFlags = .error r ∧
        m.receivedFrame L frame frameFlags = r) ∨
    (∃ s1, m.firstFrame frame frameFlags = .ok s1 ∧
      ((∃ r, MessageIn.readProperties L s1 = .error r ∧
          m.toAckStep L frame frameFlags = .error r ∧
          m.toCompletionStep L frame frameFlags = .error r ∧
          m.receivedFrame L frame frameFlags = r) ∨
       (∃ s2 s3, MessageIn.readProperties L s1 = .ok s2 ∧
          m.toAckStep L frame frameFlags = .ok s2 ∧
          MessageIn.acknowledge s2 = .ok s3 ∧
          ((∃ r, MessageIn.writeBody L s3 = .error r ∧
              m.toCompletionStep L frame frameFlags = .error r ∧
              m.receivedFrame L frame frameFlags = r) ∨
           (∃ s4, MessageIn.writeBody L s3 = .ok s4 ∧
              m.toCompletionStep L frame frameFlags = .ok s4 ∧
              ((∃ r, MessageIn.finishMessage L frameFlags s4 = .error r ∧
                  m.receivedFrame L frame frameFlags = r) ∨
               (∃ s5, MessageIn.finishMessage L frameFlags s4 = .ok s5 ∧
                  m.receivedFrame L frame frameFlags
                    = { msg := s5.msg, sent := s5.sent,
                        progress := sendProgress s5.msg.onProgress
                          { state := if s5.state = .kEnd then .kComplete
                                     else .kReceivingReply,
                            bytesSent := s5.msg.outgoingSize,
                            bytesReceived := s5.bytesReceived,
                            reply := if s5.msg.properties ≠ none then some s5.msg.number
                                     else none },
                        outcome := .returned s5.state }))))))) := by
  unfold MessageIn.receivedFrame MessageIn.toCompletionStep MessageIn.toAckStep
  cases h1 : m.firstFrame frame frameFlags with
  | error r => exact Or.inl ⟨r, rfl, rfl, rfl, rfl⟩
  | ok s1 =>
    refine Or.inr ⟨s1, rfl, ?_⟩
    cases h2 : MessageIn.readProperties L s1 with
    | error r =>
      refine Or.inl ⟨r, rfl, ?_, ?_, ?_⟩ <;> simp only [bind, Except.bind, h2]
    | ok s2 =>
      have hb : s2.bytesReceived < kMod64 := by
        rw [(readProperties_ok L s1 s2 h2).2.1]
        exact (firstFrame_ok m frame frameFlags s1 h1).2.1
      have h3 := acknowledge_eq s2 hb
      refine Or.inr ⟨s2, _, rfl, ?_, h3, ?_⟩
      · simp only [bind, Except.bind, h2]
      · cases h4 : MessageIn.writeBody L _ with
        | error r =>
          refine Or.inl ⟨r, rfl, ?_, ?_⟩ <;> simp only [bind, Except.bind, h2, h3, h4]
        | ok s4 =>
          refine Or.inr ⟨s4, rfl, ?_, ?_⟩
          · simp only [bind, Except.bind, h2, h3, h4]
          · cases h5 : MessageIn.finishMessage L frameFlags s4 with
            | error r =>
              refine Or.inl ⟨r, rfl, ?_⟩
              simp only [bind, Except.bind, h2, h3, h4, h5]
            | ok s5 =>
              refine Or.inr ⟨s5, rfl, ?_⟩
              simp only [bind, Except.bind, h2, h3, h4, h5]

theorem toAckStep_ok (L : Lib) (m : MessageIn) (frame : List Nat) (frameFlags : Nat)
    (s : Locals) (h : m.toAckStep L frame frameFlags = .ok s) :
    s.sent = [] ∧ s.bytesReceived < kMod64 ∧ s.msg.number = m.number ∧
    s.msg.unackedBytes = m.unackedBytes ∧ s.msg.complete = m.complete ∧
    s.state ≠ .kEnd ∧ (∃ consumed, frame = consumed ++ s.frame) := by
  rcases receivedFrame_cases L m frame frameFlags with
    ⟨r, -, h2, -⟩ | ⟨s1, h1, ⟨r, -, h2, -⟩ | ⟨s2, s3, h2, h3, -⟩⟩
  · rw [h2] at h
    cases h
  · rw [h2] at h
    cases h
  · have e : s2 = s := Except.ok.inj (h3.symm.trans h)
    subst e
    obtain ⟨a1, a2, a3, a4, a5, -, -, a8, -, c1, hc1⟩ := firstFrame_ok m frame frameFlags s1 h1
    obtain ⟨b1, b2, b3, b4, b5, -, -, b8, -, c2, hc2⟩ := readProperties_ok L s1 s2 h2
    refine ⟨b1.trans a1, b2 ▸ a2, b3.trans a3, b4.trans a4, b5.trans a5, ?_, ?_⟩
    · rcases b8 with b8 | b8
      · rw [b8, a8]
        decide
      · rw [b8]
        decide
    · exact ⟨c1 ++ c2, by rw [hc1, hc2, List.append_assoc]⟩

theorem ackMessage_fields (m : MessageIn) (b : Nat) :
    (ackMessage m b).number = m.number ∧
    (ackMessage m b).payload = PutUVarInt b ∧
    (ackMessage m b).type
      = (if m.isResponse = true then kAckResponseType else kAckRequestType) ∧
    (ackMessage m b).flags
      = (if m.isResponse = true then kAckResponseType else kAckRequestType)
          ||| kUrgent ||| kNoReply ∧
    hasFlag (ackMessage m b).flags kUrgent = true ∧
    (ackMessage m b).noReply = true := by
  have t1 : flagsType (kAckResponseType ||| kUrgent ||| kNoReply) = kAckResponseType := by
    decide
  have t2 : flagsType (kAckRequestType ||| kUrgent ||| kNoReply) = kAckRequestType := by
    decide
  have u1 : hasFlag (kAckResponseType ||| kUrgent ||| kNoReply) kUrgent = true := by decide
  have u2 : hasFlag (kAckRequestType ||| kUrgent ||| kNoReply) kUrgent = true := by decide
  have n1 : hasFlag (kAckResponseType ||| kUrgent ||| kNoReply) kNoReply = true := by decide
  have n2 : hasFlag (kAckRequestType ||| kUrgent ||| kNoReply) kNoReply = true := by decide
  unfold ackMessage MessageOut.type MessageOut.noReply
  cases m.isResponse
  · exact ⟨rfl, rfl, t2, rfl, u2, n2⟩
  · exact ⟨rfl, rfl, t1, rfl, u1, n1⟩

/-- What a call that reaches the ACK step sends, and the counter it leaves. -/
theorem receivedFrame_sent (L : Lib) (m : MessageIn) (frame : List Nat) (frameFlags : Nat) :
    ∀ s, m.toAckStep L frame frameFlags = .ok s →
      (m.receivedFrame L frame frameFlags).sent
        = (if kIncomingAckThreshold ≤ ackSum s
           then [ackMessage s.msg s.bytesReceived] else []) ∧
      (m.receivedFrame L frame frameFlags).msg.unackedBytes
        = (if kIncomingAckThreshold ≤ ackSum s then 0 else ackSum s) := by
  intro s hs
  obtain ⟨hsent, hb, -⟩ := toAckStep_ok L m frame frameFlags s hs
  rw [receivedFrame_eq, hs]
  simp only [bind, Except.bind, acknowledge_eq s hb]
  obtain ⟨k1, k2, -⟩ := afterAckStep_keeps L frameFlags
    { s with
      msg := { s.msg with
               unackedBytes := if kIncomingAckThreshold ≤ ackSum s then 0 else ackSum s },
      sent := s.sent ++
        (if kIncomingAckThreshold ≤ ackSum s
         then [ackMessage s.msg s.bytesReceived] else []) }
  rw [k1, k2, hsent, List.nil_append]
  exact ⟨rfl, rfl⟩

/-- A frame that arrives when the properties are already present reaches the
ACK step whole. -/
theorem toAckStep_body (L : Lib) (m : MessageIn) (frame : List Nat) (frameFlags : Nat)
    (w P : List Nat) (hin : m.in_ = some w) (hp : m.properties = some P) :
    m.toAckStep L frame frameFlags
      = .ok { msg := m, frame := frame, state := .kOther,
              bytesReceived := (frame.length + w.length) % kMod64, sent := [] } := by
  unfold MessageIn.toAckStep MessageIn.firstFrame
  rw [hin]
  simp only [bind, Except.bind, MessageIn.readProperties, hin, hp]
  rw [if_neg]
  intro h
  cases h.1

/-- What a frame sends that arrives when the properties are already present:
the ACK carries the size of the frame plus the bytes held by the encoder. -/
theorem receivedFrame_body_sent (L : Lib) (m : MessageIn) (frame : List Nat)
    (frameFlags : Nat) (w P : List Nat) (hin : m.in_ = some w) (hp : m.properties = some P) :
    (m.receivedFrame L frame frameFlags).sent
      = (if kIncomingAckThreshold ≤ (m.unackedBytes + frame.length) % kMod32
         then [ackMessage m ((frame.length + w.length) % kMod64)] else []) ∧
    (m.receivedFrame L frame frameFlags).msg.unackedBytes
      = (if kIncomingAckThreshold ≤ (m.unackedBytes + frame.length) % kMod32
         then 0 else (m.unackedBytes + frame.length) % kMod32) :=
  receivedFrame_sent L m frame frameFlags _ (toAckStep_body L m frame frameFlags w P hin hp)

theorem writeBody_plain (L : Lib) (s : Locals) (w : List Nat) (hin : s.msg.in_ = some w)
    (hc : s.msg.flags &&& kCompressed = 0) :
    MessageIn.writeBody L s = .ok { s with msg := { s.msg with in_ := some (w ++ s.frame) } } := by
  unfold MessageIn.writeBody
  rw [hin]
  simp only
  rw [if_neg]
  intro h
  exact h.2 hc

theorem finishMessage_more (L : Lib) (frameFlags : Nat) (s : Locals)
    (h : frameFlags &&& kMoreComing ≠ 0) : MessageIn.finishMessage L frameFlags s = .ok s := by
  unfold MessageIn.finishMessage
  rw [if_neg h]

theorem finishMessage_end (L : Lib) (frameFlags : Nat) (s : Locals) (P w : List Nat)
    (h : frameFlags &&& kMoreComing = 0) (hp : s.msg.properties = some P)
    (hin : s.msg.in_ = some w) :
    MessageIn.finishMessage L frameFlags s
      = .ok { s with
              msg := { s.msg with body := L.finish w, in_ := none, decompressor := none,
                                  complete := true },
              state := .kEnd } := by
  unfold MessageIn.finishMessage
  rw [if_pos h, hp, hin]
  simp

theorem acknowledge_ok (s : Locals) (hb : s.bytesReceived < kMod64) :
    ∃ t, MessageIn.acknowledge s = .ok t ∧ t.frame = s.frame ∧ t.state = s.state ∧
      t.msg.in_ = s.msg.in_ ∧ t.msg.flags = s.msg.flags ∧
      t.msg.properties = s.msg.properties ∧ t.msg.propertiesSize = s.msg.propertiesSize ∧
      t.msg.complete = s.msg.complete :=
  ⟨_, acknowledge_eq s hb, rfl, rfl, rfl, rfl, rfl, rfl, rfl⟩

/-- The steps after the ACK step for an uncompressed message. -/
theorem afterAckStep_plain (L : Lib) (frameFlags : Nat) (t : Locals) (w : List Nat)
    (hin : t.msg.in_ = some w) (hc : t.msg.flags &&& kCompressed = 0) :
    (MessageIn.afterAckStep L frameFlags t).msg.propertiesSize = t.msg.propertiesSize ∧
    (frameFlags &&& kMoreComing ≠ 0 →
      (MessageIn.afterAckStep L frameFlags t).outcome = .returned t.state ∧
      (MessageIn.afterAckStep L frameFlags t).msg.in_ = some (w ++ t.frame) ∧
      (MessageIn.afterAckStep L frameFlags t).msg.complete = t.msg.complete) ∧
    (frameFlags &&& kMoreComing = 0 → t.msg.properties ≠ none →
      (MessageIn.afterAckStep L frameFlags t).outcome = .returned .kEnd ∧
      (MessageIn.afterAckStep L frameFlags t).msg.complete = true ∧
      (MessageIn.afterAckStep L frameFlags t).msg.body = L.finish (w ++ t.frame)) := by
  have hw := writeBody_plain L t w hin hc
  have f1 : ({ t with msg := { t.msg with in_ := some (w ++ t.frame) } } : Locals).msg.in_
      = some (w ++ t.frame) := rfl
  have f2 : ({ t with msg := { t.msg with in_ := some (w ++ t.frame) } } : Locals).state
      = t.state := rfl
  have f3 : ({ t with msg := { t.msg with in_ := some (w ++ t.frame) } } : Locals).msg.complete
      = t.msg.complete := rfl
  have f4 : ({ t with msg := { t.msg with in_ := some (w ++ t.frame) } } : Locals).msg.properties
      = t.msg.properties := rfl
  have f5 : ({ t with msg := { t.msg with in_ := some (w ++ t.frame) } }
      : Locals).msg.propertiesSize = t.msg.propertiesSize := rfl
  generalize ({ t with msg := { t.msg with in_ := some (w ++ t.frame) } } : Locals) = t2
    at hw f1 f2 f3 f4 f5
  unfold MessageIn.afterAckStep
  rw [hw]
  simp only [bind, Except.bind]
  refine ⟨?_, ?_, ?_⟩
  · cases hf : MessageIn.finishMessage L frameFlags t2 with
    | error r =>
      simp only
      rw [(finishMessage_error L frameFlags t2 r hf).2.1]
      exact f5
    | ok t3 =>
      simp only
      unfold MessageIn.finishMessage Locals.fail at hf
      split at hf
      · split at hf
        · cases hf
        · split at hf
          · cases hf
          · cases hf
            exact f5
      · cases hf
        exact f5
  · intro hmc
    rw [finishMessage_more L frameFlags t2 hmc]
    exact ⟨congrArg Outcome.returned f2, f1, f3⟩
  · intro hmc hprops
    rw [← f4] at hprops
    obtain ⟨P, hP⟩ := Option.ne_none_iff_exists'.mp hprops
    rw [finishMessage_end L frameFlags t2 P (w ++ t.frame) hmc hP f1]
    exact ⟨rfl, rfl, rfl⟩

/-- An uncompressed call that has reached the ACK step: what it sends, what
it returns and the state it leaves. -/
theorem receivedFrame_plain (L : Lib) (m : MessageIn) (frame : List Nat) (frameFlags : Nat)
    (s : Locals) (w : List Nat) (hs : m.toAckStep L frame frameFlags = .ok s)
    (hin : s.msg.in_ = some w) (hc : s.msg.flags &&& kCompressed = 0) :
    (m.receivedFrame L frame frameFlags).sent
        = (if kIncomingAckThreshold ≤ ackSum s
           then [ackMessage s.msg s.bytesReceived] else []) ∧
    (m.receivedFrame L frame frameFlags).msg.unackedBytes
        = (if kIncomingAckThreshold ≤ ackSum s then 0 else ackSum s) ∧
    (m.receivedFrame L frame frameFlags).msg.number = m.number ∧
    (m.receivedFrame L frame frameFlags).msg.flags = s.msg.flags ∧
    (m.receivedFrame L frame frameFlags).msg.propertiesSize = s.msg.propertiesSize ∧
    (m.receivedFrame L frame frameFlags).msg.properties = s.msg.properties ∧
    (frameFlags &&& kMoreComing ≠ 0 →
      (m.receivedFrame L frame frameFlags).outcome = .returned s.state ∧
      (m.receivedFrame L frame frameFlags).msg.in_ = some (w ++ s.frame) ∧
      (m.receivedFrame L frame frameFlags).msg.complete = m.complete) ∧
    (frameFlags &&& kMoreComing = 0 → s.msg.properties ≠ none →
      (m.receivedFrame L frame frameFlags).outcome = .returned .kEnd ∧
      (m.receivedFrame L frame frameFlags).msg.complete = true ∧
      (m.receivedFrame L frame frameFlags).msg.body = L.finish (w ++ s.frame)) := by
  obtain ⟨k1, k2⟩ := receivedFrame_sent L m frame frameFlags s hs
  obtain ⟨-, hb, hnum, -, hcomp, -, -⟩ := toAckStep_ok L m frame frameFlags s hs
  obtain ⟨t, ht, t1, t2, t3, t4, t5, t6, t7⟩ := acknowledge_ok s hb
  have heq := receivedFrame_eq L m frame frameFlags
  rw [hs] at heq
  simp only [bind, Except.bind, ht] at heq
  obtain ⟨-, -, a3, a4, a5⟩ := afterAckStep_keeps L frameFlags t
  obtain ⟨b1, b2, b3⟩ := afterAckStep_plain L frameFlags t w (t3.trans hin) (t4 ▸ hc)
  rw [heq]
  rw [← heq]
  refine ⟨k1, k2, ?_, ?_, ?_, ?_, ?_, ?_⟩
  · rw [heq, a3]
    have hn : t.msg.number = s.msg.number := by
      have e := acknowledge_eq s hb
      rw [ht] at e
      rw [Except.ok.inj e]
    exact hn.trans hnum
  · rw [heq, a4, t4]
  · rw [heq, b1, t6]
  · rw [heq, a5, t5]
  · intro hmc
    obtain ⟨c1, c2, c3⟩ := b2 hmc
    rw [heq, c1, c2, c3, t1, t2, t7]
    exact ⟨rfl, rfl, hcomp⟩
  · intro hmc hprops
    obtain ⟨c1, c2, c3⟩ := b3 hmc (t5 ▸ hprops)
    rw [heq, c1, c2, c3, t1]
    exact ⟨rfl, rfl, rfl⟩

/-! ## Inbound messages: receiving a well-formed uncompressed stream -/

theorem take_append_take_drop (S : List Nat) (r k : Nat) :
    S.take r ++ (S.drop r).take k = S.take (r + k) := by
  rw [List.take_add]

theorem stream_props (S : List Nat) (p r k : Nat) (h : r < p) (h2 : p ≤ r + k) :
    S.take r ++ ((S.drop r).take k).take (p - r) = S.take p := by
  have e : r + (p - r) = p := by omega
  rw [List.take_take, Nat.min_eq_left (by omega), ← List.take_add, e]

theorem stream_rest (S : List Nat) (p r k : Nat) (h : r < p) (h2 : p ≤ r + k) :
    ((S.drop r).take k).drop (p - r) = (S.drop p).take (r + k - p) := by
  have e1 : r + (p - r) = p := by omega
  have e2 : k - (p - r) = r + k - p := by omega
  rw [List.drop_take, List.drop_drop, e1, e2]

theorem stream_body (S : List Nat) (p r k : Nat) (h : p ≤ r) :
    (S.drop p).take (r - p) ++ (S.drop r).take k = (S.drop p).take (r + k - p) := by
  have e1 : S.drop r = (S.drop p).drop (r - p) := by
    rw [List.drop_drop]
    congr 1
    omega
  have e2 : r + k - p = r - p + k := by omega
  rw [e1, e2, List.take_add]

/-- The properties step on the next `k` bytes of a stream. -/
theorem readProperties_stream (L : Lib) (S : List Nat) (p r k : Nat) (s : Locals)
    (hR : s.msg.Receiving S p r) (hp0 : 0 < p) (hp64 : p < kMod64)
    (hlast : (S.take p).getLast? = some 0) (hrk : r + k ≤ S.length)
    (hframe : s.frame = (S.drop r).take k) :
    ∃ s2 w2, MessageIn.readProperties L s = .ok s2 ∧ s2.msg.in_ = some w2 ∧
      s2.msg.flags = s.msg.flags ∧ s2.msg.propertiesSize = p ∧
      s2.msg.unackedBytes = s.msg.unackedBytes ∧
      s2.frame.length = (if r < p ∧ p ≤ r + k then r + k - p else k) ∧
      s2.state = (if r < p ∧ p ≤ r + k then .kBeginning else s.state) ∧
      (r + k < p → s2.msg.properties = none ∧ w2 ++ s2.frame = S.take (r + k)) ∧
      (p ≤ r + k → s2.msg.properties = some (S.take p) ∧
        w2 ++ s2.frame = (S.drop p).take (r + k - p)) := by
  obtain ⟨hpS, -, hlt, hge⟩ := hR
  have hlenf : s.frame.length = k := by
    rw [hframe, List.length_take, List.length_drop]
    omega
  by_cases hr : r < p
  · obtain ⟨hprops, hin⟩ := hlt hr
    have hlenw : (S.take r).length = r := by
      rw [List.length_take]
      omega
    by_cases h1 : r + k < p
    · have hrp : MessageIn.readProperties L s = .ok s := by
        unfold MessageIn.readProperties
        rw [hin]
        simp only
        rw [if_neg]
        intro h
        have h2 := h.2
        rw [hlenw, hlenf, hpS] at h2
        omega
      refine ⟨s, S.take r, hrp, hin, rfl, hpS, rfl, ?_, ?_, ?_, ?_⟩
      · rw [if_neg (by omega), hlenf]
      · rw [if_neg (by omega)]
      · intro _
        refine ⟨hprops, ?_⟩
        rw [hframe, take_append_take_drop]
      · intro h
        omega
    · have h2 : p ≤ r + k := by omega
      have hrem : (s.msg.propertiesSize + kMod64 - (S.take r).length) % kMod64 = p - r := by
        rw [hlenw, hpS]
        unfold kMod64 at hp64 ⊢
        omega
      have hpr : S.take r ++ s.frame.take (p - r) = S.take p := by
        rw [hframe]
        exact stream_props S p r k hr h2
      have hplen : (S.take p).length = p := by
        rw [List.length_take]
        omega
      have hne : S.take p ≠ [] := by
        intro h
        rw [h] at hplen
        simp at hplen
        omega
      have hfin : L.finish (S.take p) = some (S.take p) := by
        unfold Lib.finish
        rw [if_neg]
        intro h
        exact hne h.1
      have hrp : MessageIn.readProperties L s
          = .ok { s with
                  msg := { s.msg with properties := some (S.take p), in_ := some [] },
                  frame := s.frame.drop (p - r), state := .kBeginning } := by
        unfold MessageIn.readProperties
        rw [hin]
        simp only
        rw [if_pos ⟨hprops, by rw [hlenw, hlenf, hpS]; omega⟩, hrem,
          if_neg (by rw [hlenf]; omega), hpr, hfin]
        simp only [sliceBytes, Option.getD_some]
        rw [if_neg]
        intro h
        exact h.2 hlast
      refine ⟨_, [], hrp, rfl, rfl, hpS, rfl, ?_, ?_, ?_, ?_⟩
      · rw [if_pos ⟨hr, h2⟩]
        simp only [List.length_drop, hlenf]
        omega
      · rw [if_pos ⟨hr, h2⟩]
      · intro h
        omega
      · intro _
        refine ⟨rfl, ?_⟩
        simp only [List.nil_append]
        rw [hframe]
        exact stream_rest S p r k hr h2
  · have hpr : p ≤ r := by omega
    obtain ⟨hprops, hin⟩ := hge hpr
    have hrp : MessageIn.readProperties L s = .ok s := by
      unfold MessageIn.readProperties
      rw [hin]
      simp only
      rw [if_neg]
      intro h
      rw [hprops] at h
      cases h.1
    refine ⟨s, (S.drop p).take (r - p), hrp, hin, rfl, hpS, rfl, ?_, ?_, ?_, ?_⟩
    · rw [if_neg (by omega), hlenf]
    · rw [if_neg (by omega)]
    · intro h
      omega
    · intro _
      refine ⟨hprops, ?_⟩
      rw [hframe]
      exact stream_body S p r k hpr

/-- One call of `receivedFrame` on the next `k` bytes of a stream, given what
the first-frame step leaves. -/
theorem receivedFrame_stream (L : Lib) (S : List Nat) (p r k : Nat) (m : MessageIn)
    (frame : List Nat) (frameFlags : Nat) (s1 : Locals)
    (h1 : m.firstFrame frame frameFlags = .ok s1)
    (hR : s1.msg.Receiving S p r) (hun : s1.msg.unackedBytes = m.unackedBytes)
    (hp0 : 0 < p) (hp64 : p < kMod64)
    (hlast : (S.take p).getLast? = some 0) (hrk : r + k ≤ S.length)
    (hframe : s1.frame = (S.drop r).take k) :
    (m.receivedFrame L frame frameFlags).sent.map MessageOut.payload
        = (if kIncomingAckThreshold
              ≤ (m.unackedBytes + (if r < p ∧ p ≤ r + k then r + k - p else k)) % kMod32
           then [PutUVarInt s1.bytesReceived] else []) ∧
    (m.receivedFrame L frame frameFlags).msg.unackedBytes
        = (if kIncomingAckThreshold
              ≤ (m.unackedBytes + (if r < p ∧ p ≤ r + k then r + k - p else k)) % kMod32
           then 0
           else (m.unackedBytes + (if r < p ∧ p ≤ r + k then r + k - p else k)) % kMod32) ∧
    (m.receivedFrame L frame frameFlags).msg.number = m.number ∧
    (frameFlags &&& kMoreComing ≠ 0 →
      (m.receivedFrame L frame frameFlags).outcome
          = .returned (if r < p ∧ p ≤ r + k then .kBeginning else .kOther) ∧
      (m.receivedFrame L frame frameFlags).msg.Receiving S p (r + k) ∧
      (m.receivedFrame L frame frameFlags).msg.complete = m.complete) ∧
    (frameFlags &&& kMoreComing = 0 → p ≤ r + k →
      (m.receivedFrame L frame frameFlags).outcome = .returned .kEnd ∧
      (m.receivedFrame L frame frameFlags).msg.complete = true ∧
      (m.receivedFrame L frame frameFlags).msg.properties = some (S.take p) ∧
      (m.receivedFrame L frame frameFlags).msg.body
          = L.finish ((S.drop p).take (r + k - p))) := by
  obtain ⟨s2, w2, hrp, hin2, hfl2, hps2, hun2, hlen2, hst2, hA, hB⟩ :=
    readProperties_stream L S p r k s1 hR hp0 hp64 hlast hrk hframe
  have hs : m.toAckStep L frame frameFlags = .ok s2 := by
    unfold MessageIn.toAckStep
    rw [h1]
    exact hrp
  have hc2 : s2.msg.flags &&& kCompressed = 0 := by
    rw [hfl2]
    exact hR.2.1
  obtain ⟨-, hbr, -⟩ := readProperties_ok L s1 s2 hrp
  obtain ⟨g1, g2, g3, g4, g5, g6, g7, g8⟩ :=
    receivedFrame_plain L m frame frameFlags s2 w2 hs hin2 hc2
  have hsum : ackSum s2
      = (m.unackedBytes + (if r < p ∧ p ≤ r + k then r + k - p else k)) % kMod32 := by
    unfold ackSum
    rw [hun2, hun, hlen2]
  have hst1 : s1.state = .kOther := (firstFrame_ok m frame frameFlags s1 h1).2.2.2.2.2.2.2.1
  rw [hsum] at g1 g2
  refine ⟨?_, g2, g3, ?_, ?_⟩
  · rw [g1]
    by_cases hT : kIncomingAckThreshold
        ≤ (m.unackedBytes + (if r < p ∧ p ≤ r + k then r + k - p else k)) % kMod32
    · rw [if_pos hT, if_pos hT]
      simp only [List.map_cons, List.map_nil, ackMessage, hbr]
    · rw [if_neg hT, if_neg hT]
      rfl
  · intro hmc
    obtain ⟨c1, c2, c3⟩ := g7 hmc
    refine ⟨?_, ⟨g5.trans hps2, g4 ▸ hc2, ?_, ?_⟩, c3⟩
    · rw [c1, hst2, hst1]
    · intro hlt
      obtain ⟨d1, d2⟩ := hA hlt
      exact ⟨g6.trans d1, c2.trans (congrArg some d2)⟩
    · intro hge
      obtain ⟨d1, d2⟩ := hB hge
      have e : r + k - p = r + k - p := rfl
      exact ⟨g6.trans d1, c2.trans (congrArg some d2)⟩
  · intro hmc hge
    obtain ⟨d1, d2⟩ := hB hge
    obtain ⟨c1, c2, c3⟩ := g8 hmc (by rw [d1]; exact Option.some_ne_none _)
    exact ⟨c1, c2, g6.trans d1, c3.trans (congrArg L.finish d2)⟩

/-- The first-frame step on a later frame. -/
theorem firstFrame_later (m : MessageIn) (frame : List Nat) (frameFlags : Nat) (w : List Nat)
    (hin : m.in_ = some w) :
    m.firstFrame frame frameFlags
      = .ok { msg := m, frame := frame, state := .kOther,
              bytesReceived := (frame.length + w.length) % kMod64, sent := [] } := by
  unfold MessageIn.firstFrame
  rw [hin]

/-- The first-frame step on the first frame of a message whose length field
is the varint of `p`. -/
theorem firstFrame_first (m : MessageIn) (X : List Nat) (frameFlags p : Nat)
    (hin : m.in_ = none) (hnum : m.number ≠ 0) (hp : p ≤ UINT32_MAX) :
    m.firstFrame (PutUVarInt p ++ X) frameFlags
      = .ok { msg := { m with flags := frameFlags &&& 0xBF, in_ := some [],
                              propertiesSize := p },
              frame := X, state := .kOther,
              bytesReceived := (PutUVarInt p ++ X).length % kMod64, sent := [] } := by
  unfold MessageIn.firstFrame
  rw [hin]
  simp only [if_neg hnum, ReadUVarInt32_PutUVarInt p X hp]

/-- One call of `receivedFrame` on the next `n` bytes of a payload made of the
varint of `p` and a stream `S` whose first `p` bytes are a NUL-terminated
properties block. -/
theorem recv_step (L : Lib) (S : List Nat) (p t n : Nat) (m : MessageIn)
    (frameFlags : Nat)
    (hAt : m.At S p (PutUVarInt p).length t) (hp0 : 0 < p) (hp32 : p ≤ UINT32_MAX)
    (hlast : (S.take p).getLast? = some 0)
    (hn : (PutUVarInt p).length ≤ t + n)
    (hlen : t + n ≤ (PutUVarInt p).length + S.length)
    (hc : t = 0 → (frameFlags &&& 0xBF) &&& kCompressed = 0) :
    ((m.receivedFrame L (((PutUVarInt p ++ S).drop t).take n) frameFlags).sent.length
        = (if kIncomingAckThreshold
              ≤ (m.unackedBytes +
                  (if t - (PutUVarInt p).length < p ∧ p ≤ t + n - (PutUVarInt p).length
                   then t + n - (PutUVarInt p).length - p
                   else t + n - (PutUVarInt p).length - (t - (PutUVarInt p).length)))
                % kMod32
           then 1 else 0)) ∧
    ((m.receivedFrame L (((PutUVarInt p ++ S).drop t).take n) frameFlags).msg.unackedBytes
        = (if kIncomingAckThreshold
              ≤ (m.unackedBytes +
                  (if t - (PutUVarInt p).length < p ∧ p ≤ t + n - (PutUVarInt p).length
                   then t + n - (PutUVarInt p).length - p
                   else t + n - (PutUVarInt p).length - (t - (PutUVarInt p).length)))
                % kMod32
           then 0
           else (m.unackedBytes +
                  (if t - (PutUVarInt p).length < p ∧ p ≤ t + n - (PutUVarInt p).length
                   then t + n - (PutUVarInt p).length - p
                   else t + n - (PutUVarInt p).length - (t - (PutUVarInt p).length)))
                % kMod32)) ∧
    (frameFlags &&& kMoreComing ≠ 0 →
      (∃ st, (m.receivedFrame L (((PutUVarInt p ++ S).drop t).take n) frameFlags).outcome
          = .returned st ∧ st ≠ .kEnd) ∧
      (m.receivedFrame L (((PutUVarInt p ++ S).drop t).take n) frameFlags).msg.At S p
        (PutUVarInt p).length (t + n) ∧
      (m.receivedFrame L (((PutUVarInt p ++ S).drop t).take n) frameFlags).msg.complete
        = m.complete) ∧
    (frameFlags &&& kMoreComing = 0 → p ≤ t + n - (PutUVarInt p).length →
      (m.receivedFrame L (((PutUVarInt p ++ S).drop t).take n) frameFlags).outcome
        = .returned .kEnd ∧
      (m.receivedFrame L (((PutUVarInt p ++ S).drop t).take n) frameFlags).msg.complete
        = true ∧
      (m.receivedFrame L (((PutUVarInt p ++ S).drop t).take n) frameFlags).msg.properties
        = some (S.take p) ∧
      (m.receivedFrame L (((PutUVarInt p ++ S).drop t).take n) frameFlags).msg.body
        = L.finish ((S.drop p).take (t + n - (PutUVarInt p).length - p))) := by
  have hp64 : p < kMod64 := by
    unfold UINT32_MAX at hp32
    unfold kMod64
    omega
  have hrk : t - (PutUVarInt p).length + (t + n - (PutUVarInt p).length
      - (t - (PutUVarInt p).length)) = t + n - (PutUVarInt p).length := by omega
  have hrkS : t - (PutUVarInt p).length + (t + n - (PutUVarInt p).length
      - (t - (PutUVarInt p).length)) ≤ S.length := by omega
  have hmain : ∃ s1, m.firstFrame (((PutUVarInt p ++ S).drop t).take n) frameFlags = .ok s1 ∧
      s1.msg.Receiving S p (t - (PutUVarInt p).length) ∧
      s1.msg.unackedBytes = m.unackedBytes ∧
      s1.frame = (S.drop (t - (PutUVarInt p).length)).take
        (t + n - (PutUVarInt p).length - (t - (PutUVarInt p).length)) := by
    rcases hAt with ⟨ht, hin, hnum, hprops⟩ | ⟨hvt, hR⟩
    · subst ht
      have hfr : ((PutUVarInt p ++ S).drop 0).take n
          = PutUVarInt p ++ S.take (n - (PutUVarInt p).length) := by
        rw [List.drop_zero, List.take_append_eq_append_take,
          List.take_of_length_le (by omega)]
      rw [hfr, firstFrame_first m _ frameFlags p hin hnum hp32]
      refine ⟨_, rfl, ⟨rfl, hc rfl, ?_, ?_⟩, rfl, ?_⟩
      · intro _
        exact ⟨hprops, by simp⟩
      · intro h
        omega
      · simp
    · have hin : ∃ w, m.in_ = some w := by
        by_cases h : t - (PutUVarInt p).length < p
        · exact ⟨_, (hR.2.2.1 h).2⟩
        · exact ⟨_, (hR.2.2.2 (by omega)).2⟩
      obtain ⟨w, hw⟩ := hin
      rw [firstFrame_later m _ frameFlags w hw]
      refine ⟨_, rfl, hR, rfl, ?_⟩
      have e1 : t = (PutUVarInt p).length + (t - (PutUVarInt p).length) := by omega
      have e2 : t + n - (PutUVarInt p).length - (t - (PutUVarInt p).length) = n := by omega
      show ((PutUVarInt p ++ S).drop t).take n = _
      rw [e2]
      conv_lhs => rw [e1, List.drop_append]
  obtain ⟨s1, h1, hR1, hun1, hf1⟩ := hmain
  obtain ⟨g1, g2, -, g4, g5⟩ := receivedFrame_stream L S p (t - (PutUVarInt p).length)
    (t + n - (PutUVarInt p).length - (t - (PutUVarInt p).length)) m _ frameFlags s1 h1 hR1 hun1
    hp0 hp64 hlast hrkS hf1
  rw [hrk] at g1 g2 g4 g5
  refine ⟨?_, g2, ?_, g5⟩
  · have hl := congrArg List.length g1
    rw [List.length_map] at hl
    rw [hl, apply_ite List.length]
    rfl
  · intro hmc
    obtain ⟨c1, c2, c3⟩ := g4 hmc
    refine ⟨⟨_, c1, ?_⟩, Or.inr ⟨by omega, ?_⟩, c3⟩
    · by_cases hcond : t - (PutUVarInt p).length < p ∧ p ≤ t + n - (PutUVarInt p).length
      · rw [if_pos hcond]
        decide
      · rw [if_neg hcond]
        decide
    · exact c2

theorem afterAll_cons (m : MessageIn) (r : RecvResult) (rs : List RecvResult) :
    m.afterAll (r :: rs) = r.msg.afterAll rs := by
  unfold MessageIn.afterAll
  cases rs with
  | nil => rfl
  | cons r2 rs2 =>
    rw [List.getLast?_cons_cons]
    cases h : (r2 :: rs2).getLast? with
    | none => simp at h
    | some x => rfl

theorem sliceBytes_finish (L : Lib) (w : List Nat) : sliceBytes (L.finish w) = w := by
  unfold Lib.finish sliceBytes
  split
  · rename_i h
    exact h.1.symm
  · rfl

/-- Sender and receiver together: from any point of the transfer at which
bytes remain, the frames still to be sent are all accepted, only the last
returns `kEnd`, and the message ends complete with the properties and body of
the stream. -/
theorem roundtrip_joint (L : Lib) (S : List Nat) (p a f : Nat) (ha : 0 < a)
    (hp0 : 0 < p) (hp32 : p ≤ UINT32_MAX) (hpS : p ≤ S.length)
    (hlast : (S.take p).getLast? = some 0) (hva : (PutUVarInt p).length ≤ a)
    (hfc : f &&& kCompressed = 0) (hfm : f &&& kMoreComing = 0) :
    ∀ (fuel : Nat) (mo : MessageOut) (mi : MessageIn), mo.Valid →
      mo.payload = PutUVarInt p ++ S → mo.flags = f →
      mi.At S p (PutUVarInt p).length mo.bytesSent →
      mo.bytesSent < mo.payload.length →
      frameCount (mo.payload.length - mo.bytesSent) a ≤ fuel →
      (mi.receiveAll L (mo.sendAll a fuel)).length
          = frameCount (mo.payload.length - mo.bytesSent) a ∧
      (∃ pre : List ReceiveState,
          (mi.receiveAll L (mo.sendAll a fuel)).map RecvResult.outcome
            = pre.map Outcome.returned ++ [Outcome.returned .kEnd] ∧
          ReceiveState.kEnd ∉ pre) ∧
      (mi.afterAll (mi.receiveAll L (mo.sendAll a fuel))).complete = true ∧
      (mi.afterAll (mi.receiveAll L (mo.sendAll a fuel))).properties = some (S.take p) ∧
      (mi.afterAll (mi.receiveAll L (mo.sendAll a fuel))).body = L.finish (S.drop p) := by
  intro fuel
  induction fuel with
  | zero =>
    intro mo _ _ _ _ _ _ hf
    have := frameCount_pos (mo.payload.length - mo.bytesSent) a
    omega
  | succ fuel ih =>
    intro mo mi hv hpay hflags hAt hlt hf
    have hlen : mo.payload.length = (PutUVarInt p).length + S.length := by
      rw [hpay, List.length_append]
    by_cases hrem : mo.payload.length - mo.bytesSent ≤ a
    · obtain ⟨hframe, hoflags⟩ := nextFrameToSend_last mo a hv hrem
      have hN := frameCount_of_le _ a ha hrem
      have hs : mo.sendAll a (fuel + 1) = [(mo.payload.drop mo.bytesSent, f)] := by
        simp only [MessageOut.sendAll, hframe, hoflags, hflags, hfm, if_true]
      have hfr : mo.payload.drop mo.bytesSent
          = ((PutUVarInt p ++ S).drop mo.bytesSent).take
              (mo.payload.length - mo.bytesSent) := by
        rw [hpay, List.take_of_length_le]
        rw [List.length_drop]
      obtain ⟨-, -, -, g4⟩ := recv_step L S p mo.bytesSent
        (mo.payload.length - mo.bytesSent) mi f hAt hp0 hp32 hlast (by omega) (by omega)
        (fun _ => by rw [strip_and_compressed]; exact hfc)
      have e1 : mo.bytesSent + (mo.payload.length - mo.bytesSent) - (PutUVarInt p).length
          = S.length := by omega
      rw [e1, ← hfr] at g4
      obtain ⟨c1, c2, c3, c4⟩ := g4 hfm hpS
      have hr : mi.receiveAll L [(mo.payload.drop mo.bytesSent, f)]
          = [mi.receivedFrame L (mo.payload.drop mo.bytesSent) f] := by
        simp only [MessageIn.receiveAll, c1]
      rw [hs, hr, hN, afterAll_cons]
      refine ⟨rfl, ⟨[], ?_, by simp⟩, c2, c3, ?_⟩
      · simp only [List.map_cons, List.map_nil, List.nil_append, c1]
      · show (mi.receivedFrame L (mo.payload.drop mo.bytesSent) f).msg.body = _
        rw [c4, List.take_of_length_le]
        rw [List.length_drop]
    · have hgt : a < mo.payload.length - mo.bytesSent := by omega
      obtain ⟨hframe, hoflags, hbs⟩ := nextFrameToSend_more mo a hv hgt
      have hN := frameCount_of_lt _ a ha hgt
      have hv2 := nextFrameToSend_valid mo a hv
      have hrem2 : (mo.nextFrameToSend a).msg.payload.length
          - (mo.nextFrameToSend a).msg.bytesSent
          = mo.payload.length - mo.bytesSent - a := by
        rw [nextFrameToSend_payload, hbs]
        omega
      have hs : mo.sendAll a (fuel + 1)
          = ((mo.payload.drop mo.bytesSent).take a, f ||| kMoreComing)
            :: (mo.nextFrameToSend a).msg.sendAll a fuel := by
        simp only [MessageOut.sendAll, hframe, hoflags, hflags]
        rw [if_neg (or_moreComing_ne_zero f)]
      obtain ⟨-, -, g3, -⟩ := recv_step L S p mo.bytesSent a mi (f ||| kMoreComing)
        hAt hp0 hp32 hlast (by omega) (by omega)
        (fun _ => by rw [strip_and_compressed, or_moreComing_and_compressed]; exact hfc)
      rw [← hpay] at g3
      obtain ⟨⟨st, c1, c2⟩, c3, -⟩ := g3 (or_moreComing_ne_zero f)
      have hr : mi.receiveAll L (((mo.payload.drop mo.bytesSent).take a, f ||| kMoreComing)
            :: (mo.nextFrameToSend a).msg.sendAll a fuel)
          = mi.receivedFrame L ((mo.payload.drop mo.bytesSent).take a) (f ||| kMoreComing)
            :: (mi.receivedFrame L ((mo.payload.drop mo.bytesSent).take a)
                (f ||| kMoreComing)).msg.receiveAll L
                  ((mo.nextFrameToSend a).msg.sendAll a fuel) := by
        simp only [MessageIn.receiveAll, c1]
      have hih := ih (mo.nextFrameToSend a).msg
        (mi.receivedFrame L ((mo.payload.drop mo.bytesSent).take a) (f ||| kMoreComing)).msg
        hv2 (by rw [nextFrameToSend_payload]; exact hpay)
        (by rw [nextFrameToSend_flags]; exact hflags)
        (by rw [hbs]; exact c3)
        (by rw [nextFrameToSend_payload, hbs]; omega)
        (by rw [hrem2]; omega)
      rw [hrem2] at hih
      obtain ⟨i1, ⟨pre, i2, i3⟩, i4, i5, i6⟩ := hih
      rw [hs, hr, hN, afterAll_cons]
      refine ⟨?_, ⟨st :: pre, ?_, ?_⟩, i4, i5, i6⟩
      · simp only [List.length_cons, i1]
      · simp only [List.map_cons, i2, c1, List.cons_append]
      · intro hmem
        rcases List.mem_cons.mp hmem with h | h
        · exact c2 h.symm
        · exact i3 h

/-! ## Claim about the round trip -/

/-- C1: for every payload of the wire form varint(|P|) ++ P ++ B of fewer than
2^32 bytes, P a non-empty properties block ending in a NUL byte, for message
flags without COMPRESSED, for every maxSize that is at least the size of the
length field (4096 always is), and for a fresh inbound message: the outbound
message can be created, and feeding the frames and frame flags of successive
nextFrameToSend(maxSize) calls in order into receivedFrame makes every call
return, kEnd being returned by the last call and by no other, and leaves the
inbound message complete with properties = P and body = B.  The flags of the
outbound message are without MORE_COMING, as those of every message the
program builds (the bit belongs to a frame: line 59 adds it, line 116 strips
it), and the number of the inbound message is not 0, which line 115 asserts. -/
theorem C1_round_trip (L : Lib) (P B : List Nat)
    (flags outNumber maxSize fuel inFlags inNumber : Nat) (onProgress : Option Nat)
    (outgoingSize : Nat)
    (hsize : (PutUVarInt P.length ++ P ++ B).length < kMod32)
    (hP : P ≠ []) (hnul : P.getLast? = some 0)
    (hfc : flags &&& kCompressed = 0) (hfm : flags &&& kMoreComing = 0)
    (hnum : inNumber ≠ 0)
    (hmax : (PutUVarInt P.length).length ≤ maxSize)
    (hfuel : frameCount (PutUVarInt P.length ++ P ++ B).length maxSize ≤ fuel) :
    ∃ mOut, MessageOut.new flags (PutUVarInt P.length ++ P ++ B) outNumber = some mOut ∧
      ((MessageIn.new inFlags inNumber onProgress outgoingSize).receiveAll L
          (mOut.sendAll maxSize fuel)).length = (mOut.sendAll maxSize fuel).length ∧
      (∃ pre : List ReceiveState,
        ((MessageIn.new inFlags inNumber onProgress outgoingSize).receiveAll L
            (mOut.sendAll maxSize fuel)).map RecvResult.outcome
          = pre.map Outcome.returned ++ [Outcome.returned .kEnd] ∧
        ReceiveState.kEnd ∉ pre) ∧
      ((MessageIn.new inFlags inNumber onProgress outgoingSize).afterAll
          ((MessageIn.new inFlags inNumber onProgress outgoingSize).receiveAll L
            (mOut.sendAll maxSize fuel))).isComplete = true ∧
      ((MessageIn.new inFlags inNumber onProgress outgoingSize).afterAll
          ((MessageIn.new inFlags inNumber onProgress outgoingSize).receiveAll L
            (mOut.sendAll maxSize fuel))).properties = some P ∧
      sliceBytes ((MessageIn.new inFlags inNumber onProgress outgoingSize).afterAll
          ((MessageIn.new inFlags inNumber onProgress outgoingSize).receiveAll L
            (mOut.sendAll maxSize fuel))).body = B ∧
      (PutUVarInt P.length).length ≤ 4096 := by
  have hlenP : 0 < P.length := List.length_pos.mpr hP
  have hlen3 : (PutUVarInt P.length ++ P ++ B).length
      = (PutUVarInt P.length).length + P.length + B.length := by
    rw [List.length_append, List.length_append]
  have hvpos := PutUVarInt_length_pos P.length
  have hp32 : P.length ≤ UINT32_MAX := by
    unfold UINT32_MAX
    unfold kMod32 at hsize
    omega
  have hten : (PutUVarInt P.length).length ≤ 10 := by
    apply PutUVarInt_length_le_ten
    unfold kMod64
    unfold UINT32_MAX at hp32
    omega
  have hnew : ∃ mOut, MessageOut.new flags (PutUVarInt P.length ++ P ++ B) outNumber
      = some mOut := by
    unfold MessageOut.new
    rw [if_pos]
    · exact ⟨_, rfl⟩
    · unfold UINT32_MAX
      unfold kMod32 at hsize
      omega
  obtain ⟨mOut, hmOut⟩ := hnew
  obtain ⟨hv, hpay, hflags, -, hbs, -⟩ := new_valid flags _ outNumber mOut hmOut
  have hpay2 : mOut.payload = PutUVarInt P.length ++ (P ++ B) := by
    rw [hpay, List.append_assoc]
  have htake : (P ++ B).take P.length = P := List.take_left' rfl
  have hdrop : (P ++ B).drop P.length = B := List.drop_left' rfl
  have hAt : (MessageIn.new inFlags inNumber onProgress outgoingSize).At (P ++ B) P.length
      (PutUVarInt P.length).length mOut.bytesSent := by
    rw [hbs]
    exact Or.inl ⟨rfl, rfl, hnum, rfl⟩
  have hfuel2 : frameCount (mOut.payload.length - mOut.bytesSent) maxSize ≤ fuel := by
    rw [hpay, hbs, Nat.sub_zero]
    exact hfuel
  obtain ⟨j1, j2, j3, j4, j5⟩ := roundtrip_joint L (P ++ B) P.length maxSize flags (by omega)
    hlenP hp32 (by rw [List.length_append]; omega) (by rw [htake]; exact hnul) hmax hfc hfm
    fuel mOut (MessageIn.new inFlags inNumber onProgress outgoingSize) hv hpay2 hflags hAt
    (by rw [hpay, hbs, hlen3]; omega) hfuel2
  obtain ⟨k1, -⟩ := sendAll_spec maxSize (by omega) fuel mOut hv (by rw [hflags]; exact hfm)
    hfuel2
  refine ⟨mOut, hmOut, j1.trans k1.symm, j2, j3, ?_, ?_, by omega⟩
  · rw [j4, htake]
  · rw [j5, hdrop, sliceBytes_finish]

/-- C1 at the properties block of one NUL byte and the body of one byte, sent
in frames of at most two bytes. -/
theorem C1_round_trip_witness :
    ∃ mOut, MessageOut.new 0 (PutUVarInt [0].length ++ [0] ++ [7]) 1 = some mOut ∧
      ((MessageIn.new 0 1 none 0).receiveAll plainLib (mOut.sendAll 2 2)).length
        = (mOut.sendAll 2 2).length ∧
      (∃ pre : List ReceiveState,
        ((MessageIn.new 0 1 none 0).receiveAll plainLib (mOut.sendAll 2 2)).map
            RecvResult.outcome
          = pre.map Outcome.returned ++ [Outcome.returned .kEnd] ∧
        ReceiveState.kEnd ∉ pre) ∧
      ((MessageIn.new 0 1 none 0).afterAll
          ((MessageIn.new 0 1 none 0).receiveAll plainLib (mOut.sendAll 2 2))).isComplete
        = true ∧
      ((MessageIn.new 0 1 none 0).afterAll
          ((MessageIn.new 0 1 none 0).receiveAll plainLib (mOut.sendAll 2 2))).properties
        = some [0] ∧
      sliceBytes ((MessageIn.new 0 1 none 0).afterAll
          ((MessageIn.new 0 1 none 0).receiveAll plainLib (mOut.sendAll 2 2))).body = [7] ∧
      (PutUVarInt [0].length).length ≤ 4096 :=
  C1_round_trip plainLib [0] [7] 0 1 2 2 0 1 none 0
    (by simp [PutUVarInt, kMod32]) (by decide) (by decide) (by decide) (by decide) (by decide)
    (by simp [PutUVarInt]) (by simp [PutUVarInt, frameCount])

/-! ## Three frames of 40 000 bytes -/

/-- A fresh uncompressed message whose 120 000-byte payload arrives in three
frames of 40 000 bytes: the three calls return, the last with `kEnd`, and one
ACK is sent in all. -/
theorem three_frames (L : Lib) (S : List Nat) (p ff1 ff2 ff3 : Nat) (m0 : MessageIn)
    (hin : m0.in_ = none) (hnum : m0.number ≠ 0) (hprops : m0.properties = none)
    (hun : m0.unackedBytes = 0)
    (hp0 : 0 < p) (hlast : (S.take p).getLast? = some 0) (hpS : p ≤ S.length)
    (htotal : (PutUVarInt p).length + S.length = 120000)
    (hc : (ff1 &&& 0xBF) &&& kCompressed = 0)
    (h1 : ff1 &&& kMoreComing ≠ 0) (h2 : ff2 &&& kMoreComing ≠ 0)
    (h3 : ff3 &&& kMoreComing = 0) :
    (∃ st1 st2,
      (m0.receiveAll L
          [(((PutUVarInt p ++ S).drop 0).take 40000, ff1),
           (((PutUVarInt p ++ S).drop 40000).take 40000, ff2),
           (((PutUVarInt p ++ S).drop 80000).take 40000, ff3)]).map RecvResult.outcome
        = [.returned st1, .returned st2, .returned .kEnd] ∧
      st1 ≠ .kEnd ∧ st2 ≠ .kEnd) ∧
    ((m0.receiveAll L
          [(((PutUVarInt p ++ S).drop 0).take 40000, ff1),
           (((PutUVarInt p ++ S).drop 40000).take 40000, ff2),
           (((PutUVarInt p ++ S).drop 80000).take 40000, ff3)]).map
        RecvResult.sent).flatten.length = 1 := by
  have hp32 : p ≤ UINT32_MAX := by
    unfold UINT32_MAX
    omega
  have hten : (PutUVarInt p).length ≤ 10 := by
    apply PutUVarInt_length_le_ten
    unfold kMod64
    omega
  have hvpos := PutUVarInt_length_pos p
  obtain ⟨a1, a2, a3, -⟩ := recv_step L S p 0 40000 m0 ff1 (Or.inl ⟨rfl, hin, hnum, hprops⟩)
    hp0 hp32 hlast (by omega) (by omega) (fun _ => hc)
  obtain ⟨⟨st1, o1, n1⟩, At1, -⟩ := a3 h1
  rw [Nat.zero_add] at At1
  obtain ⟨b1, b2, b3, -⟩ := recv_step L S p 40000 40000 _ ff2 At1
    hp0 hp32 hlast (by omega) (by omega) (fun h => by omega)
  obtain ⟨⟨st2, o2, n2⟩, At2, -⟩ := b3 h2
  obtain ⟨c1, -, -, c4⟩ := recv_step L S p 80000 40000 _ ff3 At2
    hp0 hp32 hlast (by omega) (by omega) (fun h => by omega)
  obtain ⟨o3, -⟩ := c4 h3 (by omega)
  have hrs : m0.receiveAll L
      [(((PutUVarInt p ++ S).drop 0).take 40000, ff1),
       (((PutUVarInt p ++ S).drop 40000).take 40000, ff2),
       (((PutUVarInt p ++ S).drop 80000).take 40000, ff3)]
      = [m0.receivedFrame L (((PutUVarInt p ++ S).drop 0).take 40000) ff1,
         (m0.receivedFrame L (((PutUVarInt p ++ S).drop 0).take 40000) ff1).msg.receivedFrame L
           (((PutUVarInt p ++ S).drop 40000).take 40000) ff2,
         ((m0.receivedFrame L (((PutUVarInt p ++ S).drop 0).take 40000)
             ff1).msg.receivedFrame L
           (((PutUVarInt p ++ S).drop 40000).take 40000) ff2).msg.receivedFrame L
           (((PutUVarInt p ++ S).drop 80000).take 40000) ff3] := by
    simp only [MessageIn.receiveAll, o1, o2, o3]
  rw [hrs]
  refine ⟨⟨st1, st2, ?_, n1, n2⟩, ?_⟩
  · simp only [List.map_cons, List.map_nil, o1, o2, o3]
  · simp only [List.map_cons, List.map_nil, List.flatten_cons, List.flatten_nil,
      List.length_append, List.length_nil, Nat.add_zero]
    rw [a1, b1, c1]
    rw [hun] at a2
    rw [hun]
    generalize (m0.receivedFrame L (((PutUVarInt p ++ S).drop 0).take 40000)
      ff1).msg.unackedBytes = u1 at a2 b2 ⊢
    generalize ((m0.receivedFrame L (((PutUVarInt p ++ S).drop 0).take 40000)
        ff1).msg.receivedFrame L
      (((PutUVarInt p ++ S).drop 40000).take 40000) ff2).msg.unackedBytes = u2 at b2 ⊢
    generalize (PutUVarInt p).length = v at *
    unfold kIncomingAckThreshold kMod32 at *
    split_ifs at a2 b2 ⊢ <;> omega

theorem PutUVarInt_one : PutUVarInt 1 = [1] := by
  simp [PutUVarInt]

theorem scenarioBody_length : scenarioBody.length = 119998 := by
  unfold scenarioBody
  rw [List.length_replicate]

theorem scenario_lengths :
    (PutUVarInt 1).length + ([0] ++ scenarioBody).length = 120000 ∧
    1 ≤ ([0] ++ scenarioBody).length := by
  rw [PutUVarInt_one, List.length_append, scenarioBody_length]
  exact ⟨rfl, by decide⟩

/-! ## Claims about the ACK step -/

/-- C7: a receivedFrame call that fails before the ACK step sends nothing.  In
a call that reaches the ACK step with the frame as it then stands (what is
left of the frame passed in after the length field and the properties bytes
consumed in this call; the whole frame when the properties were already
present), the size of that frame is added to unackedBytes in
32-bit arithmetic, which is the exact sum whenever unackedBytes plus the size of
the frame passed in is below 2^32; if the sum is >= 50 000 the call sends exactly one message,
the ACK with the number of this message, type ACK-RESPONSE if this message is a
response (its type is RESPONSE or, for an error reply, ERROR) and ACK-REQUEST
otherwise, and flags URGENT | NO-REPLY, and unackedBytes is left at 0; otherwise nothing is sent and unackedBytes is left
at the sum.  After every call that returns, unackedBytes < 50 000. -/
theorem C7_ack_threshold (L : Lib) (m : MessageIn) (frame : List Nat) (frameFlags : Nat) :
    (∀ r, m.toAckStep L frame frameFlags = .error r →
        m.receivedFrame L frame frameFlags = r ∧ r.sent = []) ∧
    (∀ s, m.toAckStep L frame frameFlags = .ok s →
        (∃ consumed, frame = consumed ++ s.frame) ∧
        (m.in_ ≠ none → m.properties ≠ none → s.frame = frame) ∧
        s.msg.unackedBytes = m.unackedBytes ∧
        (m.unackedBytes + frame.length < kMod32 →
          (m.unackedBytes + s.frame.length) % kMod32 = m.unackedBytes + s.frame.length) ∧
        (kIncomingAckThreshold ≤ (m.unackedBytes + s.frame.length) % kMod32 →
          (m.receivedFrame L frame frameFlags).sent = [ackMessage s.msg s.bytesReceived] ∧
          (m.receivedFrame L frame frameFlags).msg.unackedBytes = 0) ∧
        ((m.unackedBytes + s.frame.length) % kMod32 < kIncomingAckThreshold →
          (m.receivedFrame L frame frameFlags).sent = [] ∧
          (m.receivedFrame L frame frameFlags).msg.unackedBytes
            = (m.unackedBytes + s.frame.length) % kMod32) ∧
        (ackMessage s.msg s.bytesReceived).number = m.number ∧
        (ackMessage s.msg s.bytesReceived).type
          = (if s.msg.isResponse = true then kAckResponseType else kAckRequestType) ∧
        (ackMessage s.msg s.bytesReceived).flags
          = (if s.msg.isResponse = true then kAckResponseType else kAckRequestType)
              ||| kUrgent ||| kNoReply ∧
        (s.msg.isResponse = true ↔
          (s.msg.type = kResponseType ∨ s.msg.type = kErrorType))) ∧
    (∀ st, (m.receivedFrame L frame frameFlags).outcome = .returned st →
        (m.receivedFrame L frame frameFlags).msg.unackedBytes < kIncomingAckThreshold) := by
  have hkey := receivedFrame_sent L m frame frameFlags
  refine ⟨?_, ?_, ?_⟩
  · intro r hr
    rw [receivedFrame_eq, hr]
    refine ⟨rfl, ?_⟩
    rcases receivedFrame_cases L m frame frameFlags with
      ⟨r2, h1, h2, -⟩ | ⟨s1, h1, ⟨r2, h2, h3, -⟩ | ⟨s2, s3, -, h3, -⟩⟩
    · have e : r2 = r := Except.error.inj (h2.symm.trans hr)
      subst e
      exact (firstFrame_error m frame frameFlags r2 h1).1
    · have e : r2 = r := Except.error.inj (h3.symm.trans hr)
      subst e
      exact (readProperties_error L s1 r2 h2).1.trans
        (firstFrame_ok m frame frameFlags s1 h1).1
    · rw [h3] at hr
      cases hr
  · intro s hs
    obtain ⟨-, -, hnum, hun, -, -, hcons⟩ := toAckStep_ok L m frame frameFlags s hs
    obtain ⟨k1, k2⟩ := hkey s hs
    have hsum : ackSum s = (m.unackedBytes + s.frame.length) % kMod32 := by
      unfold ackSum
      rw [hun]
    obtain ⟨f1, -, f3, f4, -⟩ := ackMessage_fields s.msg s.bytesReceived
    have hresp : s.msg.isResponse = true ↔
        (s.msg.type = kResponseType ∨ s.msg.type = kErrorType) := by
      unfold MessageIn.isResponse
      rw [Bool.or_eq_true, beq_iff_eq, beq_iff_eq]
    refine ⟨hcons, ?_, hun, ?_, ?_, ?_, f1.trans hnum, f3, f4, hresp⟩
    · intro hin hp
      obtain ⟨w, hw⟩ := Option.ne_none_iff_exists'.mp hin
      obtain ⟨P, hP⟩ := Option.ne_none_iff_exists'.mp hp
      have hb := toAckStep_body L m frame frameFlags w P hw hP
      rw [hb] at hs
      rw [← Except.ok.inj hs]
    · intro hlt
      obtain ⟨consumed, hc⟩ := hcons
      have hl := congrArg List.length hc
      rw [List.length_append] at hl
      apply Nat.mod_eq_of_lt
      omega
    · intro hge
      rw [k1, k2, hsum, if_pos hge, if_pos hge]
      exact ⟨rfl, rfl⟩
    · intro hlt
      rw [k1, k2, hsum, if_neg (Nat.not_le.mpr hlt), if_neg (Nat.not_le.mpr hlt)]
      exact ⟨rfl, rfl⟩
  · intro st hst
    cases hs : m.toAckStep L frame frameFlags with
    | error r =>
      exfalso
      rw [receivedFrame_eq, hs] at hst
      rcases receivedFrame_cases L m frame frameFlags with
        ⟨r2, h1, h2, -⟩ | ⟨s1, h1, ⟨r2, h2, h3, -⟩ | ⟨s2, s3, -, h3, -⟩⟩
      · have e : r2 = r := Except.error.inj (h2.symm.trans hs)
        subst e
        simp only [bind, Except.bind] at hst
        rcases (firstFrame_error m frame frameFlags r2 h1).2.2.2.2 with h | h <;>
          rw [h] at hst <;> cases hst
      · have e : r2 = r := Except.error.inj (h3.symm.trans hs)
        subst e
        simp only [bind, Except.bind] at hst
        rcases (readProperties_error L s1 r2 h2).2.2.2 with h | ⟨h, -⟩ <;>
          rw [h] at hst <;> cases hst
      · rw [h3] at hs
        cases hs
    | ok s =>
      obtain ⟨-, k2⟩ := hkey s hs
      rw [k2]
      split
      · decide
      · omega

/-- C7 at a message one byte short of the threshold that receives a one-byte
frame: the ACK is sent and the counter is reset. -/
theorem C7_ack_threshold_witness :
    (sampleIn.receivedFrame plainLib [7] kMoreComing).sent = [ackMessage sampleIn 1] ∧
    (sampleIn.receivedFrame plainLib [7] kMoreComing).msg.unackedBytes = 0 :=
  ((C7_ack_threshold plainLib sampleIn [7] kMoreComing).2.1
    { msg := sampleIn, frame := [7], state := .kOther, bytesReceived := 1, sent := [] }
    rfl).2.2.2.2.1 (by decide)

theorem receivedFrame_header (L : Lib) :
    (MessageIn.new 0 1 none 0).receivedFrame L [1, 0] kMoreComing
      = { msg := afterHeaderIn, sent := [], progress := [],
          outcome := .returned .kBeginning } := by
  have h1 : (64 : Nat) &&& 191 = 0 := by decide
  simp [h1, MessageIn.receivedFrame, MessageIn.toCompletionStep, MessageIn.toAckStep,
    MessageIn.firstFrame, MessageIn.new, ReadUVarInt32, GetUVarInt, UINT32_MAX,
    MessageIn.readProperties, Lib.finish, sliceBytes, kMod64, Locals.fail,
    MessageIn.acknowledge, kMod32, kIncomingAckThreshold, MessageIn.writeBody, kCompressed,
    MessageIn.finishMessage, kMoreComing, sendProgress, afterHeaderIn, bind, Except.bind]

/-- C8: the code at the failing input.  A fresh REQUEST number 1 receives a
first frame of the two bytes 0x01 0x00 (length field 1, properties block of
one NUL) with MORE_COMING, then a frame of 50 000 zero bytes.  The first call
returns and sends nothing; the second sends one ACK whose payload is the
varint of 50000, while 2 + 50000 = 50002 frame bytes have been received. -/
theorem C8_ack_payload_at_failing_input (L : Lib) :
    (MessageIn.new 0 1 none 0).receivedFrame L [1, 0] kMoreComing
      = { msg := afterHeaderIn, sent := [], progress := [],
          outcome := .returned .kBeginning } ∧
    (afterHeaderIn.receivedFrame L (List.replicate 50000 0) 0).sent.map MessageOut.payload
      = [PutUVarInt 50000] ∧
    GetUVarInt (PutUVarInt 50000) = some (50000, []) ∧
    [1, 0].length + (List.replicate 50000 0).length = 50002 := by
  refine ⟨receivedFrame_header L, ?_, ?_, ?_⟩
  · rw [(receivedFrame_body_sent L afterHeaderIn (List.replicate 50000 0) 0 [] [0]
      rfl rfl).1, List.length_replicate, if_pos (by decide)]
    rfl
  · have h := GetUVarInt_PutUVarInt 50000 []
    rw [List.append_nil] at h
    exact h
  · rw [List.length_replicate, List.length_cons, List.length_cons, List.length_nil]

/-- C9, as stated, fails: the 120 000-byte uncompressed REQUEST number 2 made
of the length field 0x01, one NUL byte of properties and 119 998 body bytes,
delivered as its three 40 000-byte slices (the first two with MORE_COMING, the
last without), is accepted, and the three calls send one ACK in all, not two;
so the ACK payloads are not the varints of 50000 and 100000. -/
theorem C9_counterexample :
    scenarioPayload.length = 120000 ∧
    (∃ st1 st2,
      ((MessageIn.new kRequestType 2 none 0).receiveAll plainLib
          [((scenarioPayload.drop 0).take 40000, kMoreComing),
           ((scenarioPayload.drop 40000).take 40000, kMoreComing),
           ((scenarioPayload.drop 80000).take 40000, 0)]).map RecvResult.outcome
        = [.returned st1, .returned st2, .returned .kEnd]) ∧
    (((MessageIn.new kRequestType 2 none 0).receiveAll plainLib
          [((scenarioPayload.drop 0).take 40000, kMoreComing),
           ((scenarioPayload.drop 40000).take 40000, kMoreComing),
           ((scenarioPayload.drop 80000).take 40000, 0)]).map
        RecvResult.sent).flatten.length = 1 ∧
    (((MessageIn.new kRequestType 2 none 0).receiveAll plainLib
          [((scenarioPayload.drop 0).take 40000, kMoreComing),
           ((scenarioPayload.drop 40000).take 40000, kMoreComing),
           ((scenarioPayload.drop 80000).take 40000, 0)]).map
        RecvResult.sent).flatten.map MessageOut.payload
      ≠ [PutUVarInt 50000, PutUVarInt 100000] := by
  have h := three_frames plainLib ([0] ++ scenarioBody) 1 kMoreComing kMoreComing 0
    (MessageIn.new kRequestType 2 none 0) rfl (by decide) rfl rfl (by decide) (by simp)
    scenario_lengths.2 scenario_lengths.1 (by decide) (by decide) (by decide) (by decide)
  obtain ⟨⟨st1, st2, h1, -⟩, h2⟩ := h
  refine ⟨?_, ⟨st1, st2, h1⟩, h2, ?_⟩
  · unfold scenarioPayload
    rw [List.length_append]
    exact scenario_lengths.1
  · intro hbad
    have hl := congrArg List.length hbad
    rw [List.length_map] at hl
    have h2b : (((MessageIn.new kRequestType 2 none 0).receiveAll plainLib
          [((scenarioPayload.drop 0).take 40000, kMoreComing),
           ((scenarioPayload.drop 40000).take 40000, kMoreComing),
           ((scenarioPayload.drop 80000).take 40000, 0)]).map
        RecvResult.sent).flatten.length = 1 := h2
    rw [h2b] at hl
    cases hl

/-- C9, amended: when a 120 000-byte uncompressed message of the wire form
varint(|P|) ++ P ++ B, P a non-empty properties block ending in a NUL byte, is
delivered to receivedFrame of a fresh inbound message with a non-zero number as
three 40 000-byte frames (the first two with MORE_COMING, the last without),
the three calls return, the last with kEnd, and the inbound message emits
exactly one ACK. -/
theorem C9_fragmented_message (L : Lib) (P B : List Nat)
    (ff1 ff2 ff3 inFlags inNumber : Nat) (onProgress : Option Nat) (outgoingSize : Nat)
    (hP : P ≠ []) (hnul : P.getLast? = some 0)
    (htotal : (PutUVarInt P.length ++ P ++ B).length = 120000)
    (hnum : inNumber ≠ 0) (hc : ff1 &&& kCompressed = 0)
    (h1 : ff1 &&& kMoreComing ≠ 0) (h2 : ff2 &&& kMoreComing ≠ 0)
    (h3 : ff3 &&& kMoreComing = 0) :
    (∃ st1 st2,
      ((MessageIn.new inFlags inNumber onProgress outgoingSize).receiveAll L
          [((PutUVarInt P.length ++ P ++ B).take 40000, ff1),
           (((PutUVarInt P.length ++ P ++ B).drop 40000).take 40000, ff2),
           ((PutUVarInt P.length ++ P ++ B).drop 80000, ff3)]).map RecvResult.outcome
        = [.returned st1, .returned st2, .returned .kEnd] ∧
      st1 ≠ .kEnd ∧ st2 ≠ .kEnd) ∧
    (((MessageIn.new inFlags inNumber onProgress outgoingSize).receiveAll L
          [((PutUVarInt P.length ++ P ++ B).take 40000, ff1),
           (((PutUVarInt P.length ++ P ++ B).drop 40000).take 40000, ff2),
           ((PutUVarInt P.length ++ P ++ B).drop 80000, ff3)]).map
        RecvResult.sent).flatten.length = 1 := by
  have hlenP : 0 < P.length := List.length_pos.mpr hP
  have htake : (P ++ B).take P.length = P := List.take_left' rfl
  have hassoc : PutUVarInt P.length ++ P ++ B = PutUVarInt P.length ++ (P ++ B) :=
    List.append_assoc _ _ _
  have hlen : (PutUVarInt P.length).length + (P ++ B).length = 120000 := by
    rw [← List.length_append, ← hassoc]
    exact htotal
  have h := three_frames L (P ++ B) P.length ff1 ff2 ff3
    (MessageIn.new inFlags inNumber onProgress outgoingSize) rfl hnum rfl rfl hlenP
    (by rw [htake]; exact hnul) (by rw [List.length_append]; omega) hlen
    (by rw [strip_and_compressed]; exact hc) h1 h2 h3
  have e3 : (PutUVarInt P.length ++ P ++ B).drop 80000
      = ((PutUVarInt P.length ++ (P ++ B)).drop 80000).take 40000 := by
    rw [hassoc, List.take_of_length_le]
    rw [List.length_drop, List.length_append]
    omega
  rw [e3, hassoc]
  rw [List.drop_zero] at h
  exact h

/-- C9, amended, at the scenario message. -/
theorem C9_fragmented_message_witness :
    (((MessageIn.new kRequestType 2 none 0).receiveAll plainLib
          [((PutUVarInt [0].length ++ [0] ++ scenarioBody).take 40000, kMoreComing),
           (((PutUVarInt [0].length ++ [0] ++ scenarioBody).drop 40000).take 40000,
              kMoreComing),
           ((PutUVarInt [0].length ++ [0] ++ scenarioBody).drop 80000, 0)]).map
        RecvResult.sent).flatten.length = 1 :=
  (C9_fragmented_message plainLib [0] scenarioBody kMoreComing kMoreComing 0 kRequestType 2
    none 0 (by decide) (by decide)
    (by
      show (PutUVarInt 1 ++ [0] ++ scenarioBody).length = 120000
      rw [PutUVarInt_one, List.length_append, scenarioBody_length]
      rfl)
    (by decide) (by decide) (by decide) (by decide) (by decide)).2

/-! ## Completion -/

theorem acknowledge_facts (s s2 : Locals) (h : MessageIn.acknowledge s = .ok s2) :
    s2.state = s.state ∧ s2.msg.complete = s.msg.complete ∧
    s2.msg.properties = s.msg.properties ∧ s2.msg.in_ = s.msg.in_ ∧
    s2.msg.flags = s.msg.flags ∧ s2.frame = s.frame := by
  unfold MessageIn.acknowledge Locals.fail at h
  simp only at h
  split at h
  · split at h
    · cases h
    · cases h
      exact ⟨rfl, rfl, rfl, rfl, rfl, rfl⟩
  · cases h
    exact ⟨rfl, rfl, rfl, rfl, rfl, rfl⟩

/-- A call that returns went through every step. -/
theorem receivedFrame_returned (L : Lib) (m : MessageIn) (frame : List Nat)
    (frameFlags : Nat) (st : ReceiveState)
    (h : (m.receivedFrame L frame frameFlags).outcome = .returned st) :
    ∃ s4 s5, m.toCompletionStep L frame frameFlags = .ok s4 ∧
      MessageIn.finishMessage L frameFlags s4 = .ok s5 ∧
      st = s5.state ∧ (m.receivedFrame L frame frameFlags).msg = s5.msg ∧
      s4.state ≠ .kEnd ∧ s4.msg.complete = m.complete := by
  rcases receivedFrame_cases L m frame frameFlags with
    ⟨r, h1, -, -, hr⟩ | ⟨s1, h1, ⟨r, h2, -, -, hr⟩ |
      ⟨s2, s3, h2, hA, h3, ⟨r, h4, -, hr⟩ | ⟨s4, h4, hC, ⟨r, h5, hr⟩ | ⟨s5, h5, hr⟩⟩⟩⟩
  · rw [hr] at h
    rcases (firstFrame_error m frame frameFlags r h1).2.2.2.2 with e | e <;>
      rw [e] at h <;> cases h
  · rw [hr] at h
    rcases (readProperties_error L s1 r h2).2.2.2 with e | ⟨e, -⟩ <;>
      rw [e] at h <;> cases h
  · rw [hr] at h
    rcases (writeBody_error L s3 r h4).2.2.2.2.2.2 with e | e <;>
      rw [e] at h <;> cases h
  · rw [hr] at h
    rcases (finishMessage_error L frameFlags s4 r h5).2.2.2 with ⟨e, -⟩ | ⟨e, -⟩ <;>
      rw [e] at h <;> cases h
  · rw [hr] at h
    have hst : s5.state = st := Outcome.returned.inj h
    obtain ⟨-, -, -, -, a5, a6, -⟩ := toAckStep_ok L m frame frameFlags s2 hA
    obtain ⟨b1, b2, -⟩ := acknowledge_facts s2 s3 h3
    obtain ⟨-, -, c3, -, -, c6, -⟩ := writeBody_ok L s3 s4 h4
    refine ⟨s4, s5, hC, h5, hst.symm, by rw [hr], ?_, ?_⟩
    · rw [c3, b1]
      exact a6
    · rw [c6, b2, a5]

/-- A call that does not return with `kEnd` leaves the completion flag as it was. -/
theorem receivedFrame_complete (L : Lib) (m : MessageIn) (frame : List Nat)
    (frameFlags : Nat)
    (h : (m.receivedFrame L frame frameFlags).outcome ≠ .returned .kEnd) :
    (m.receivedFrame L frame frameFlags).msg.complete = m.complete := by
  rcases receivedFrame_cases L m frame frameFlags with
    ⟨r, h1, -, -, hr⟩ | ⟨s1, h1, ⟨r, h2, -, -, hr⟩ |
      ⟨s2, s3, h2, hA, h3, ⟨r, h4, -, hr⟩ | ⟨s4, h4, hC, ⟨r, h5, hr⟩ | ⟨s5, h5, hr⟩⟩⟩⟩
  · rw [hr]
    exact (firstFrame_error m frame frameFlags r h1).2.2.1
  · rw [hr, (readProperties_error L s1 r h2).2.2.1]
    exact (firstFrame_ok m frame frameFlags s1 h1).2.2.2.2.1
  · obtain ⟨-, -, -, -, a5, -⟩ := toAckStep_ok L m frame frameFlags s2 hA
    rw [hr, (writeBody_error L s3 r h4).2.2.2.1, (acknowledge_facts s2 s3 h3).2.1, a5]
  · obtain ⟨-, -, -, -, a5, -⟩ := toAckStep_ok L m frame frameFlags s2 hA
    rw [hr, (finishMessage_error L frameFlags s4 r h5).2.1,
      (writeBody_ok L s3 s4 h4).2.2.2.2.2.1, (acknowledge_facts s2 s3 h3).2.1, a5]
  · obtain ⟨-, -, -, -, a5, -⟩ := toAckStep_ok L m frame frameFlags s2 hA
    obtain ⟨-, -, -, -, -, -, f7, f8⟩ := finishMessage_ok L frameFlags s4 s5 h5
    rw [hr] at h ⊢
    by_cases hmc : frameFlags &&& kMoreComing = 0
    · exact absurd (congrArg Outcome.returned (f8 hmc).1) h
    · show s5.msg.complete = m.complete
      rw [f7 hmc, (writeBody_ok L s3 s4 h4).2.2.2.2.2.1, (acknowledge_facts s2 s3 h3).2.1, a5]

theorem receiveAll_incomplete (L : Lib) :
    ∀ (frames : List (List Nat × Nat)) (m : MessageIn), m.complete = false →
      (∀ r ∈ m.receiveAll L frames, r.outcome ≠ .returned .kEnd) →
      (m.afterAll (m.receiveAll L frames)).complete = false := by
  intro frames
  induction frames with
  | nil =>
    intro m hm _
    exact hm
  | cons fr rest ih =>
    intro m hm hall
    obtain ⟨frame, frameFlags⟩ := fr
    have hne : (m.receivedFrame L frame frameFlags).outcome ≠ .returned .kEnd := by
      apply hall
      simp only [MessageIn.receiveAll]
      exact List.mem_cons_self _ _
    have hc : (m.receivedFrame L frame frameFlags).msg.complete = false :=
      (receivedFrame_complete L m frame frameFlags hne).trans hm
    cases ho : (m.receivedFrame L frame frameFlags).outcome with
    | returned st =>
      have hr : m.receiveAll L ((frame, frameFlags) :: rest)
          = m.receivedFrame L frame frameFlags
            :: (m.receivedFrame L frame frameFlags).msg.receiveAll L rest := by
        simp only [MessageIn.receiveAll, ho]
      rw [hr, afterAll_cons]
      apply ih _ hc
      intro r hmem
      apply hall
      rw [hr]
      exact List.mem_cons_of_mem _ hmem
    | thrown what =>
      have hr : m.receiveAll L ((frame, frameFlags) :: rest)
          = [m.receivedFrame L frame frameFlags] := by
        simp only [MessageIn.receiveAll, ho]
      rw [hr, afterAll_cons]
      exact hc
    | assertFailed =>
      have hr : m.receiveAll L ((frame, frameFlags) :: rest)
          = [m.receivedFrame L frame frameFlags] := by
        simp only [MessageIn.receiveAll, ho]
      rw [hr, afterAll_cons]
      exact hc
    | undefined =>
      have hr : m.receiveAll L ((frame, frameFlags) :: rest)
          = [m.receivedFrame L frame frameFlags] := by
        simp only [MessageIn.receiveAll, ho]
      rw [hr, afterAll_cons]
      exact hc

/-- C10: a receivedFrame call that returns, returns kEnd if and only if
frameFlags has MORE_COMING clear; a call that returns kEnd leaves the message
complete, with the properties present, the encoder and the decompressor
dropped, and the body the finished content of the encoder at the completion
step, which for an uncompressed message whose properties were already present
is the bytes held before the call followed by the frame.  A call with
MORE_COMING clear that reaches the completion step with the properties still
null throws "message ends before end of properties" and leaves isComplete() as
it was; any call with MORE_COMING clear that leaves the properties null does
not return and leaves isComplete() as it was.  Every call that does not return
kEnd leaves isComplete() as it was, and a freshly constructed message is not
complete, so isComplete() is false until a call has returned kEnd. -/
theorem C10_completion (L : Lib) (m : MessageIn) (frame : List Nat) (frameFlags : Nat) :
    (∀ st, (m.receivedFrame L frame frameFlags).outcome = .returned st →
        (st = .kEnd ↔ frameFlags &&& kMoreComing = 0)) ∧
    ((m.receivedFrame L frame frameFlags).outcome = .returned .kEnd →
        (m.receivedFrame L frame frameFlags).msg.isComplete = true ∧
        (m.receivedFrame L frame frameFlags).msg.properties ≠ none ∧
        (m.receivedFrame L frame frameFlags).msg.in_ = none ∧
        (m.receivedFrame L frame frameFlags).msg.decompressor = none ∧
        ∃ s w, m.toCompletionStep L frame frameFlags = .ok s ∧ s.msg.in_ = some w ∧
          (m.receivedFrame L frame frameFlags).msg.body = L.finish w) ∧
    (∀ w P, m.in_ = some w → m.properties = some P → m.flags &&& kCompressed = 0 →
        frameFlags &&& kMoreComing = 0 →
        (m.receivedFrame L frame frameFlags).outcome = .returned .kEnd ∧
        (m.receivedFrame L frame frameFlags).msg.body = L.finish (w ++ frame)) ∧
    (∀ s, m.toCompletionStep L frame frameFlags = .ok s → s.msg.properties = none →
        frameFlags &&& kMoreComing = 0 →
        (m.receivedFrame L frame frameFlags).outcome
          = .thrown "message ends before end of properties" ∧
        (m.receivedFrame L frame frameFlags).msg.isComplete = m.isComplete) ∧
    (frameFlags &&& kMoreComing = 0 →
        (m.receivedFrame L frame frameFlags).msg.properties = none →
        (∀ st, (m.receivedFrame L frame frameFlags).outcome ≠ .returned st) ∧
        (m.receivedFrame L frame frameFlags).msg.isComplete = m.isComplete) ∧
    ((m.receivedFrame L frame frameFlags).outcome ≠ .returned .kEnd →
        (m.receivedFrame L frame frameFlags).msg.isComplete = m.isComplete) ∧
    (∀ (inFlags inNumber : Nat) (cb : Option Nat) (os : Nat)
        (frames : List (List Nat × Nat)),
        (MessageIn.new inFlags inNumber cb os).isComplete = false ∧
        ((∀ r ∈ (MessageIn.new inFlags inNumber cb os).receiveAll L frames,
            r.outcome ≠ .returned .kEnd) →
          ((MessageIn.new inFlags inNumber cb os).afterAll
            ((MessageIn.new inFlags inNumber cb os).receiveAll L frames)).isComplete
              = false)) := by
  have hiff : ∀ st, (m.receivedFrame L frame frameFlags).outcome = .returned st →
      (st = .kEnd ↔ frameFlags &&& kMoreComing = 0) := by
    intro st hst
    obtain ⟨s4, s5, -, h5, e1, -, e3, -⟩ := receivedFrame_returned L m frame frameFlags st hst
    obtain ⟨-, -, -, -, -, -, f7, f8⟩ := finishMessage_ok L frameFlags s4 s5 h5
    constructor
    · intro hend
      by_contra hmc
      rw [e1, f7 hmc] at hend
      exact e3 hend
    · intro hmc
      rw [e1]
      exact (f8 hmc).1
  have hend : (m.receivedFrame L frame frameFlags).outcome = .returned .kEnd →
      (m.receivedFrame L frame frameFlags).msg.isComplete = true ∧
      (m.receivedFrame L frame frameFlags).msg.properties ≠ none ∧
      (m.receivedFrame L frame frameFlags).msg.in_ = none ∧
      (m.receivedFrame L frame frameFlags).msg.decompressor = none ∧
      ∃ s w, m.toCompletionStep L frame frameFlags = .ok s ∧ s.msg.in_ = some w ∧
        (m.receivedFrame L frame frameFlags).msg.body = L.finish w := by
    intro hk
    have hmc := (hiff _ hk).mp rfl
    obtain ⟨s4, s5, hC, h5, -, e2, -, -⟩ := receivedFrame_returned L m frame frameFlags _ hk
    obtain ⟨-, -, -, -, -, f6, -, f8⟩ := finishMessage_ok L frameFlags s4 s5 h5
    obtain ⟨-, g2, g3, g4, g5, w, g6, g7⟩ := f8 hmc
    rw [e2]
    exact ⟨g2, by rw [f6]; exact g3, g4, g5, s4, w, hC, g6, g7⟩
  refine ⟨hiff, hend, ?_, ?_, ?_, ?_, ?_⟩
  · intro w P hin hp hc hmc
    have hs := toAckStep_body L m frame frameFlags w P hin hp
    obtain ⟨-, -, -, -, -, -, -, g8⟩ := receivedFrame_plain L m frame frameFlags _ w hs hin hc
    obtain ⟨c1, -, c3⟩ := g8 hmc (by rw [hp]; exact Option.some_ne_none _)
    exact ⟨c1, c3⟩
  · intro s hs hprops hmc
    rcases receivedFrame_cases L m frame frameFlags with
      ⟨r, -, -, hC, -⟩ | ⟨s1, -, ⟨r, -, -, hC, -⟩ |
        ⟨s2, s3, -, hA, h3, ⟨r, -, hC, -⟩ | ⟨s4, h4, hC, ⟨r, h5, hr⟩ | ⟨s5, h5, hr⟩⟩⟩⟩
    · rw [hC] at hs
      cases hs
    · rw [hC] at hs
      cases hs
    · rw [hC] at hs
      cases hs
    · have e : s4 = s := Except.ok.inj (hC.symm.trans hs)
      subst e
      obtain ⟨-, f2, -, f4⟩ := finishMessage_error L frameFlags s4 r h5
      rcases f4 with ⟨e1, -⟩ | ⟨-, e2⟩
      · refine ⟨by rw [hr]; exact e1, ?_⟩
        apply receivedFrame_complete
        rw [hr, e1]
        intro hbad
        cases hbad
      · exact absurd hprops e2
    · have e : s4 = s := Except.ok.inj (hC.symm.trans hs)
      subst e
      obtain ⟨-, -, -, -, -, -, -, f8⟩ := finishMessage_ok L frameFlags s4 s5 h5
      exact absurd hprops (f8 hmc).2.2.1
  · intro hmc hnone
    have hnr : ∀ st, (m.receivedFrame L frame frameFlags).outcome ≠ .returned st := by
      intro st hst
      have hk : st = .kEnd := (hiff st hst).mpr hmc
      subst hk
      exact (hend hst).2.1 hnone
    exact ⟨hnr, receivedFrame_complete L m frame frameFlags (hnr _)⟩
  · exact receivedFrame_complete L m frame frameFlags
  · intro inFlags inNumber cb os frames
    exact ⟨rfl, receiveAll_incomplete L frames _ rfl⟩

/-- C10 at a message that has two of five announced properties bytes and
receives a one-byte last frame: the call throws and the message stays
incomplete. -/
theorem C10_completion_witness :
    (pendingIn.receivedFrame plainLib [3] 0).outcome
      = .thrown "message ends before end of properties" ∧
    (pendingIn.receivedFrame plainLib [3] 0).msg.isComplete = false :=
  (C10_completion plainLib pendingIn [3] 0).2.2.2.1
    { msg := { pendingIn with unackedBytes := 3, in_ := some [1, 2, 3] }, frame := [3],
      state := .kOther, bytesReceived := 3, sent := [] }
    rfl rfl (by decide)

/-! ## The properties block of a complete message -/

theorem readProperties_props (L : Lib) (s s2 : Locals)
    (h : MessageIn.readProperties L s = .ok s2) :
    s2.msg.properties = s.msg.properties ∨
    (s.msg.properties = none ∧ ∀ P, s2.msg.properties = some P → WellTerminated P) := by
  unfold MessageIn.readProperties Locals.fail at h
  split at h
  · cases h
  · split at h
    · rename_i hcond
      simp only at h
      split at h
      · cases h
      · split at h
        · cases h
        · rename_i hgood
          cases h
          refine Or.inr ⟨hcond.1, ?_⟩
          intro P hP
          simp only at hP
          rw [hP] at hgood
          simp only [sliceBytes, Option.getD_some] at hgood
          unfold WellTerminated
          by_cases hnil : P = []
          · exact Or.inl hnil
          · right
            by_contra hne
            exact hgood ⟨List.length_pos.mpr hnil, hne⟩
    · cases h
      exact Or.inl rfl

theorem readProperties_error_props (L : Lib) (s : Locals) (r : RecvResult)
    (h : MessageIn.readProperties L s = .error r) (hp : s.msg.properties ≠ none) :
    r.msg.properties = s.msg.properties := by
  unfold MessageIn.readProperties Locals.fail at h
  split at h
  · cases h
    rfl
  · split at h
    · rename_i hcond
      exact absurd hcond.1 hp
    · cases h

/-- What one call does to the properties. -/
theorem receivedFrame_properties (L : Lib) (m : MessageIn) (frame : List Nat)
    (frameFlags : Nat) :
    (m.properties ≠ none →
      (m.receivedFrame L frame frameFlags).msg.properties = m.properties) ∧
    (∀ st, (m.receivedFrame L frame frameFlags).outcome = .returned st →
      (m.receivedFrame L frame frameFlags).msg.properties = m.properties ∨
      (m.properties = none ∧
        ∀ P, (m.receivedFrame L frame frameFlags).msg.properties = some P →
          WellTerminated P)) ∧
    ((m.receivedFrame L frame frameFlags).outcome = .returned .kEnd →
      (m.receivedFrame L frame frameFlags).msg.properties ≠ none) := by
  rcases receivedFrame_cases L m frame frameFlags with
    ⟨r, h1, -, -, hr⟩ | ⟨s1, h1, ⟨r, h2, -, -, hr⟩ |
      ⟨s2, s3, h2, hA, h3, ⟨r, h4, -, hr⟩ | ⟨s4, h4, hC, ⟨r, h5, hr⟩ | ⟨s5, h5, hr⟩⟩⟩⟩
  · have e := (firstFrame_error m frame frameFlags r h1).2.2.2
    refine ⟨fun _ => by rw [hr]; exact e.1, ?_, ?_⟩
    · intro st hst
      rw [hr] at hst
      rcases e.2 with e2 | e2 <;> rw [e2] at hst <;> cases hst
    · intro hst
      rw [hr] at hst
      rcases e.2 with e2 | e2 <;> rw [e2] at hst <;> cases hst
  · have a := (firstFrame_ok m frame frameFlags s1 h1).2.2.2.2.2.1
    have e := (readProperties_error L s1 r h2).2.2.2
    refine ⟨?_, ?_, ?_⟩
    · intro hp
      rw [hr, readProperties_error_props L s1 r h2 (a ▸ hp), a]
    · intro st hst
      rw [hr] at hst
      rcases e with e2 | ⟨e2, -⟩ <;> rw [e2] at hst <;> cases hst
    · intro hst
      rw [hr] at hst
      rcases e with e2 | ⟨e2, -⟩ <;> rw [e2] at hst <;> cases hst
  · have a := (firstFrame_ok m frame frameFlags s1 h1).2.2.2.2.2.1
    have b := (acknowledge_facts s2 s3 h3).2.2.1
    obtain ⟨-, -, -, -, -, c, e⟩ := writeBody_error L s3 r h4
    refine ⟨?_, ?_, ?_⟩
    · intro hp
      rcases readProperties_props L s1 s2 h2 with d | ⟨d, -⟩
      · rw [hr, c, b, d, a]
      · exact absurd (a ▸ d) hp
    · intro st hst
      rw [hr] at hst
      rcases e with e2 | e2 <;> rw [e2] at hst <;> cases hst
    · intro hst
      rw [hr] at hst
      rcases e with e2 | e2 <;> rw [e2] at hst <;> cases hst
  · have a := (firstFrame_ok m frame frameFlags s1 h1).2.2.2.2.2.1
    have b := (acknowledge_facts s2 s3 h3).2.2.1
    have c := (writeBody_ok L s3 s4 h4).2.2.2.2.2.2.2.1
    obtain ⟨-, f, -, e⟩ := finishMessage_error L frameFlags s4 r h5
    refine ⟨?_, ?_, ?_⟩
    · intro hp
      rcases readProperties_props L s1 s2 h2 with d | ⟨d, -⟩
      · rw [hr, f, c, b, d, a]
      · exact absurd (a ▸ d) hp
    · intro st hst
      rw [hr] at hst
      rcases e with ⟨e2, -⟩ | ⟨e2, -⟩ <;> rw [e2] at hst <;> cases hst
    · intro hst
      rw [hr] at hst
      rcases e with ⟨e2, -⟩ | ⟨e2, -⟩ <;> rw [e2] at hst <;> cases hst
  · have a := (firstFrame_ok m frame frameFlags s1 h1).2.2.2.2.2.1
    have b := (acknowledge_facts s2 s3 h3).2.2.1
    have c := (writeBody_ok L s3 s4 h4).2.2.2.2.2.2.2.1
    obtain ⟨-, -, -, -, -, f6, -, f8⟩ := finishMessage_ok L frameFlags s4 s5 h5
    have hprops : (m.receivedFrame L frame frameFlags).msg.properties = s2.msg.properties := by
      rw [hr]
      show s5.msg.properties = _
      rw [f6, c, b]
    refine ⟨?_, ?_, ?_⟩
    · intro hp
      rcases readProperties_props L s1 s2 h2 with d | ⟨d, -⟩
      · rw [hprops, d, a]
      · exact absurd (a ▸ d) hp
    · intro st _
      rcases readProperties_props L s1 s2 h2 with d | ⟨d, dw⟩
      · exact Or.inl (by rw [hprops, d, a])
      · refine Or.inr ⟨a ▸ d, ?_⟩
        intro P hP
        rw [hprops] at hP
        exact dw P hP
    · intro hst
      rw [hr] at hst
      have hk : s5.state = .kEnd := Outcome.returned.inj hst
      have hmc : frameFlags &&& kMoreComing = 0 := by
        by_contra hmc
        have e5 := (finishMessage_ok L frameFlags s4 s5 h5).2.2.2.2.2.2.1 hmc
        rw [e5] at hk
        obtain ⟨-, -, -, -, -, a6, -⟩ := toAckStep_ok L m frame frameFlags s2 hA
        have : s4.state = s2.state := by
          rw [(writeBody_ok L s3 s4 h4).2.2.1, (acknowledge_facts s2 s3 h3).1]
        rw [this] at hk
        exact a6 hk
      rw [hprops, ← b, ← c]
      exact (f8 hmc).2.2.1

theorem receiveAll_wellTerminated (L : Lib) :
    ∀ (frames : List (List Nat × Nat)) (m : MessageIn),
      (∀ P, m.properties = some P → WellTerminated P) →
      (m.complete = true → m.properties ≠ none) →
      (m.afterAll (m.receiveAll L frames)).complete = true →
      ∃ P, (m.afterAll (m.receiveAll L frames)).properties = some P ∧ WellTerminated P := by
  intro frames
  induction frames with
  | nil =>
    intro m hI hJ hc
    obtain ⟨P, hP⟩ := Option.ne_none_iff_exists'.mp (hJ hc)
    exact ⟨P, hP, hI P hP⟩
  | cons fr rest ih =>
    intro m hI hJ hc
    obtain ⟨frame, frameFlags⟩ := fr
    obtain ⟨p1, p2, p3⟩ := receivedFrame_properties L m frame frameFlags
    have hfail : (m.receivedFrame L frame frameFlags).outcome ≠ .returned .kEnd →
        (m.receivedFrame L frame frameFlags).msg.complete = true →
        ∃ P, (m.receivedFrame L frame frameFlags).msg.properties = some P ∧
          WellTerminated P := by
      intro hne hcomp
      rw [receivedFrame_complete L m frame frameFlags hne] at hcomp
      have hp := hJ hcomp
      obtain ⟨P, hP⟩ := Option.ne_none_iff_exists'.mp hp
      exact ⟨P, (p1 hp).trans hP, hI P hP⟩
    cases ho : (m.receivedFrame L frame frameFlags).outcome with
    | returned st =>
      have hr : m.receiveAll L ((frame, frameFlags) :: rest)
          = m.receivedFrame L frame frameFlags
            :: (m.receivedFrame L frame frameFlags).msg.receiveAll L rest := by
        simp only [MessageIn.receiveAll, ho]
      rw [hr, afterAll_cons] at hc ⊢
      apply ih _ _ _ hc
      · intro P hP
        rcases p2 st ho with d | ⟨-, d⟩
        · exact hI P (d ▸ hP)
        · exact d P hP
      · intro hcomp
        by_cases hk : st = .kEnd
        · subst hk
          exact p3 ho
        · have hne : (m.receivedFrame L frame frameFlags).outcome ≠ .returned .kEnd := by
            rw [ho]
            intro hbad
            exact hk (Outcome.returned.inj hbad)
          obtain ⟨P, hP, -⟩ := hfail hne hcomp
          rw [hP]
          exact Option.some_ne_none P
    | thrown what =>
      have hr : m.receiveAll L ((frame, frameFlags) :: rest)
          = [m.receivedFrame L frame frameFlags] := by
        simp only [MessageIn.receiveAll, ho]
      rw [hr, afterAll_cons] at hc ⊢
      exact hfail (by rw [ho]; intro hbad; cases hbad) hc
    | assertFailed =>
      have hr : m.receiveAll L ((frame, frameFlags) :: rest)
          = [m.receivedFrame L frame frameFlags] := by
        simp only [MessageIn.receiveAll, ho]
      rw [hr, afterAll_cons] at hc ⊢
      exact hfail (by rw [ho]; intro hbad; cases hbad) hc
    | undefined =>
      have hr : m.receiveAll L ((frame, frameFlags) :: rest)
          = [m.receivedFrame L frame frameFlags] := by
        simp only [MessageIn.receiveAll, ho]
      rw [hr, afterAll_cons] at hc ⊢
      exact hfail (by rw [ho]; intro hbad; cases hbad) hc

/-- C11, as stated, fails: a fresh message that receives the single frame
0x02 0x61 0x00 (length field 2, properties block "a" NUL, empty body, no
MORE_COMING) is accepted and marked complete, and its properties block is the
one NUL-terminated string "a": an odd number of strings, a key without a
value, for which the lookup of "a" finds nothing. -/
theorem C11_counterexample :
    ((MessageIn.new 0 1 none 0).receivedFrame plainLib [2, 97, 0] 0).outcome
      = .returned .kEnd ∧
    ((MessageIn.new 0 1 none 0).receivedFrame plainLib [2, 97, 0] 0).msg.isComplete = true ∧
    ((MessageIn.new 0 1 none 0).receivedFrame plainLib [2, 97, 0] 0).msg.properties
      = some [97, 0] ∧
    List.count 0 [97, 0] = 1 ∧
    ((MessageIn.new 0 1 none 0).receivedFrame plainLib [2, 97, 0] 0).msg.property
      (fun _ => 0) [97] = .nullslice := by
  decide

/-- C11, amended: for every fresh inbound message and every sequence of frames
fed to receivedFrame until a call fails, if the message is marked complete
then its properties are present and the properties block is empty or ends with
a NUL byte, that is, it is a sequence of NUL-terminated strings (whose number
is not checked). -/
theorem C11_properties_on_completion (L : Lib) (inFlags inNumber : Nat)
    (onProgress : Option Nat) (outgoingSize : Nat) (frames : List (List Nat × Nat))
    (hc : ((MessageIn.new inFlags inNumber onProgress outgoingSize).afterAll
      ((MessageIn.new inFlags inNumber onProgress outgoingSize).receiveAll L
        frames)).isComplete = true) :
    ∃ P, ((MessageIn.new inFlags inNumber onProgress outgoingSize).afterAll
        ((MessageIn.new inFlags inNumber onProgress outgoingSize).receiveAll L
          frames)).properties = some P ∧
      (P = [] ∨ P.getLast? = some 0) :=
  receiveAll_wellTerminated L frames _ (fun P hP => by cases hP)
    (fun hcomp => by cases hcomp) hc

/-- C11, amended, at the single frame 0x02 0x61 0x00. -/
theorem C11_properties_on_completion_witness :
    ∃ P, ((MessageIn.new 0 1 none 0).afterAll
        ((MessageIn.new 0 1 none 0).receiveAll plainLib [([2, 97, 0], 0)])).properties
          = some P ∧
      (P = [] ∨ P.getLast? = some 0) :=
  C11_properties_on_completion plainLib 0 1 none 0 [([2, 97, 0], 0)] (by decide)

/-! ## Property lookup on a block of pairs -/

theorem strlen_append (k rest : List Nat) (hk : 0 ∉ k) :
    strlen (k ++ 0 :: rest) = some k.length := by
  induction k with
  | nil => simp [strlen]
  | cons b bs ih =>
    have hb : b ≠ 0 := fun h => hk (by rw [h]; exact List.mem_cons_self _ _)
    have hbs : 0 ∉ bs := fun h => hk (List.mem_cons_of_mem _ h)
    show strlen (b :: (bs ++ 0 :: rest)) = _
    simp only [strlen, hb, if_false, ih hbs, Option.map_some', List.length_cons]

theorem propertyLoop_nil (property : List Nat) (fuel : Nat) :
    propertyLoop property (fuel + 1) [] = .nullslice := by
  simp [propertyLoop]

theorem propertyLoop_pair (property k v rest : List Nat) (fuel : Nat)
    (hk : 0 ∉ k) (hv : 0 ∉ v) :
    propertyLoop property (fuel + 1) (k ++ 0 :: (v ++ 0 :: rest))
      = if property = k then .found v else propertyLoop property fuel rest := by
  have h1 : k ++ 0 :: (v ++ 0 :: rest) ≠ [] := by simp
  have h2 : (k ++ 0 :: (v ++ 0 :: rest)).drop (k.length + 1) = v ++ 0 :: rest := by
    have e : k ++ 0 :: (v ++ 0 :: rest) = (k ++ [0]) ++ (v ++ 0 :: rest) := by simp
    rw [e]
    exact List.drop_left' (by simp)
  have h3 : (k ++ 0 :: (v ++ 0 :: rest)).take k.length = k := List.take_left' rfl
  have h4 : v ++ 0 :: rest ≠ [] := by simp
  have h5 : (v ++ 0 :: rest).take v.length = v := List.take_left' rfl
  have h6 : (v ++ 0 :: rest).drop (v.length + 1) = rest := by
    have e : v ++ 0 :: rest = (v ++ [0]) ++ rest := by simp
    rw [e]
    exact List.drop_left' (by simp)
  rw [propertyLoop, if_neg h1, strlen_append k _ hk]
  simp only [h2, h3, if_neg h4, strlen_append v rest hv, h5, h6]

theorem encodePairs_cons (kv : List Nat × List Nat) (ps : List (List Nat × List Nat)) :
    encodePairs (kv :: ps) = kv.1 ++ 0 :: (kv.2 ++ 0 :: encodePairs ps) := by
  simp [encodePairs]

theorem propertyLoop_encodePairs (property : List Nat) :
    ∀ (pairs : List (List Nat × List Nat)) (fuel : Nat),
      (∀ kv ∈ pairs, 0 ∉ kv.1 ∧ 0 ∉ kv.2) → (encodePairs pairs).length < fuel →
      propertyLoop property fuel (encodePairs pairs)
        = lookupResult (lookupPairs property pairs) := by
  intro pairs
  induction pairs with
  | nil =>
    intro fuel _ hf
    cases fuel with
    | zero => cases hf
    | succ f => exact propertyLoop_nil property f
  | cons kv ps ih =>
    intro fuel hz hf
    cases fuel with
    | zero => cases hf
    | succ f =>
      obtain ⟨hk, hv⟩ := hz kv (List.mem_cons_self _ _)
      rw [encodePairs_cons] at hf ⊢
      rw [propertyLoop_pair property kv.1 kv.2 _ f hk hv]
      have hlen : (encodePairs ps).length < f := by
        simp only [List.length_append, List.length_cons] at hf
        omega
      by_cases he : property = kv.1
      · rw [if_pos he]
        simp [lookupPairs, lookupResult, List.find?, he]
      · rw [if_neg he, ih f (fun x hx => hz x (List.mem_cons_of_mem _ hx)) hlen]
        have he2 : ¬ kv.1 = property := fun h => he h.symm
        simp [lookupPairs, List.find?, he2]

theorem lookupPairs_eq_some (key : List Nat) :
    ∀ (pairs : List (List Nat × List Nat)), (pairs.map Prod.fst).Nodup →
      ∀ v, lookupPairs key pairs = some v ↔ (key, v) ∈ pairs := by
  intro pairs
  induction pairs with
  | nil =>
    intro _ v
    simp [lookupPairs]
  | cons kv ps ih =>
    intro hnd v
    rw [List.map_cons, List.nodup_cons] at hnd
    obtain ⟨hnotin, hnd2⟩ := hnd
    by_cases he : kv.1 = key
    · have h1 : lookupPairs key (kv :: ps) = some kv.2 := by
        simp [lookupPairs, List.find?, he]
      rw [h1]
      constructor
      · intro h
        have hv : kv.2 = v := Option.some.inj h
        rw [← hv, ← he]
        exact List.mem_cons_self _ _
      · intro h
        rcases List.mem_cons.mp h with h | h
        · rw [← h]
        · exfalso
          apply hnotin
          rw [he]
          exact List.mem_map.mpr ⟨(key, v), h, rfl⟩
    · have h1 : lookupPairs key (kv :: ps) = lookupPairs key ps := by
        simp [lookupPairs, List.find?, he]
      rw [h1, ih hnd2 v]
      constructor
      · intro h
        exact List.mem_cons_of_mem _ h
      · intro h
        rcases List.mem_cons.mp h with h | h
        · exfalso
          apply he
          rw [← h]
        · exact h

theorem lookupPairs_perm (key : List Nat) (pairs pairs2 : List (List Nat × List Nat))
    (hperm : pairs.Perm pairs2) (hnd : (pairs.map Prod.fst).Nodup) :
    lookupPairs key pairs = lookupPairs key pairs2 := by
  have hnd2 : (pairs2.map Prod.fst).Nodup := (hperm.map Prod.fst).nodup_iff.mp hnd
  apply Option.ext
  intro v
  rw [Option.mem_def, Option.mem_def, lookupPairs_eq_some key pairs hnd v,
    lookupPairs_eq_some key pairs2 hnd2 v]
  exact hperm.mem_iff

theorem lookupPairs_first (key : List Nat) (kv : List Nat × List Nat)
    (post : List (List Nat × List Nat)) :
    ∀ (pre : List (List Nat × List Nat)), (∀ x ∈ pre, x.1 ≠ key) → kv.1 = key →
      lookupPairs key (pre ++ kv :: post) = some kv.2 := by
  intro pre
  induction pre with
  | nil =>
    intro _ hk
    simp [lookupPairs, List.find?, hk]
  | cons x xs ih =>
    intro hne hk
    have hx : ¬ x.1 = key := hne x (List.mem_cons_self _ _)
    have h1 : lookupPairs key (x :: xs ++ kv :: post) = lookupPairs key (xs ++ kv :: post) := by
      simp [lookupPairs, List.find?, hx]
    rw [h1]
    exact ih (fun y hy => hne y (List.mem_cons_of_mem _ hy)) hk

theorem lookupPairs_none (key : List Nat) :
    ∀ (pairs : List (List Nat × List Nat)), (∀ x ∈ pairs, x.1 ≠ key) →
      lookupPairs key pairs = none := by
  intro pairs
  induction pairs with
  | nil =>
    intro _
    rfl
  | cons x xs ih =>
    intro hne
    have hx : ¬ x.1 = key := hne x (List.mem_cons_self _ _)
    have h1 : lookupPairs key (x :: xs) = lookupPairs key xs := by
      simp [lookupPairs, List.find?, hx]
    rw [h1]
    exact ih (fun y hy => hne y (List.mem_cons_of_mem _ hy))

/-- C12: for every properties block that is the wire form of a sequence of
(key, value) pairs of NUL-free strings and every name, with the name looked up
being the one-byte token when tokenizeProperty(name) is non-zero and the name
itself otherwise: property(name) returns the value of the first pair whose key
equals that name, and the null slice when no pair has that key; hence for
blocks whose keys are pairwise distinct the result is the same for every
order of the pairs. -/
theorem C12_property_lookup (tokenizeProperty : List Nat → Nat) (m : MessageIn)
    (name : List Nat) (pairs : List (List Nat × List Nat))
    (hz : ∀ kv ∈ pairs, 0 ∉ kv.1 ∧ 0 ∉ kv.2)
    (hp : sliceBytes m.properties = encodePairs pairs) :
    (tokenizeProperty name ≠ 0 →
      wireName tokenizeProperty name = [tokenizeProperty name]) ∧
    (tokenizeProperty name = 0 → wireName tokenizeProperty name = name) ∧
    (∀ pre kv post, pairs = pre ++ kv :: post →
      kv.1 = wireName tokenizeProperty name →
      (∀ x ∈ pre, x.1 ≠ wireName tokenizeProperty name) →
      m.property tokenizeProperty name = .found kv.2) ∧
    ((∀ x ∈ pairs, x.1 ≠ wireName tokenizeProperty name) →
      m.property tokenizeProperty name = .nullslice) ∧
    (∀ (m2 : MessageIn) (pairs2 : List (List Nat × List Nat)),
      pairs.Perm pairs2 → (pairs.map Prod.fst).Nodup →
      sliceBytes m2.properties = encodePairs pairs2 →
      m2.property tokenizeProperty name = m.property tokenizeProperty name) := by
  have hmain : m.property tokenizeProperty name
      = lookupResult (lookupPairs (wireName tokenizeProperty name) pairs) := by
    unfold MessageIn.property
    rw [hp]
    exact propertyLoop_encodePairs _ pairs _ hz (Nat.lt_succ_self _)
  refine ⟨?_, ?_, ?_, ?_, ?_⟩
  · intro h
    unfold wireName
    rw [if_pos h]
  · intro h
    unfold wireName
    rw [if_neg (fun hne => hne h)]
  · intro pre kv post hpairs hk hpre
    rw [hmain, hpairs, lookupPairs_first _ kv post pre hpre hk]
    rfl
  · intro hnone
    rw [hmain, lookupPairs_none _ pairs hnone]
    rfl
  · intro m2 pairs2 hperm hnd hp2
    have hz2 : ∀ kv ∈ pairs2, 0 ∉ kv.1 ∧ 0 ∉ kv.2 :=
      fun kv hkv => hz kv (hperm.mem_iff.mpr hkv)
    have hmain2 : m2.property tokenizeProperty name
        = lookupResult (lookupPairs (wireName tokenizeProperty name) pairs2) := by
      unfold MessageIn.property
      rw [hp2]
      exact propertyLoop_encodePairs _ pairs2 _ hz2 (Nat.lt_succ_self _)
    rw [hmain, hmain2, lookupPairs_perm _ pairs pairs2 hperm hnd]

/-- C12 at the block of the pairs ("a", "1"), ("b", "2"), looking up "b"
without a token table. -/
theorem C12_property_lookup_witness :
    twoPropsIn.property (fun _ => 0) [98] = .found [50] :=
  (C12_property_lookup (fun _ => 0) twoPropsIn [98] [([97], [49]), ([98], [50])]
    (by decide) (by decide)).2.2.1 [([97], [49])] ([98], [50]) [] (by decide) (by decide)
    (by decide)

/-! ## Integer properties -/

theorem strlen_take_no_nul : ∀ (l : List Nat) (k : Nat), strlen l = some k → 0 ∉ l.take k := by
  intro l
  induction l with
  | nil =>
    intro k h
    simp [strlen] at h
  | cons b bs ih =>
    intro k h
    by_cases hb : b = 0
    · simp only [strlen, hb, if_true, Option.some.injEq] at h
      subst h
      simp
    · simp only [strlen, hb, if_false] at h
      cases hs : strlen bs with
      | none => simp [hs] at h
      | some n =>
        simp only [hs, Option.map_some', Option.some.injEq] at h
        subst h
        rw [List.take_succ_cons]
        intro hmem
        rcases List.mem_cons.mp hmem with h0 | h0
        · exact hb h0.symm
        · exact ih n hs h0

theorem propertyLoop_found_no_nul (property : List Nat) :
    ∀ (fuel : Nat) (key v : List Nat), propertyLoop property fuel key = .found v → 0 ∉ v := by
  intro fuel
  induction fuel with
  | zero =>
    intro key v h
    simp [propertyLoop] at h
  | succ n ih =>
    intro key v h
    unfold propertyLoop at h
    by_cases hk : key = []
    · simp [hk] at h
    · rw [if_neg hk] at h
      cases hs : strlen key with
      | none => simp [hs] at h
      | some a =>
        simp only [hs] at h
        by_cases hd : key.drop (a + 1) = []
        · simp [hd] at h
        · rw [if_neg hd] at h
          cases hs2 : strlen (key.drop (a + 1)) with
          | none => simp [hs2] at h
          | some k =>
            simp only [hs2] at h
            by_cases hp : property = key.take a
            · rw [if_pos hp] at h
              have hv : (key.drop (a + 1)).take k = v := PropertyResult.found.inj h
              rw [← hv]
              exact strlen_take_no_nul _ _ hs2
            · rw [if_neg hp] at h
              exact ih _ _ h

theorem dropWhile_isspace_append (ws rest : List Nat) (hws : ∀ c ∈ ws, isspace c = true) :
    (ws ++ rest).dropWhile isspace = rest.dropWhile isspace := by
  induction ws with
  | nil => rfl
  | cons w ws ih =>
    have hw : isspace w = true := hws w (List.mem_cons_self _ _)
    rw [List.cons_append, List.dropWhile_cons, if_pos hw]
    exact ih (fun c hc => hws c (List.mem_cons_of_mem _ hc))

theorem isdigit_not_space (c : Nat) (h : isdigit c = true) :
    isspace c = false ∧ c ≠ 45 ∧ c ≠ 43 := by
  simp only [isdigit, Bool.and_eq_true, decide_eq_true_eq] at h
  refine ⟨?_, by omega, by omega⟩
  simp only [isspace, Bool.or_eq_false_iff, Bool.and_eq_false_iff, beq_eq_false_iff_ne,
    decide_eq_false_iff_not]
  omega

theorem strtol_digits (ds : List Nat) (hne : ds ≠ []) (hd : ∀ c ∈ ds, isdigit c = true) :
    ds.dropWhile isspace = ds ∧ ds.head? ≠ some 45 ∧ ds.head? ≠ some 43 ∧
    ds.takeWhile isdigit = ds ∧ ds.dropWhile isdigit = [] := by
  cases ds with
  | nil => exact absurd rfl hne
  | cons x xs =>
    have hx := isdigit_not_space x (hd x (List.mem_cons_self _ _))
    refine ⟨?_, ?_, ?_, ?_, ?_⟩
    · rw [List.dropWhile_cons, hx.1]
      rfl
    · simp only [List.head?_cons, ne_eq, Option.some.injEq]
      exact hx.2.1
    · simp only [List.head?_cons, ne_eq, Option.some.injEq]
      exact hx.2.2
    · exact List.takeWhile_eq_self_iff.mpr (fun c hc => hd c hc)
    · exact List.dropWhile_eq_nil_iff.mpr (fun c hc => hd c hc)

theorem strtol_decimal (ws sg ds : List Nat) (hws : ∀ c ∈ ws, isspace c = true)
    (hsg : sg = [] ∨ sg = [43] ∨ sg = [45]) (hne : ds ≠ [])
    (hd : ∀ c ∈ ds, isdigit c = true) :
    strtol (ws ++ sg ++ ds) = (clampLong (signedValue sg ds), []) := by
  obtain ⟨h1, h2, h3, h4, h5⟩ := strtol_digits ds hne hd
  rw [List.append_assoc]
  unfold strtol
  simp only []
  rw [dropWhile_isspace_append ws _ hws]
  rcases hsg with h | h | h
  · subst h
    have hu : (if ds.head? = some 45 ∨ ds.head? = some 43 then ds.tail else ds) = ds :=
      if_neg (fun hh => hh.elim h2 h3)
    rw [List.nil_append, h1, hu, h4, h5, if_neg hne, if_neg h2]
    simp [signedValue]
  · subst h
    have ht : ([43] ++ ds).dropWhile isspace = 43 :: ds := by
      have : isspace 43 = false := by decide
      rw [List.singleton_append, List.dropWhile_cons, this]
      rfl
    rw [ht]
    simp [h4, h5, hne, signedValue]
  · subst h
    have ht : ([45] ++ ds).dropWhile isspace = 45 :: ds := by
      have : isspace 45 = false := by decide
      rw [List.singleton_append, List.dropWhile_cons, this]
      rfl
    rw [ht]
    simp [h4, h5, hne, signedValue]

theorem signed_tail (t : List Nat) :
    ∃ sg, (sg = [] ∨ sg = [43] ∨ sg = [45]) ∧
      t = sg ++ (if t.head? = some 45 ∨ t.head? = some 43 then t.tail else t) := by
  by_cases h : t.head? = some 45 ∨ t.head? = some 43
  · rw [if_pos h]
    cases t with
    | nil => simp at h
    | cons x xs =>
      simp only [List.head?_cons, Option.some.injEq] at h
      rcases h with h | h
      · exact ⟨[45], Or.inr (Or.inr rfl), by simp [h]⟩
      · exact ⟨[43], Or.inr (Or.inl rfl), by simp [h]⟩
  · rw [if_neg h]
    exact ⟨[], Or.inl rfl, rfl⟩

theorem intOfValue_not_decimal (v : List Nat) (d : Int) (hne : v ≠ []) (h0 : 0 ∉ v)
    (hnd : ¬ IsDecimalText v) : intOfValue v d = d := by
  obtain ⟨sg, hsg, ht⟩ := signed_tail (v.dropWhile isspace)
  have hv : v = v.takeWhile isspace ++ v.dropWhile isspace :=
    (List.takeWhile_append_dropWhile isspace v).symm
  unfold intOfValue
  rw [if_neg hne]
  unfold strtol
  simp only []
  generalize hu : (if (v.dropWhile isspace).head? = some 45 ∨
    (v.dropWhile isspace).head? = some 43 then (v.dropWhile isspace).tail
    else v.dropWhile isspace) = u at ht
  by_cases htw : u.takeWhile isdigit = []
  · rw [if_pos htw]
    cases v with
    | nil => exact absurd rfl hne
    | cons c cs =>
      have hc : c ≠ 0 := fun hc => h0 (hc ▸ List.mem_cons_self _ _)
      simp only [hc, ne_eq, not_false_eq_true, if_true]
  · rw [if_neg htw]
    simp only []
    cases hr : u.dropWhile isdigit with
    | nil =>
      exfalso
      apply hnd
      refine ⟨v.takeWhile isspace, sg, u, ?_, ?_, hsg, ?_, ?_⟩
      · rw [List.append_assoc, ← ht]
        exact hv
      · intro c hc
        exact (List.mem_takeWhile_imp hc)
      · intro hun
        rw [hun] at htw
        exact htw rfl
      · exact List.dropWhile_eq_nil_iff.mp hr
    | cons c cs =>
      have hcu : c ∈ u := by
        have : c ∈ u.dropWhile isdigit := by
          rw [hr]
          exact List.mem_cons_self _ _
        exact (List.dropWhile_suffix isdigit).subset this
      have hcv : c ∈ v := by
        rw [hv, ht]
        exact List.mem_append_right _ (List.mem_append_right _ hcu)
      have hc : c ≠ 0 := fun hc => h0 (hc ▸ hcv)
      simp only [hc, ne_eq, not_false_eq_true, if_true]

/-- C13, as stated, fails: for the properties block of the pair
("n", "99999999999999999999"), the text of the property is a decimal integer
whose value is 99999999999999999999, but intProperty("n", 0) returns LONG_MAX,
to which strtol clamps it. -/
theorem C13_counterexample :
    bigNumberIn.property (fun _ => 0) [110] = .found (List.replicate 20 57) ∧
    decimalValue (List.replicate 20 57) = 99999999999999999999 ∧
    bigNumberIn.intProperty (fun _ => 0) [110] 0 = some 9223372036854775807 ∧
    bigNumberIn.intProperty (fun _ => 0) [110] 0 ≠ some 99999999999999999999 := by
  decide

/-- C13, amended: intProperty(name, def) returns def when property(name) is
absent or empty, and when its text is not a decimal signed integer (optional
white space, an optional sign, then one or more digits); otherwise it returns
the decimal value that the text denotes clamped to the range of long, which is
exactly that value whenever the value lies between LONG_MIN and LONG_MAX. -/
theorem C13_intProperty (tokenizeProperty : List Nat → Nat) (m : MessageIn)
    (name : List Nat) (defaultValue : Int) :
    (m.property tokenizeProperty name = .nullslice ∨
        m.property tokenizeProperty name = .found [] →
      m.intProperty tokenizeProperty name defaultValue = some defaultValue) ∧
    (∀ v, m.property tokenizeProperty name = .found v → ¬ IsDecimalText v →
      m.intProperty tokenizeProperty name defaultValue = some defaultValue) ∧
    (∀ ws sg ds, m.property tokenizeProperty name = .found (ws ++ sg ++ ds) →
      (∀ c ∈ ws, isspace c = true) → (sg = [] ∨ sg = [43] ∨ sg = [45]) → ds ≠ [] →
      (∀ c ∈ ds, isdigit c = true) →
      m.intProperty tokenizeProperty name defaultValue
        = some (clampLong (signedValue sg ds)) ∧
      (LONG_MIN ≤ signedValue sg ds → signedValue sg ds ≤ LONG_MAX →
        m.intProperty tokenizeProperty name defaultValue = some (signedValue sg ds))) := by
  refine ⟨?_, ?_, ?_⟩
  · intro h
    unfold MessageIn.intProperty
    rcases h with h | h
    · rw [h]
    · rw [h]
      rfl
  · intro v hv hnd
    have h0 : 0 ∉ v := propertyLoop_found_no_nul _ _ _ v hv
    unfold MessageIn.intProperty
    rw [hv]
    by_cases hne : v = []
    · subst hne
      rfl
    · simp only []
      rw [intOfValue_not_decimal v defaultValue hne h0 hnd]
  · intro ws sg ds hv hws hsg hne hd
    have hval : m.intProperty tokenizeProperty name defaultValue
        = some (clampLong (signedValue sg ds)) := by
      unfold MessageIn.intProperty
      rw [hv]
      simp only []
      unfold intOfValue
      have hnil : ws ++ sg ++ ds ≠ [] := by
        intro hnil
        exact hne (List.append_eq_nil.mp hnil).2
      rw [if_neg hnil, strtol_decimal ws sg ds hws hsg hne hd]
    refine ⟨hval, ?_⟩
    intro hlo hhi
    rw [hval]
    unfold clampLong
    rw [if_neg (not_lt.mpr hhi), if_neg (not_lt.mpr hlo)]

/-- C13 at the properties block of the pair ("n", "-42"): the text is a minus
sign and the digits 4 and 2, and intProperty("n", 0) is -42. -/
theorem C13_intProperty_witness :
    numberIn.property (fun _ => 0) [110] = .found ([] ++ [45] ++ [52, 50]) ∧
    numberIn.intProperty (fun _ => 0) [110] 0 = some (-42) :=
  ⟨by decide,
   ((C13_intProperty (fun _ => 0) numberIn [110] 0).2.2 [] [45] [52, 50] (by decide)
      (by decide) (by decide) (by decide) (by decide)).2 (by decide) (by decide)⟩

/-! ## Responses -/

theorem or_high_and_typeMask (a x : Nat) (hx : x &&& kTypeMask = 0) :
    (a ||| x) &&& kTypeMask = a &&& kTypeMask := by
  rw [Nat.and_comm, Nat.and_or_distrib_left, Nat.and_comm kTypeMask x, hx, Nat.or_zero,
    Nat.and_comm]

theorem builder_flags_type (mb : MessageBuilder) :
    flagsType mb.flags = mb.type &&& kTypeMask := by
  unfold flagsType MessageBuilder.flags
  have hu : (if mb.urgent = true then kUrgent else 0) &&& kTypeMask = 0 := by
    cases mb.urgent <;> decide
  have hc : (if mb.compressed = true then kCompressed else 0) &&& kTypeMask = 0 := by
    cases mb.compressed <;> decide
  have hn : (if mb.noreply = true then kNoReply else 0) &&& kTypeMask = 0 := by
    cases mb.noreply <;> decide
  rw [or_high_and_typeMask _ _ hn, or_high_and_typeMask _ _ hc, or_high_and_typeMask _ _ hu,
    Nat.and_assoc]
  rfl

theorem typeMask_of_le (t : Nat) (h : t ≤ kTypeMask) : t &&& kTypeMask = t := by
  unfold kTypeMask at h ⊢
  interval_cases t <;> decide

/-- C14: when the inbound message has the no-reply flag, respond(builder),
respondWithError(err) and notHandled() send nothing.  Otherwise respond sends
exactly one outbound message, whose number is the inbound message's number and
whose type is RESPONSE when the builder's type was REQUEST and the builder's
type otherwise (for a builder type that is a message type, at most 7); and
notHandled sends exactly one message, with that number and of type ERROR,
built from a builder whose properties are Error-Domain = "BLIP" and
Error-Code = "404". -/
theorem C14_responding (extractOutput : MessageBuilder → List Nat) (m : MessageIn) :
    (m.noReply = true →
      (∀ mb, (m.respond extractOutput mb).2 = []) ∧
      (∀ err, m.respondWithError extractOutput err = []) ∧
      m.notHandled extractOutput = []) ∧
    (m.noReply = false →
      (∀ mb, ∃ msg, (m.respond extractOutput mb).2 = [msg] ∧ msg.number = m.number ∧
        (mb.type = kRequestType → msg.type = kResponseType) ∧
        (mb.type ≠ kRequestType → mb.type ≤ kTypeMask → msg.type = mb.type)) ∧
      (∃ msg b, m.notHandled extractOutput = [msg] ∧ msg.number = m.number ∧
        msg.type = kErrorType ∧ msg.flags = b.flags ∧ msg.payload = extractOutput b ∧
        b.type = kErrorType ∧
        b.properties = [(kErrorDomainProperty, [66, 76, 73, 80]),
                        (kErrorCodeProperty, [52, 48, 52])])) := by
  constructor
  · intro h
    refine ⟨?_, ?_, ?_⟩
    · intro mb
      unfold MessageIn.respond
      rw [if_pos h]
    · intro err
      unfold MessageIn.respondWithError
      rw [if_neg (fun hn => hn h)]
    · unfold MessageIn.notHandled MessageIn.respondWithError
      rw [if_neg (fun hn => hn h)]
  · intro h
    have hn : ¬ (m.noReply = true) := by
      rw [h]
      decide
    constructor
    · intro mb
      unfold MessageIn.respond
      rw [if_neg hn]
      refine ⟨_, rfl, rfl, ?_, ?_⟩
      · intro ht
        show flagsType (MessageBuilder.flags _) = kResponseType
        rw [builder_flags_type, if_pos ht]
        show kResponseType &&& kTypeMask = kResponseType
        decide
      · intro ht hle
        show flagsType (MessageBuilder.flags _) = mb.type
        rw [builder_flags_type, if_neg ht]
        exact typeMask_of_le _ hle
    · unfold MessageIn.notHandled MessageIn.respondWithError MessageIn.respond
      rw [if_pos hn, if_neg hn]
      refine ⟨_, (MessageBuilder.reply m).makeError kNotHandledError, rfl, rfl, ?_, rfl, rfl,
        rfl, rfl⟩
      show flagsType (MessageBuilder.flags _) = kErrorType
      rw [builder_flags_type]
      show kErrorType &&& kTypeMask = kErrorType
      decide

/-- C14 at a request with number 7: with the no-reply flag a response sends
nothing, and without it notHandled sends one message, number 7, type ERROR. -/
theorem C14_responding_witness :
    (noReplyIn.respond plainOutput requestBuilder).2 = [] ∧
    (∃ msg, (requestIn.respond plainOutput requestBuilder).2 = [msg] ∧ msg.number = 7 ∧
      (requestBuilder.type = kRequestType → msg.type = kResponseType) ∧
      (requestBuilder.type ≠ kRequestType → requestBuilder.type ≤ kTypeMask →
        msg.type = requestBuilder.type)) :=
  ⟨((C14_responding plainOutput noReplyIn).1 (by decide)).1 requestBuilder,
   ((C14_responding plainOutput requestIn).2 (by decide)).1 requestBuilder⟩

/-! ## WebSocket engine: sending -/

theorem sendOp_closeSent (P : Protocol) (ws : WebSocketImpl) (message : List Nat)
    (opcode : Nat) (hc : ws.closeSent = true) (ho : opcode ≠ CLOSE) :
    ws.sendOp P message opcode = { ws := ws, effects := [], result := false } := by
  unfold WebSocketImpl.sendOp
  rw [if_pos ⟨hc, ho⟩]

theorem sendOp_open (P : Protocol) (ws : WebSocketImpl) (message : List Nat)
    (opcode : Nat) (hc : ws.closeSent = false ∨ opcode = CLOSE) :
    ws.sendOp P message opcode =
      { ws := { ws with
                bufferedBytes := (ws.bufferedBytes + P.formatMessage message opcode) % kMod64 },
        effects := [.sendBytes opcode message (P.formatMessage message opcode)],
        result :=
          decide ((ws.bufferedBytes + P.formatMessage message opcode) % kMod64
            ≤ kSendBufferSize) } := by
  unfold WebSocketImpl.sendOp
  have hn : ¬ (ws.closeSent = true ∧ opcode ≠ CLOSE) := by
    rintro ⟨h1, h2⟩
    rcases hc with h | h
    · rw [h] at h1
      exact Bool.noConfusion h1
    · exact h2 h
  rw [if_neg hn]

theorem send_opcode_ne_close (binary : Bool) :
    (if binary = true then BINARY else TEXT) ≠ CLOSE := by
  cases binary <;> decide

/-- C15, as stated, fails: an open engine whose counter is 65 530, not above
kSendBufferSize, returns false from send for a 10-byte message, whose frame
brings the counter to 65 546; and an engine on which close() has set closeSent
returns false with a counter of 0. -/
theorem C15_counterexample :
    (nearlyFullWs.bufferedBytes = 65530 ∧ ¬ (nearlyFullWs.bufferedBytes > kSendBufferSize) ∧
      (nearlyFullWs.send clientProtocol [1, 2, 3, 4, 5, 6, 7, 8, 9, 10] true).result = false ∧
      (nearlyFullWs.send clientProtocol [1, 2, 3, 4, 5, 6, 7, 8, 9, 10] true).ws.bufferedBytes
        = 65546) ∧
    (closeSentWs.bufferedBytes = 0 ∧
      (closeSentWs.send clientProtocol [1] true).result = false) := by
  decide

/-- C15, amended: for every engine state and message, send(bytes, binary)
returns false if and only if the closeSent flag is set, which close() does and
the echo of a CLOSE of the peer does not, or the buffered-bytes counter
exceeds kSendBufferSize once the size of the new frame has been added to it;
in the first case nothing is sent and the counter is unchanged, otherwise the
frame is handed to the transport. -/
theorem C15_send_backpressure (P : Protocol) (ws : WebSocketImpl) (message : List Nat)
    (binary : Bool) :
    ((ws.send P message binary).result = false ↔
      (ws.closeSent = true ∨
        (ws.bufferedBytes + P.formatMessage message (if binary = true then BINARY else TEXT))
          % kMod64 > kSendBufferSize)) ∧
    (ws.closeSent = true →
      (ws.send P message binary).effects = [] ∧ (ws.send P message binary).ws = ws) ∧
    (ws.closeSent = false →
      (ws.send P message binary).effects
        = [.sendBytes (if binary = true then BINARY else TEXT) message
            (P.formatMessage message (if binary = true then BINARY else TEXT))] ∧
      (ws.send P message binary).ws.bufferedBytes
        = (ws.bufferedBytes + P.formatMessage message (if binary = true then BINARY else TEXT))
            % kMod64) := by
  unfold WebSocketImpl.send
  cases hc : ws.closeSent with
  | true =>
    rw [sendOp_closeSent P ws message _ hc (send_opcode_ne_close binary)]
    refine ⟨?_, ?_, ?_⟩
    · constructor
      · intro _
        exact Or.inl rfl
      · intro _
        rfl
    · intro _
      exact ⟨rfl, rfl⟩
    · intro h
      exact Bool.noConfusion h
  | false =>
    rw [sendOp_open P ws message _ (Or.inl hc)]
    refine ⟨?_, ?_, ?_⟩
    · constructor
      · intro h
        right
        have h2 := of_decide_eq_false h
        exact Nat.lt_of_not_le h2
      · intro h
        rcases h with h | h
        · exact Bool.noConfusion h
        · exact decide_eq_false (Nat.not_le_of_gt h)
    · intro h
      exact Bool.noConfusion h
    · intro _
      exact ⟨rfl, rfl⟩

/-- C15 at an open engine with 65 530 bytes buffered and a 10-byte binary
message: the frame of 16 bytes brings the counter above kSendBufferSize and
send returns false. -/
theorem C15_send_backpressure_witness :
    (nearlyFullWs.send clientProtocol [1, 2, 3, 4, 5, 6, 7, 8, 9, 10] true).result = false :=
  (C15_send_backpressure clientProtocol nearlyFullWs [1, 2, 3, 4, 5, 6, 7, 8, 9, 10] true).1.mpr
    (Or.inr (by decide))

/-- C16 at the failing input, a PING with payload (1, 2, 3) received by a fresh
engine: the one frame handed to the transport carries the payload under the
opcode BINARY, not PONG, and nothing is delivered to the delegate. -/
theorem C16_ping_at_failing_input :
    (WebSocketImpl.new.receivedMessage clientProtocol PING (some [1, 2, 3])).effects
      = [.sendBytes BINARY [1, 2, 3] 9] ∧
    (WebSocketImpl.new.receivedMessage clientProtocol PING (some [1, 2, 3])).effects
      ≠ [.sendBytes PONG [1, 2, 3] 9] ∧
    (WebSocketImpl.new.receivedMessage clientProtocol PING (some [1, 2, 3])).result = true := by
  decide

/-! ## WebSocket engine: closing -/

theorem close_again (P : Protocol) (ws : WebSocketImpl) (status : Int) (message : List Nat)
    (h : ws.closeSent = true ∨ ws.closeReceived = true) :
    ws.close P status message = some (ws, []) := by
  unfold WebSocketImpl.close
  rw [if_pos h]

theorem close_first (P : Protocol) (ws : WebSocketImpl) (status : Int) (message : List Nat)
    (hs : ws.closeSent = false) (hr : ws.closeReceived = false)
    (hfmt : (P.formatClosePayload (status % 65536).toNat message).length ≤ 2 + message.length) :
    ws.close P status message =
      some ({ ws with
              closeSent := true,
              closeMessage := some (P.formatClosePayload (status % 65536).toNat message),
              bufferedBytes :=
                (ws.bufferedBytes + P.formatMessage
                  (P.formatClosePayload (status % 65536).toNat message) CLOSE) % kMod64 },
            [.sendBytes CLOSE (P.formatClosePayload (status % 65536).toNat message)
              (P.formatMessage (P.formatClosePayload (status % 65536).toNat message) CLOSE)]) := by
  unfold WebSocketImpl.close
  have hn : ¬ (ws.closeSent = true ∨ ws.closeReceived = true) := by
    rw [hs, hr]
    decide
  rw [if_neg hn]
  simp only []
  rw [if_pos hfmt, sendOp_open P _ _ CLOSE (Or.inr rfl)]

/-- C17: close is idempotent.  From an engine with neither closeSent nor
closeReceived set, two calls of close hand exactly one CLOSE frame to the
transport, the second call sending nothing; and from any state in which
closeSent or closeReceived is set, close sends nothing and leaves the whole
state, so closeSent, closeReceived, closeMessage and bufferedBytes, unchanged.
The close payload that the protocol formats is taken to fit the 2 + size bytes
reserved for it, which line 241 asserts. -/
theorem C17_close_idempotent (P : Protocol) (ws : WebSocketImpl) (status status2 : Int)
    (message message2 : List Nat)
    (hfmt : ∀ c m, (P.formatClosePayload c m).length ≤ 2 + m.length) :
    (ws.closeSent = false → ws.closeReceived = false →
      ∃ ws1 payload size,
        ws.close P status message = some (ws1, [.sendBytes CLOSE payload size]) ∧
        ws1.close P status2 message2 = some (ws1, [])) ∧
    (ws.closeSent = true ∨ ws.closeReceived = true →
      ws.close P status message = some (ws, [])) := by
  constructor
  · intro hs hr
    refine ⟨_, _, _, close_first P ws status message hs hr (hfmt _ _), ?_⟩
    exact close_again P _ status2 message2 (Or.inl rfl)
  · intro h
    exact close_again P ws status message h

/-- C17 at a fresh engine: close(1000, "bye") twice hands the transport one
CLOSE frame, with the payload (3, 232, "bye") in a frame of 11 bytes. -/
theorem C17_close_idempotent_witness :
    ∃ ws1 payload size,
      WebSocketImpl.new.close clientProtocol 1000 [98, 121, 101]
        = some (ws1, [.sendBytes CLOSE payload size]) ∧
      ws1.close clientProtocol 1000 [98, 121, 101] = some (ws1, []) :=
  (C17_close_idempotent clientProtocol WebSocketImpl.new 1000 1000 [98, 121, 101]
    [98, 121, 101] (fun c m => by simp [clientProtocol]; omega)).1 rfl rfl

/-! ## WebSocket engine: write completion -/

theorem onWriteComplete_buffered (b n : Nat) (hb : b < kMod64) (hn : n ≤ b) :
    (b + (kMod64 - n % kMod64)) % kMod64 = b - n := by
  unfold kMod64 at hb ⊢
  omega

theorem onWriteComplete_eq (ws : WebSocketImpl) (n : Nat) (hb : ws.bufferedBytes < kMod64)
    (hn : n ≤ ws.bufferedBytes) :
    ws.onWriteComplete n =
      ({ ws with bytesSent := (ws.bytesSent + n) % kMod64,
                 bufferedBytes := ws.bufferedBytes - n },
       if (ws.closeSent && ws.closeReceived && ws.bufferedBytes - n == 0) = true
       then [.closeSocket]
       else if (if ws.bufferedBytes - n > kSendBufferSize then false
                else decide (ws.bufferedBytes > kSendBufferSize)) = true
       then [.onWebSocketWriteable]
       else []) := by
  unfold WebSocketImpl.onWriteComplete
  simp only [onWriteComplete_buffered ws.bufferedBytes n hb hn]

/-- C18, as stated, fails: on an engine with closeSent and closeReceived set
and 70 000 bytes buffered, onWriteComplete(70000) takes the counter from above
kSendBufferSize to 0, and the engine requests transport close without
notifying the delegate with onWebSocketWriteable. -/
theorem C18_counterexample :
    closedFullWs.bufferedBytes > kSendBufferSize ∧
    (closedFullWs.onWriteComplete 70000).1.bufferedBytes = 0 ∧
    ¬ ((closedFullWs.onWriteComplete 70000).1.bufferedBytes > kSendBufferSize) ∧
    (closedFullWs.onWriteComplete 70000).2 = [.closeSocket] ∧
    Effect.onWebSocketWriteable ∉ (closedFullWs.onWriteComplete 70000).2 := by
  decide

/-- C18, amended: onWriteComplete(n), for n not larger than the buffered-bytes
counter, subtracts n from the counter; it requests transport close exactly
when closeSent and closeReceived are both set and the counter is 0 after the
subtraction; and it notifies the delegate with onWebSocketWriteable exactly
when the counter was above kSendBufferSize before the call, is no longer above
it afterwards, and transport close is not requested in this call. -/
theorem C18_onWriteComplete (ws : WebSocketImpl) (n : Nat)
    (hb : ws.bufferedBytes < kMod64) (hn : n ≤ ws.bufferedBytes) :
    (ws.onWriteComplete n).1.bufferedBytes = ws.bufferedBytes - n ∧
    (Effect.closeSocket ∈ (ws.onWriteComplete n).2 ↔
      (ws.closeSent = true ∧ ws.closeReceived = true ∧ ws.bufferedBytes - n = 0)) ∧
    (Effect.onWebSocketWriteable ∈ (ws.onWriteComplete n).2 ↔
      (ws.bufferedBytes > kSendBufferSize ∧ ¬ (ws.bufferedBytes - n > kSendBufferSize) ∧
        ¬ (ws.closeSent = true ∧ ws.closeReceived = true ∧ ws.bufferedBytes - n = 0))) ∧
    (ws.onWriteComplete n).2.length ≤ 1 := by
  rw [onWriteComplete_eq ws n hb hn]
  refine ⟨rfl, ?_, ?_, ?_⟩
  · by_cases hd : (ws.closeSent && ws.closeReceived && ws.bufferedBytes - n == 0) = true
    · rw [if_pos hd]
      simp only [Bool.and_eq_true, beq_iff_eq] at hd
      simp [hd.1.1, hd.1.2, hd.2]
    · rw [if_neg hd]
      simp only [Bool.and_eq_true, beq_iff_eq] at hd
      constructor
      · intro h
        exfalso
        split_ifs at h <;> simp at h
      · intro h
        exact absurd ⟨⟨h.1, h.2.1⟩, h.2.2⟩ hd
  · by_cases hd : (ws.closeSent && ws.closeReceived && ws.bufferedBytes - n == 0) = true
    · rw [if_pos hd]
      simp only [Bool.and_eq_true, beq_iff_eq] at hd
      simp [hd.1.1, hd.1.2, hd.2]
    · rw [if_neg hd]
      simp only [Bool.and_eq_true, beq_iff_eq] at hd
      have hd2 : ¬ (ws.closeSent = true ∧ ws.closeReceived = true ∧ ws.bufferedBytes - n = 0) :=
        fun h => hd ⟨⟨h.1, h.2.1⟩, h.2.2⟩
      by_cases ha : ws.bufferedBytes - n > kSendBufferSize
      · simp [ha]
      · by_cases hbefore : ws.bufferedBytes > kSendBufferSize
        · simp [ha, hbefore, hd2]
        · simp [ha, hbefore]
  · split_ifs <;> simp

/-- C18 at an open engine with 70 000 bytes buffered: onWriteComplete(10000)
leaves 60 000 bytes buffered and notifies the delegate. -/
theorem C18_onWriteComplete_witness :
    (fullWs.onWriteComplete 10000).1.bufferedBytes = 60000 ∧
    Effect.onWebSocketWriteable ∈ (fullWs.onWriteComplete 10000).2 :=
  ⟨(C18_onWriteComplete fullWs 10000 (by decide) (by decide)).1,
   (C18_onWriteComplete fullWs 10000 (by decide) (by decide)).2.2.1.mpr (by decide)⟩

/-! ## WebSocket engine: the close status -/

/-- C19: onClose(errno) reports exactly one CloseStatus to the delegate.  If
errno is not 0 its reason is POSIX and its code is errno, whatever the state of
the close handshake; if errno is 0 and closeSent and closeReceived are not both
set, its reason is WebSocket and its code is kCodeAbnormal; if errno is 0, both
are set and a close message is stored, its reason is WebSocket and its code is
the status code parsed from the stored payload, or kCodeStatusCodeExpected
when the parsed code is 0. -/
theorem C19_onClose_status (P : Protocol) (ws : WebSocketImpl) (err_no : Int) :
    ∃ status, (ws.onClose P err_no).2 = [.onWebSocketClose status] ∧
      (err_no ≠ 0 → status.reason = .kPOSIXError ∧ status.code = err_no) ∧
      (err_no = 0 → ¬ (ws.closeSent = true ∧ ws.closeReceived = true) →
        status.reason = .kWebSocketClose ∧ status.code = kCodeAbnormal) ∧
      (err_no = 0 → ws.closeSent = true → ws.closeReceived = true →
        ∀ payload, ws.closeMessage = some payload →
          status.reason = .kWebSocketClose ∧
          ((P.parseClosePayload payload).1 ≠ 0 →
            status.code = ((P.parseClosePayload payload).1 : Int)) ∧
          ((P.parseClosePayload payload).1 = 0 → status.code = kCodeStatusCodeExpected)) := by
  refine ⟨_, rfl, ?_, ?_, ?_⟩
  · intro he
    simp only [if_neg he, and_self]
  · intro he hx
    have hx2 : ws.closeSent = false ∨ ws.closeReceived = false := by
      cases h1 : ws.closeSent
      · exact Or.inl rfl
      · cases h2 : ws.closeReceived
        · exact Or.inr rfl
        · exact absurd ⟨h1, h2⟩ hx
    simp only [if_pos he, if_pos hx2, and_self]
  · intro he h1 h2 payload hp
    have hx2 : ¬ (ws.closeSent = false ∨ ws.closeReceived = false) := by
      rw [h1, h2]
      decide
    simp only [if_pos he, if_neg hx2, hp]
    refine ⟨trivial, ?_, ?_⟩
    · intro hc
      rw [if_pos hc]
    · intro hc
      rw [if_neg (fun hne => hne hc)]

/-- C19 at an engine whose handshake is exchanged and whose stored close
message has status code 1000: onClose(0) reports code 1000, and onClose(104)
reports the POSIX error 104. -/
theorem C19_onClose_status_witness :
    (∃ status, (closedByeWs.onClose clientProtocol 0).2 = [.onWebSocketClose status] ∧
      status.reason = .kWebSocketClose ∧ status.code = 1000) ∧
    (∃ status, (closedByeWs.onClose clientProtocol 104).2 = [.onWebSocketClose status] ∧
      status.reason = .kPOSIXError ∧ status.code = 104) :=
  ⟨(C19_onClose_status clientProtocol closedByeWs 0).elim (fun status h =>
      ⟨status, h.1, (h.2.2.2 rfl rfl rfl [3, 232, 98, 121, 101] rfl).1,
        (h.2.2.2 rfl rfl rfl [3, 232, 98, 121, 101] rfl).2.1 (by decide)⟩),
   (C19_onClose_status clientProtocol closedByeWs 104).elim (fun status h =>
      ⟨status, h.1, (h.2.1 (by decide)).1, (h.2.1 (by decide)).2⟩)⟩

/-! ## WebSocket engine: graceful close -/

theorem receivedMessage_close (P : Protocol) (ws : WebSocketImpl)
    (message : Option (List Nat)) :
    ws.receivedMessage P CLOSE message = ws.receivedClose P message := by
  unfold WebSocketImpl.receivedMessage
  rw [if_neg (by decide), if_neg (by decide), if_pos rfl]

theorem receivedClose_confirms (P : Protocol) (ws : WebSocketImpl)
    (message : Option (List Nat)) (hr : ws.closeReceived = false) (hs : ws.closeSent = true) :
    ws.receivedClose P message =
      { ws := { ws with closeReceived := true }, effects := [.closeSocket], result := true } := by
  unfold WebSocketImpl.receivedClose
  have hn : ¬ (ws.closeReceived = true) := by
    rw [hr]
    decide
  rw [if_neg hn, if_pos hs]

theorem status_cast (s : Nat) (hs : s < 65536) : (((s : Int) % 65536).toNat) = s := by
  omega

/-- C20: graceful close begun locally.  For every status code s from 1 to
65 535 and every message m, given that the protocol formats the close payload
of (s, m) as the two bytes of s, high byte first, followed by m and parses
that payload back to (s, m): on a fresh engine, close(s, m) hands the transport
exactly one frame, a CLOSE frame with that payload; the receipt of the CLOSE
message of the peer, whatever its payload, is accepted, sends nothing and
requests transport close; and onClose(0) then reports to the delegate exactly
once, the status (reason WebSocket, code s, message m). -/
theorem C20_graceful_close (P : Protocol) (s : Nat) (m : List Nat)
    (peer : Option (List Nat)) (hs0 : 0 < s) (hs : s < 65536)
    (hfmt : P.formatClosePayload s m = [s / 256, s % 256] ++ m)
    (hparse : P.parseClosePayload ([s / 256, s % 256] ++ m) = (s, m)) :
    ∃ ws1 size,
      WebSocketImpl.new.close P (s : Int) m
        = some (ws1, [.sendBytes CLOSE ([s / 256, s % 256] ++ m) size]) ∧
      (ws1.receivedMessage P CLOSE peer).effects = [.closeSocket] ∧
      (ws1.receivedMessage P CLOSE peer).result = true ∧
      ((ws1.receivedMessage P CLOSE peer).ws.onClose P 0).2
        = [.onWebSocketClose { reason := .kWebSocketClose, code := (s : Int), message := m }] := by
  have hlen : (P.formatClosePayload (((s : Int) % 65536).toNat) m).length ≤ 2 + m.length := by
    rw [status_cast s hs, hfmt]
    simp only [List.length_append, List.length_cons, List.length_nil]
    omega
  have h1 := close_first P WebSocketImpl.new (s : Int) m rfl rfl hlen
  rw [status_cast s hs, hfmt] at h1
  refine ⟨_, _, h1, ?_, ?_, ?_⟩
  · rw [receivedMessage_close, receivedClose_confirms P _ peer rfl rfl]
  · rw [receivedMessage_close, receivedClose_confirms P _ peer rfl rfl]
  · rw [receivedMessage_close, receivedClose_confirms P _ peer rfl rfl]
    have hne : ¬ (s = 0) := by omega
    have hparse2 : P.parseClosePayload (s / 256 :: s % 256 :: m) = (s, m) := hparse
    simp [WebSocketImpl.onClose, WebSocketImpl.new, hparse2, hne]

/-- C20 at s = 1000 and m = "bye", with any payload in the CLOSE of the peer:
one CLOSE frame with payload (3, 232, "bye"), transport close when the peer
answers, and the status (WebSocket, 1000, "bye") reported once. -/
theorem C20_graceful_close_witness :
    ∃ ws1 size,
      WebSocketImpl.new.close clientProtocol 1000 [98, 121, 101]
        = some (ws1, [.sendBytes CLOSE [3, 232, 98, 121, 101] size]) ∧
      (ws1.receivedMessage clientProtocol CLOSE (some [3, 232])).effects = [.closeSocket] ∧
      (ws1.receivedMessage clientProtocol CLOSE (some [3, 232])).result = true ∧
      ((ws1.receivedMessage clientProtocol CLOSE (some [3, 232])).ws.onClose clientProtocol 0).2
        = [.onWebSocketClose
            { reason := .kWebSocketClose, code := 1000, message := [98, 121, 101] }] :=
  C20_graceful_close clientProtocol 1000 [98, 121, 101] (some [3, 232]) (by decide) (by decide)
    rfl rfl

/-! ## Batching queue -/

theorem push_held {α : Type} (b : Batcher α) (item : α) :
    (b.push item).1.held = b.held ++ [item] := by
  unfold Batcher.push Batcher.held
  cases b.items <;> rfl

theorem run_conserves {α : Type} (calls : List (BatcherCall α)) :
    ∀ (b : Batcher α),
      poppedItems (b.run calls).2 ++ (b.run calls).1.held = b.held ++ pushedItems calls := by
  induction calls with
  | nil =>
    intro b
    simp [Batcher.run, poppedItems, pushedItems]
  | cons c calls ih =>
    intro b
    cases c with
    | push item =>
      have h := ih (b.push item).1
      rw [push_held] at h
      simp only [Batcher.run, pushedItems]
      rw [h, List.append_assoc]
      rfl
    | pop =>
      have h := ih b.pop.1
      have hheld : (b.pop.1).held = [] := rfl
      rw [hheld, List.nil_append] at h
      simp only [Batcher.run, pushedItems]
      have hp : poppedItems (b.pop.2 :: (b.pop.1.run calls).2)
          = b.held ++ poppedItems (b.pop.1.run calls).2 := by
        simp [poppedItems, Batcher.pop, Batcher.held]
      rw [hp, List.append_assoc, h]

/-- C21: the batching queue loses and reorders nothing.  For every batcher and
every sequence of push and pop calls, the items of the batches that the pops
returned, followed by the items still held, are the items held at the start
(none for a new batcher) followed by all pushed items in push order.  Each pop
returns the entire current batch and leaves the queue empty with the scheduled
flag cleared, so a pop that follows a pop returns null. -/
theorem C21_batcher_conserves_items {α : Type} (b : Batcher α)
    (calls : List (BatcherCall α)) (latency : Int) (capacity : Nat) :
    poppedItems (b.run calls).2 ++ (b.run calls).1.held = b.held ++ pushedItems calls ∧
    poppedItems ((Batcher.new α latency capacity).run calls).2
        ++ ((Batcher.new α latency capacity).run calls).1.held = pushedItems calls ∧
    b.pop.2 = b.items ∧ b.pop.1.items = none ∧ b.pop.1.held = [] ∧
    b.pop.1.scheduled = false ∧ b.pop.1.pop.2 = none := by
  refine ⟨run_conserves calls b, ?_, rfl, rfl, rfl, rfl, rfl⟩
  have h := run_conserves calls (Batcher.new α latency capacity)
  rw [h]
  rfl

/-- C21 at a new batcher and the calls push 1, push 2, pop, push 3, pop, pop:
the pops return (1, 2), (3) and null, nothing is held afterwards, and together
the batches are the pushed items 1, 2, 3. -/
theorem C21_batcher_conserves_items_witness :
    ((Batcher.new Nat 0 0).run [.push 1, .push 2, .pop, .push 3, .pop, .pop]).2
      = [some [1, 2], some [3], none] ∧
    poppedItems ((Batcher.new Nat 0 0).run [.push 1, .push 2, .pop, .push 3, .pop, .pop]).2
      ++ ((Batcher.new Nat 0 0).run [.push 1, .push 2, .pop, .push 3, .pop, .pop]).1.held
      = pushedItems [BatcherCall.push 1, .push 2, .pop, .push 3, .pop, .pop] :=
  ⟨by decide,
   (C21_batcher_conserves_items (Batcher.new Nat 0 0)
      [.push 1, .push 2, .pop, .push 3, .pop, .pop] 0 0).2.1⟩

/-- C22, as stated, fails: a new batcher with latency 0 and capacity 1 reaches
its capacity with the first push, and the push schedules the delayed flush
only, no immediate flush. -/
theorem C22_counterexample :
    ((Batcher.new Nat 0 1).push 5).1.items = some [5] ∧
    (Batcher.new Nat 0 1).capacity > 0 ∧
    (((Batcher.new Nat 0 1).push 5).1.held).length = (Batcher.new Nat 0 1).capacity ∧
    ((Batcher.new Nat 0 1).push 5).2 = [.enqueueAfter 0] ∧
    ActorCall.enqueue ∉ ((Batcher.new Nat 0 1).push 5).2 := by
  decide

/-- C22, amended: for every configuration (latency, capacity) and every state,
push(item) appends the item and leaves the scheduled flag set; it schedules one
delayed flush (delay = latency) exactly when no flush was scheduled before the
call; and it additionally schedules an immediate flush, after the delayed one,
exactly when latency > 0, capacity > 0 and the batch size after the push is
the capacity. -/
theorem C22_batcher_push {α : Type} (b : Batcher α) (item : α) :
    (b.push item).1.items = some (b.held ++ [item]) ∧
    (b.push item).1.scheduled = true ∧
    (b.push item).1.latency = b.latency ∧ (b.push item).1.capacity = b.capacity ∧
    (b.push item).2 =
      (if b.scheduled = false then [ActorCall.enqueueAfter b.latency] else []) ++
      (if b.latency > 0 ∧ b.capacity > 0 ∧ b.held.length + 1 = b.capacity
       then [ActorCall.enqueue] else []) ∧
    ((b.push item).2.count (ActorCall.enqueueAfter b.latency)
      = if b.scheduled = false then 1 else 0) ∧
    ((b.push item).2.count ActorCall.enqueue
      = if b.latency > 0 ∧ b.capacity > 0 ∧ b.held.length + 1 = b.capacity then 1 else 0) := by
  have hitems : (match b.items with
      | none => []
      | some v => v) = b.held := by
    unfold Batcher.held
    cases b.items <;> rfl
  have heff : (b.push item).2 =
      (if b.scheduled = false then [ActorCall.enqueueAfter b.latency] else []) ++
      (if b.latency > 0 ∧ b.capacity > 0 ∧ b.held.length + 1 = b.capacity
       then [ActorCall.enqueue] else []) := by
    unfold Batcher.push
    simp only [hitems, List.length_append, List.length_cons, List.length_nil]
  refine ⟨?_, rfl, rfl, rfl, heff, ?_, ?_⟩
  · unfold Batcher.push
    simp only [hitems]
  · rw [heff]
    by_cases h1 : b.scheduled = false <;>
      by_cases h2 : b.latency > 0 ∧ b.capacity > 0 ∧ b.held.length + 1 = b.capacity <;>
      simp [h1, h2]
  · rw [heff]
    by_cases h1 : b.scheduled = false <;>
      by_cases h2 : b.latency > 0 ∧ b.capacity > 0 ∧ b.held.length + 1 = b.capacity <;>
      simp [h1, h2]

/-- C22 at a new batcher with latency 5 and capacity 1: the first push
schedules the delayed flush and then, the batch being full, an immediate one. -/
theorem C22_batcher_push_witness :
    ((Batcher.new Nat 5 1).push 7).2 = [.enqueueAfter 5, .enqueue] ∧
    ((Batcher.new Nat 5 1).push 7).1.items = some [7] :=
  ⟨(C22_batcher_push (Batcher.new Nat 5 1) 7).2.2.2.2.1,
   (C22_batcher_push (Batcher.new Nat 5 1) 7).1⟩

/-! ## WebSocket engine: close begun by the peer -/

theorem receivedClose_echo (P : Protocol) (ws : WebSocketImpl) (message : Option (List Nat))
    (hr : ws.closeReceived = false) (hs : ws.closeSent = false) :
    ws.receivedClose P message =
      { ws := { ws with
                closeReceived := true, closeMessage := message,
                bufferedBytes :=
                  (ws.bufferedBytes + P.formatMessage (sliceBytes message) CLOSE) % kMod64 },
        effects := [.sendBytes CLOSE (sliceBytes message)
                      (P.formatMessage (sliceBytes message) CLOSE)],
        result := true } := by
  unfold WebSocketImpl.receivedClose
  have h1 : ¬ (ws.closeReceived = true) := by
    rw [hr]
    decide
  have h2 : ¬ (ws.closeSent = true) := by
    rw [hs]
    decide
  rw [if_neg h1, if_neg h2]
  simp only []
  rw [sendOp_open P _ _ CLOSE (Or.inr rfl)]

theorem receivedClose_second (P : Protocol) (ws : WebSocketImpl) (message : Option (List Nat))
    (hr : ws.closeReceived = true) :
    ws.receivedClose P message = { ws := ws, effects := [], result := false } := by
  unfold WebSocketImpl.receivedClose
  rw [if_pos hr]

theorem onWriteComplete_open (ws : WebSocketImpl) (n : Nat) (hs : ws.closeSent = false) :
    Effect.closeSocket ∉ (ws.onWriteComplete n).2 := by
  unfold WebSocketImpl.onWriteComplete
  simp only [hs, Bool.false_and]
  split_ifs <;> first | contradiction | simp

/-- C23 at a fresh engine, for every payload of the CLOSE message of the peer
and every byte count n: the CLOSE is accepted, marked as received, its payload
remembered and echoed in one CLOSE frame; but closeSent stays clear, so
onWriteComplete(n) does not request transport close, also when it brings the
buffered-bytes counter to 0; a second CLOSE message is rejected. -/
theorem C23_peer_close_at_failing_input (P : Protocol) (message : Option (List Nat))
    (n : Nat) :
    (WebSocketImpl.new.receivedMessage P CLOSE message).result = true ∧
    (WebSocketImpl.new.receivedMessage P CLOSE message).ws.closeReceived = true ∧
    (WebSocketImpl.new.receivedMessage P CLOSE message).ws.closeMessage = message ∧
    (WebSocketImpl.new.receivedMessage P CLOSE message).effects
      = [.sendBytes CLOSE (sliceBytes message) (P.formatMessage (sliceBytes message) CLOSE)] ∧
    (WebSocketImpl.new.receivedMessage P CLOSE message).ws.closeSent = false ∧
    Effect.closeSocket ∉
      ((WebSocketImpl.new.receivedMessage P CLOSE message).ws.onWriteComplete n).2 ∧
    (((WebSocketImpl.new.receivedMessage clientProtocol CLOSE (some [3, 232])).ws.onWriteComplete
        8).1.bufferedBytes = 0 ∧
      ((WebSocketImpl.new.receivedMessage clientProtocol CLOSE (some [3, 232])).ws.onWriteComplete
        8).2 = []) ∧
    ((WebSocketImpl.new.receivedMessage P CLOSE message).ws.receivedMessage P CLOSE
      message).result = false := by
  have h := receivedClose_echo P WebSocketImpl.new message rfl rfl
  rw [receivedMessage_close, h]
  refine ⟨rfl, rfl, rfl, rfl, rfl, onWriteComplete_open _ n rfl, by decide, ?_⟩
  rw [receivedMessage_close, receivedClose_second P _ message rfl]

/-! ## WebSocket engine: reassembly -/

/-- C24, as stated, fails: a frame with the payload (1, 2) delivered to a fresh
engine as the fragment (1, 2) followed by an empty fragment, each with fin set
and remainingBytes 0, the number of bytes still to come: the first call
already dispatches the message (1, 2), and the last call dispatches a second,
empty message. -/
theorem C24_counterexample :
    (WebSocketImpl.new.deliver clientProtocol [([1, 2], BINARY), ([], BINARY)]).map
        (fun r => r.effects)
      = [[.onWebSocketMessage (some [1, 2]) true], [.onWebSocketMessage (some []) true]] ∧
    fragmentBytes [(([] : List Nat), BINARY)] = 0 := by
  decide

theorem sendOp_curMessage (P : Protocol) (ws : WebSocketImpl) (message : List Nat)
    (opcode : Nat) : (ws.sendOp P message opcode).ws.curMessage = ws.curMessage := by
  unfold WebSocketImpl.sendOp
  split_ifs <;> rfl

theorem receivedClose_curMessage (P : Protocol) (ws : WebSocketImpl)
    (message : Option (List Nat)) :
    (ws.receivedClose P message).ws.curMessage = ws.curMessage := by
  unfold WebSocketImpl.receivedClose
  split_ifs
  · rfl
  · rfl
  · exact sendOp_curMessage P _ _ _

theorem receivedMessage_curMessage (P : Protocol) (ws : WebSocketImpl) (opCode : Nat)
    (message : Option (List Nat)) :
    (ws.receivedMessage P opCode message).ws.curMessage = ws.curMessage := by
  unfold WebSocketImpl.receivedMessage
  split_ifs
  · rfl
  · rfl
  · rfl
  · exact receivedClose_curMessage P ws message
  · exact sendOp_curMessage P _ _ _
  · rfl
  · rfl

theorem fragmentBytes_cons (f : List Nat × Nat) (rest : List (List Nat × Nat)) :
    fragmentBytes (f :: rest) = f.1.length + fragmentBytes rest := by
  simp [fragmentBytes]

theorem fragmentData_cons (f : List Nat × Nat) (rest : List (List Nat × Nat)) :
    fragmentData (f :: rest) = f.1 ++ fragmentData rest := by
  simp [fragmentData]

theorem fragmentBytes_pos : ∀ (rest : List (List Nat × Nat)), rest ≠ [] →
    (∀ x, rest.getLast? = some x → x.1 ≠ []) → 0 < fragmentBytes rest := by
  intro rest
  induction rest with
  | nil =>
    intro h _
    exact absurd rfl h
  | cons f more ih =>
    intro _ hlast
    rw [fragmentBytes_cons]
    cases more with
    | nil =>
      have hf : f.1 ≠ [] := hlast f rfl
      have : 0 < f.1.length := List.length_pos.mpr hf
      omega
    | cons g more2 =>
      have h2 := ih (List.cons_ne_nil _ _) (fun x hx => hlast x (by
        rw [List.getLast?_cons_cons]
        exact hx))
      omega

theorem handleFragment_middle (P : Protocol) (ws : WebSocketImpl) (acc data : List Nat)
    (remainingBytes opCode : Nat) (hcur : ws.curMessage = some acc)
    (hcap : acc.length + data.length ≤ ws.curMessageCapacity) (hrem : 0 < remainingBytes) :
    ws.handleFragment P data remainingBytes opCode true =
      { ws := { ws with curMessage := some (acc ++ data) }, effects := [], result := true } := by
  unfold WebSocketImpl.handleFragment
  have h1 : ¬ (ws.curMessage = none) := by
    rw [hcur]
    exact fun h => Option.noConfusion h
  have h2 : ¬ (acc.length + data.length > ws.curMessageCapacity) := Nat.not_lt.mpr hcap
  have h3 : ¬ (True ∧ remainingBytes = 0) := fun h => by omega
  simp only [if_neg h1]
  simp only [hcur, sliceBytes, Option.getD_some, if_neg h2, if_neg h3]

theorem handleFragment_final (P : Protocol) (ws : WebSocketImpl) (acc data : List Nat)
    (opCode : Nat) (hcur : ws.curMessage = some acc)
    (hcap : acc.length + data.length ≤ ws.curMessageCapacity) :
    ws.handleFragment P data 0 opCode true =
      WebSocketImpl.receivedMessage P (ws.dispatching ws.curOpCode ws.curMessageCapacity)
        ws.curOpCode (some (acc ++ data)) := by
  unfold WebSocketImpl.handleFragment
  have h1 : ¬ (ws.curMessage = none) := by
    rw [hcur]
    exact fun h => Option.noConfusion h
  have h2 : ¬ (acc.length + data.length > ws.curMessageCapacity) := Nat.not_lt.mpr hcap
  simp only [if_neg h1]
  simp only [hcur, sliceBytes, Option.getD_some, if_neg h2, and_self, if_true]
  rfl

theorem handleFragment_overflow (P : Protocol) (ws : WebSocketImpl) (acc data : List Nat)
    (remainingBytes opCode : Nat) (fin : Bool) (hcur : ws.curMessage = some acc)
    (hcap : acc.length + data.length > ws.curMessageCapacity) :
    ws.handleFragment P data remainingBytes opCode fin =
      { ws := ws, effects := [], result := false } := by
  unfold WebSocketImpl.handleFragment
  have h1 : ¬ (ws.curMessage = none) := by
    rw [hcur]
    exact fun h => Option.noConfusion h
  simp only [if_neg h1]
  simp only [hcur, sliceBytes, Option.getD_some, if_pos hcap]

theorem deliver_rest (P : Protocol) : ∀ (rest : List (List Nat × Nat)) (ws : WebSocketImpl)
    (acc : List Nat), rest ≠ [] → (∀ x, rest.getLast? = some x → x.1 ≠ []) →
    ws.curMessage = some acc → acc.length + fragmentBytes rest = ws.curMessageCapacity →
    ∃ init last, ws.deliver P rest = init ++ [last] ∧ init.length + 1 = rest.length ∧
      (∀ r ∈ init, r.result = true ∧ r.effects = [] ∧
        ∃ buf, r.ws.curMessage = some buf ∧ buf.length ≤ ws.curMessageCapacity ∧
          r.ws.curMessageCapacity = ws.curMessageCapacity) ∧
      last = WebSocketImpl.receivedMessage P
        (ws.dispatching ws.curOpCode ws.curMessageCapacity) ws.curOpCode
        (some (acc ++ fragmentData rest)) := by
  intro rest
  induction rest with
  | nil =>
    intro ws acc h
    exact absurd rfl h
  | cons f more ih =>
    intro ws acc _ hlast hcur hcap
    obtain ⟨data, opCode⟩ := f
    rw [fragmentBytes_cons] at hcap
    simp only at hcap
    cases more with
    | nil =>
      have hb : fragmentBytes ([] : List (List Nat × Nat)) = 0 := rfl
      rw [hb] at hcap
      refine ⟨[], _, ?_, rfl, ?_, rfl⟩
      · unfold WebSocketImpl.deliver
        rw [hb, handleFragment_final P ws acc data opCode hcur (by omega)]
        simp [WebSocketImpl.deliver, fragmentData]
      · intro r hr
        cases hr
    | cons g more2 =>
      have hlast2 : ∀ x, (g :: more2).getLast? = some x → x.1 ≠ [] := fun x hx =>
        hlast x (by
          rw [List.getLast?_cons_cons]
          exact hx)
      have hpos := fragmentBytes_pos (g :: more2) (List.cons_ne_nil _ _) hlast2
      have hstep := handleFragment_middle P ws acc data (fragmentBytes (g :: more2)) opCode
        hcur (by omega) hpos
      obtain ⟨init, last, hd, hlen, hinit, hl⟩ :=
        ih { ws with curMessage := some (acc ++ data) } (acc ++ data) (List.cons_ne_nil _ _)
          hlast2 rfl (by
            rw [List.length_append]
            show acc.length + data.length + fragmentBytes (g :: more2) = ws.curMessageCapacity
            omega)
      refine ⟨ws.handleFragment P data (fragmentBytes (g :: more2)) opCode true :: init, last,
        ?_, ?_, ?_, ?_⟩
      · unfold WebSocketImpl.deliver
        rw [hstep]
        simp only []
        rw [hd]
        rfl
      · simp only [List.length_cons] at hlen ⊢
        omega
      · intro r hr
        rcases List.mem_cons.mp hr with h | h
        · rw [h, hstep]
          refine ⟨rfl, rfl, acc ++ data, rfl, ?_, rfl⟩
          rw [List.length_append]
          omega
        · exact hinit r h
      · rw [hl, fragmentData_cons, List.append_assoc]
        rfl

/-- C24, amended: starting with no message in progress, for every frame
delivered to handleFragment as k >= 1 fragments (each with fin set and with
remainingBytes equal to the number of payload bytes still to come) of which
the last is not empty unless k = 1: every call but the last returns success
without dispatching, with a buffered size that does not exceed the capacity
length + remainingBytes fixed at the first fragment; the last call dispatches
exactly one message, whose opcode is that of the first fragment and whose
content is the concatenation of the fragments' data, and after it no message
is in progress.  A fragment that would take the buffered size beyond the
capacity returns a protocol error without dispatching or buffering. -/
theorem C24_reassembly (P : Protocol) (ws : WebSocketImpl) (data : List Nat) (opCode : Nat)
    (rest : List (List Nat × Nat)) (hcur : ws.curMessage = none)
    (hlast : ∀ x, rest.getLast? = some x → x.1 ≠ []) :
    (∃ init last, ws.deliver P ((data, opCode) :: rest) = init ++ [last] ∧
      init.length = rest.length ∧
      (∀ r ∈ init, r.result = true ∧ r.effects = [] ∧
        ∃ buf, r.ws.curMessage = some buf ∧ buf.length ≤ data.length + fragmentBytes rest ∧
          r.ws.curMessageCapacity = data.length + fragmentBytes rest) ∧
      last = WebSocketImpl.receivedMessage P
        (ws.dispatching opCode (data.length + fragmentBytes rest)) opCode
        (some (data ++ fragmentData rest)) ∧
      last.ws.curMessage = none) ∧
    (∀ (ws2 : WebSocketImpl) (acc data2 : List Nat) (remainingBytes opCode2 : Nat) (fin : Bool),
      ws2.curMessage = some acc → acc.length + data2.length > ws2.curMessageCapacity →
      ws2.handleFragment P data2 remainingBytes opCode2 fin
        = { ws := ws2, effects := [], result := false }) := by
  refine ⟨?_, fun ws2 acc data2 remainingBytes opCode2 fin h1 h2 =>
    handleFragment_overflow P ws2 acc data2 remainingBytes opCode2 fin h1 h2⟩
  have hbegin : ∀ remainingBytes, 0 < remainingBytes →
      ws.handleFragment P data remainingBytes opCode true =
        { ws := { ws with curOpCode := opCode,
                          curMessageCapacity := data.length + remainingBytes,
                          curMessage := some data },
          effects := [], result := true } := by
    intro remainingBytes hrem
    unfold WebSocketImpl.handleFragment
    have h3 : ¬ (True ∧ remainingBytes = 0) := fun h => by omega
    simp only [if_pos hcur]
    simp only [sliceBytes, Option.getD_some, List.length_nil, List.nil_append, if_neg h3]
    rw [if_neg (by omega)]
  cases rest with
  | nil =>
    have hb : fragmentBytes ([] : List (List Nat × Nat)) = 0 := rfl
    have hcall : ws.handleFragment P data 0 opCode true =
        WebSocketImpl.receivedMessage P (ws.dispatching opCode (data.length + 0)) opCode
          (some data) := by
      unfold WebSocketImpl.handleFragment
      simp only [if_pos hcur]
      simp only [sliceBytes, Option.getD_some, List.length_nil, List.nil_append, and_self,
        if_true]
      rw [if_neg (by omega)]
      rfl
    refine ⟨[], _, ?_, rfl, ?_, rfl, ?_⟩
    · unfold WebSocketImpl.deliver
      rw [hb, hcall]
      simp [WebSocketImpl.deliver, fragmentData]
    · intro r hr
      cases hr
    · rw [receivedMessage_curMessage]
      rfl
  | cons g more =>
    have hpos := fragmentBytes_pos (g :: more) (List.cons_ne_nil _ _) hlast
    have hstep := hbegin (fragmentBytes (g :: more)) hpos
    obtain ⟨init, last, hd, hlen, hinit, hl⟩ :=
      deliver_rest P (g :: more)
        { ws with curOpCode := opCode,
                  curMessageCapacity := data.length + fragmentBytes (g :: more),
                  curMessage := some data }
        data (List.cons_ne_nil _ _) hlast rfl rfl
    refine ⟨ws.handleFragment P data (fragmentBytes (g :: more)) opCode true :: init, last,
      ?_, ?_, ?_, ?_, ?_⟩
    · unfold WebSocketImpl.deliver
      rw [hstep]
      simp only []
      rw [hd]
      rfl
    · simp only [List.length_cons] at hlen ⊢
      omega
    · intro r hr
      rcases List.mem_cons.mp hr with h | h
      · rw [h, hstep]
        exact ⟨rfl, rfl, data, rfl, by omega, rfl⟩
      · exact hinit r h
    · rw [hl]
      rfl
    · rw [hl, receivedMessage_curMessage]
      rfl

/-- C24 at a fresh engine and the payload (1, 2, 3) of a binary frame, delivered
as the fragments (1, 2) and (3): the first call buffers, the second dispatches
the message (1, 2, 3). -/
theorem C24_reassembly_witness :
    ∃ init last, WebSocketImpl.new.deliver clientProtocol [([1, 2], BINARY), ([3], BINARY)]
        = init ++ [last] ∧
      init.length = 1 ∧
      (∀ r ∈ init, r.result = true ∧ r.effects = [] ∧
        ∃ buf, r.ws.curMessage = some buf ∧ buf.length ≤ 2 + fragmentBytes [([3], BINARY)] ∧
          r.ws.curMessageCapacity = 2 + fragmentBytes [([3], BINARY)]) ∧
      last = WebSocketImpl.receivedMessage clientProtocol
        (WebSocketImpl.new.dispatching BINARY (2 + fragmentBytes [([3], BINARY)])) BINARY
        (some ([1, 2] ++ fragmentData [([3], BINARY)])) ∧
      last.ws.curMessage = none :=
  (C24_reassembly clientProtocol WebSocketImpl.new [1, 2] BINARY [([3], BINARY)] rfl
    (by decide)).1

/-! ## Property lookup stays inside the block -/

theorem getLast?_cons_of_ne_nil (b : Nat) (bs : List Nat) (h : bs ≠ []) :
    (b :: bs).getLast? = bs.getLast? := by
  cases bs with
  | nil => exact absurd rfl h
  | cons c cs => exact List.getLast?_cons_cons

theorem strlen_wellTerminated : ∀ (key : List Nat), key ≠ [] → WellTerminated key →
    ∃ n, strlen key = some n ∧ n < key.length ∧ WellTerminated (key.drop (n + 1)) := by
  intro key
  induction key with
  | nil =>
    intro h _
    exact absurd rfl h
  | cons b bs ih =>
    intro _ hw
    have hlast : (b :: bs).getLast? = some 0 := by
      rcases hw with h | h
      · exact absurd h (List.cons_ne_nil _ _)
      · exact h
    by_cases hb : b = 0
    · refine ⟨0, ?_, ?_, ?_⟩
      · simp [strlen, hb]
      · simp
      · show WellTerminated bs
        by_cases hbs : bs = []
        · exact Or.inl hbs
        · right
          rw [← getLast?_cons_of_ne_nil b bs hbs]
          exact hlast
    · have hbs : bs ≠ [] := by
        intro hbs
        rw [hbs] at hlast
        simp only [List.getLast?_singleton, Option.some.injEq] at hlast
        exact hb hlast
      have hlast2 : bs.getLast? = some 0 := by
        rw [← getLast?_cons_of_ne_nil b bs hbs]
        exact hlast
      obtain ⟨n, hn, hlt, hwt⟩ := ih hbs (Or.inr hlast2)
      refine ⟨n + 1, ?_, ?_, ?_⟩
      · simp [strlen, hb, hn]
      · simp only [List.length_cons]
        omega
      · exact hwt

theorem propertyLoop_in_bounds (property : List Nat) :
    ∀ (fuel : Nat) (key : List Nat), WellTerminated key → key.length < fuel →
      propertyLoop property fuel key = .nullslice ∨
        ∃ v, propertyLoop property fuel key = .found v := by
  intro fuel
  induction fuel with
  | zero =>
    intro key _ h
    omega
  | succ fuel ih =>
    intro key hw hlen
    unfold propertyLoop
    by_cases hk : key = []
    · rw [if_pos hk]
      exact Or.inl rfl
    · rw [if_neg hk]
      obtain ⟨n, hn, hnlt, hwv⟩ := strlen_wellTerminated key hk hw
      simp only [hn]
      by_cases hv : key.drop (n + 1) = []
      · rw [if_pos hv]
        exact Or.inl rfl
      · rw [if_neg hv]
        obtain ⟨k, hkk, hklt, hwn⟩ := strlen_wellTerminated _ hv hwv
        simp only [hkk]
        by_cases hp : property = key.take n
        · rw [if_pos hp]
          exact Or.inr ⟨_, rfl⟩
        · rw [if_neg hp]
          apply ih _ hwn
          simp only [List.length_drop] at hklt ⊢
          omega

/-- C25: for every inbound message whose properties block is one that
receivedFrame accepts (empty, or non-empty with last byte 0) and every name,
property(name) ends with a slice of the block or with the null slice: no scan
for a terminating NUL runs past the end of the block, and the loop ends within
as many turns as the block has bytes.  Each scan starts at a byte of the block
and, the block ending with NUL, finds its NUL inside the block. -/
theorem C25_property_in_bounds (tokenizeProperty : List Nat → Nat) (m : MessageIn)
    (name : List Nat) (hw : WellTerminated (sliceBytes m.properties)) :
    (m.property tokenizeProperty name = .nullslice ∨
      ∃ v, m.property tokenizeProperty name = .found v) ∧
    m.property tokenizeProperty name ≠ .overrun ∧
    m.property tokenizeProperty name ≠ .outOfFuel ∧
    (∀ key, key ≠ [] → WellTerminated key →
      ∃ n, strlen key = some n ∧ n < key.length ∧ WellTerminated (key.drop (n + 1))) := by
  have h := propertyLoop_in_bounds (wireName tokenizeProperty name)
    ((sliceBytes m.properties).length + 1) (sliceBytes m.properties) hw (Nat.lt_succ_self _)
  refine ⟨h, ?_, ?_, strlen_wellTerminated⟩
  · intro hbad
    unfold MessageIn.property at hbad
    rcases h with h | ⟨v, h⟩
    · rw [h] at hbad
      exact PropertyResult.noConfusion hbad
    · rw [h] at hbad
      exact PropertyResult.noConfusion hbad
  · intro hbad
    unfold MessageIn.property at hbad
    rcases h with h | ⟨v, h⟩
    · rw [h] at hbad
      exact PropertyResult.noConfusion hbad
    · rw [h] at hbad
      exact PropertyResult.noConfusion hbad

/-- C25 at the block of the pairs ("a", "1"), ("b", "2"), which ends with NUL:
looking up "c" ends with the null slice. -/
theorem C25_property_in_bounds_witness :
    twoPropsIn.property (fun _ => 0) [99] ≠ .overrun ∧
    twoPropsIn.property (fun _ => 0) [99] ≠ .outOfFuel :=
  ⟨(C25_property_in_bounds (fun _ => 0) twoPropsIn [99] (Or.inr (by decide))).2.1,
   (C25_property_in_bounds (fun _ => 0) twoPropsIn [99] (Or.inr (by decide))).2.2.1⟩

/-! ## Inbound messages: the states returned -/

theorem receivedFrame_steps (L : Lib) (m : MessageIn) (frame : List Nat) (frameFlags : Nat)
    (st : ReceiveState) (h : (m.receivedFrame L frame frameFlags).outcome = .returned st) :
    ∃ s1 s2 s3 s4 s5, m.firstFrame frame frameFlags = .ok s1 ∧
      MessageIn.readProperties L s1 = .ok s2 ∧ MessageIn.acknowledge s2 = .ok s3 ∧
      MessageIn.writeBody L s3 = .ok s4 ∧ MessageIn.finishMessage L frameFlags s4 = .ok s5 ∧
      st = s5.state ∧ (m.receivedFrame L frame frameFlags).msg = s5.msg := by
  rcases receivedFrame_cases L m frame frameFlags with
    ⟨r, h1, -, -, hr⟩ | ⟨s1, h1, ⟨r, h2, -, -, hr⟩ |
      ⟨s2, s3, h2, hA, h3, ⟨r, h4, -, hr⟩ | ⟨s4, h4, hC, ⟨r, h5, hr⟩ | ⟨s5, h5, hr⟩⟩⟩⟩
  · rw [hr] at h
    rcases (firstFrame_error m frame frameFlags r h1).2.2.2.2 with e | e <;>
      rw [e] at h <;> cases h
  · rw [hr] at h
    rcases (readProperties_error L s1 r h2).2.2.2 with e | ⟨e, -⟩ <;>
      rw [e] at h <;> cases h
  · rw [hr] at h
    rcases (writeBody_error L s3 r h4).2.2.2.2.2.2 with e | e <;>
      rw [e] at h <;> cases h
  · rw [hr] at h
    rcases (finishMessage_error L frameFlags s4 r h5).2.2.2 with ⟨e, -⟩ | ⟨e, -⟩ <;>
      rw [e] at h <;> cases h
  · refine ⟨s1, s2, s3, s4, s5, h1, h2, h3, h4, h5, ?_, ?_⟩
    · rw [hr] at h
      exact (Outcome.returned.inj h).symm
    · rw [hr]

theorem firstFrame_size (m : MessageIn) (frame : List Nat) (frameFlags : Nat) (s : Locals)
    (h : m.firstFrame frame frameFlags = .ok s) :
    (∀ w, m.in_ = some w → s.msg = m ∧ s.frame = frame) ∧
    (m.in_ = none → s.msg.in_ = some [] ∧ s.msg.propertiesSize < kMod64) ∧
    s.frame.length ≤ frame.length := by
  refine ⟨?_, ?_, ?_⟩
  · intro w hw
    rw [firstFrame_later m frame frameFlags w hw] at h
    cases h
    exact ⟨rfl, rfl⟩
  · intro hn
    unfold MessageIn.firstFrame at h
    rw [hn] at h
    simp only at h
    split at h
    · cases h
    · split at h
      · cases h
      · rename_i n rest hread
        cases h
        refine ⟨rfl, ?_⟩
        unfold ReadUVarInt32 at hread
        split at hread
        · cases hread
        · split at hread
          · rename_i hle
            cases hread
            show n < kMod64
            unfold UINT32_MAX at hle
            unfold kMod64
            omega
          · cases hread
  · obtain ⟨c, hc⟩ := (firstFrame_ok m frame frameFlags s h).2.2.2.2.2.2.2.2.2
    have := congrArg List.length hc
    rw [List.length_append] at this
    omega

theorem readProperties_present (L : Lib) (s s2 : Locals) (hp : s.msg.properties ≠ none)
    (h : MessageIn.readProperties L s = .ok s2) : s2 = s := by
  unfold MessageIn.readProperties Locals.fail at h
  split at h
  · cases h
  · rw [if_neg (fun hc => hp hc.1)] at h
    exact (Except.ok.inj h).symm

theorem readProperties_absent (L : Lib) (s s2 : Locals) (w : List Nat)
    (hin : s.msg.in_ = some w) (hp : s.msg.properties = none)
    (h : MessageIn.readProperties L s = .ok s2) :
    (w.length + s.frame.length < s.msg.propertiesSize ∧ s2 = s) ∨
    (s.msg.propertiesSize ≤ w.length + s.frame.length ∧
      (s.msg.propertiesSize + kMod64 - w.length) % kMod64 ≤ s.frame.length ∧
      s2.state = .kBeginning ∧ s2.msg.in_ = some [] ∧
      s2.msg.propertiesSize = s.msg.propertiesSize ∧
      s2.msg.properties
        = L.finish (w ++ s.frame.take ((s.msg.propertiesSize + kMod64 - w.length) % kMod64)) ∧
      s2.frame = s.frame.drop ((s.msg.propertiesSize + kMod64 - w.length) % kMod64)) := by
  unfold MessageIn.readProperties Locals.fail at h
  rw [hin] at h
  simp only at h
  by_cases hc : s.msg.properties = none ∧ w.length + s.frame.length ≥ s.msg.propertiesSize
  · rw [if_pos hc] at h
    right
    split at h
    · cases h
    · rename_i hrem
      split at h
      · cases h
      · cases h
        exact ⟨hc.2, Nat.le_of_not_lt hrem, rfl, rfl, rfl, rfl, rfl⟩
  · rw [if_neg hc] at h
    left
    refine ⟨?_, (Except.ok.inj h).symm⟩
    have : ¬ (w.length + s.frame.length ≥ s.msg.propertiesSize) := fun h2 => hc ⟨hp, h2⟩
    omega

theorem acknowledge_size (s s2 : Locals) (h : MessageIn.acknowledge s = .ok s2) :
    s2.msg.propertiesSize = s.msg.propertiesSize := by
  unfold MessageIn.acknowledge Locals.fail at h
  simp only at h
  split at h
  · split at h
    · cases h
    · cases h
      rfl
  · cases h
    rfl

theorem writeBody_absent (L : Lib) (s s2 : Locals) (w : List Nat)
    (hin : s.msg.in_ = some w) (hp : s.msg.properties = none)
    (h : MessageIn.writeBody L s = .ok s2) :
    s2.state = s.state ∧ s2.msg.properties = none ∧ s2.msg.in_ = some (w ++ s.frame) ∧
    s2.msg.propertiesSize = s.msg.propertiesSize := by
  unfold MessageIn.writeBody at h
  rw [hin] at h
  simp only at h
  rw [if_neg (fun hc => hc.1 hp)] at h
  cases h
  exact ⟨rfl, hp, rfl, rfl⟩

theorem step_present (L : Lib) (m : MessageIn) (frame : List Nat) (frameFlags : Nat)
    (st : ReceiveState) (hp : m.properties ≠ none)
    (h : (m.receivedFrame L frame frameFlags).outcome = .returned st) :
    (m.receivedFrame L frame frameFlags).msg.properties ≠ none ∧
    (frameFlags &&& kMoreComing ≠ 0 → st = .kOther) ∧
    (frameFlags &&& kMoreComing = 0 → st = .kEnd) := by
  obtain ⟨s1, s2, s3, s4, s5, h1, h2, h3, h4, h5, hst, hmsg⟩ :=
    receivedFrame_steps L m frame frameFlags st h
  obtain ⟨-, -, -, -, -, a6, -, a8, -, -⟩ := firstFrame_ok m frame frameFlags s1 h1
  have hp1 : s1.msg.properties ≠ none := by
    rw [a6]
    exact hp
  have e2 := readProperties_present L s1 s2 hp1 h2
  subst e2
  obtain ⟨b1, -, b3, -, -, -⟩ := acknowledge_facts s2 s3 h3
  obtain ⟨-, -, c3, -, -, -, -, c8, -, -⟩ := writeBody_ok L s3 s4 h4
  obtain ⟨-, -, -, -, -, d6, d7, d8⟩ := finishMessage_ok L frameFlags s4 s5 h5
  refine ⟨?_, ?_, ?_⟩
  · rw [hmsg, d6, c8, b3]
    exact hp1
  · intro hmc
    rw [hst, d7 hmc, c3, b1, a8]
  · intro hmc
    rw [hst]
    exact (d8 hmc).1

theorem step_collecting (L : Lib) (m : MessageIn) (frame : List Nat) (frameFlags : Nat)
    (st : ReceiveState) (hc : m.Collecting)
    (h : (m.receivedFrame L frame frameFlags).outcome = .returned st) :
    (frameFlags &&& kMoreComing = 0 →
      st = .kEnd ∧ (m.receivedFrame L frame frameFlags).msg.properties ≠ none) ∧
    (frameFlags &&& kMoreComing ≠ 0 →
      (st = .kOther ∧ (m.receivedFrame L frame frameFlags).msg.Collecting) ∨
      (st = .kBeginning ∧ (m.receivedFrame L frame frameFlags).msg.properties ≠ none) ∨
      (st = .kBeginning ∧ (m.receivedFrame L frame frameFlags).msg.Stuck L frame.length)) := by
  obtain ⟨s1, s2, s3, s4, s5, h1, h2, h3, h4, h5, hst, hmsg⟩ :=
    receivedFrame_steps L m frame frameFlags st h
  obtain ⟨-, -, -, -, -, a6, -, a8, ⟨w1, hw1⟩, -⟩ := firstFrame_ok m frame frameFlags s1 h1
  obtain ⟨f1, f2, f3⟩ := firstFrame_size m frame frameFlags s1 h1
  have hp1 : s1.msg.properties = none := by
    rw [a6]
    exact hc.1
  have hsz : s1.msg.propertiesSize < kMod64 ∧ (w1.length < s1.msg.propertiesSize ∨ w1 = []) := by
    rcases hc.2 with hn | ⟨w, hw, hlt, hps⟩
    · obtain ⟨g1, g2⟩ := f2 hn
      rw [hw1] at g1
      exact ⟨g2, Or.inr (Option.some.inj g1)⟩
    · obtain ⟨g1, -⟩ := f1 w hw
      rw [g1] at hw1 ⊢
      rw [hw] at hw1
      have e := Option.some.inj hw1
      subst e
      exact ⟨hps, Or.inl hlt⟩
  obtain ⟨b1, -, b3, b4, -, b6⟩ := acknowledge_facts s2 s3 h3
  have b7 := acknowledge_size s2 s3 h3
  obtain ⟨-, -, -, -, -, d6, d7, d8⟩ := finishMessage_ok L frameFlags s4 s5 h5
  obtain ⟨-, -, c3, -, -, -, -, c8, -, -⟩ := writeBody_ok L s3 s4 h4
  rcases readProperties_absent L s1 s2 w1 hw1 hp1 h2 with ⟨hlt, e2⟩ | ⟨hge, hrem, r3, r4, r5, r6, r7⟩
  · subst e2
    have hp3 : s3.msg.properties = none := by
      rw [b3]
      exact hp1
    have hin3 : s3.msg.in_ = some w1 := by
      rw [b4]
      exact hw1
    obtain ⟨e1, e2, e3, e4⟩ := writeBody_absent L s3 s4 w1 hin3 hp3 h4
    constructor
    · intro hmc
      exact absurd e2 (d8 hmc).2.2.1
    · intro hmc
      left
      have e5 := d7 hmc
      rw [e5] at hst hmsg
      refine ⟨?_, ?_, ?_⟩
      · rw [hst, e1, b1, a8]
      · rw [hmsg]
        exact e2
      · right
        rw [hmsg]
        refine ⟨w1 ++ s3.frame, e3, ?_, ?_⟩
        · rw [List.length_append, b6, e4, b7]
          exact hlt
        · rw [e4, b7]
          exact hsz.1
  · have hstate : s4.state = .kBeginning := by
      rw [c3, b1]
      exact r3
    have hprops : s4.msg.properties = s2.msg.properties := by
      rw [c8, b3]
    constructor
    · intro hmc
      refine ⟨?_, ?_⟩
      · rw [hst]
        exact (d8 hmc).1
      · rw [hmsg, d6]
        exact (d8 hmc).2.2.1
    · intro hmc
      have e5 := d7 hmc
      rw [e5] at hst hmsg
      right
      by_cases hnone : s2.msg.properties = none
      · right
        refine ⟨?_, ?_⟩
        · rw [hst]
          exact hstate
        · have hfin := r6
          rw [hnone] at hfin
          unfold Lib.finish at hfin
          split at hfin
          · rename_i hempty
            have hw0 : w1 = [] := (List.append_eq_nil.mp hempty.1).1
            have htake := (List.append_eq_nil.mp hempty.1).2
            subst hw0
            have hrem0 : (s1.msg.propertiesSize + kMod64 - 0) % kMod64 = s1.msg.propertiesSize := by
              have := hsz.1
              unfold kMod64 at this ⊢
              omega
            simp only [List.length_nil] at htake hrem r7
            rw [hrem0] at htake hrem r7
            have hzero : s1.msg.propertiesSize = 0 := by
              by_contra hne
              have hlen := congrArg List.length htake
              rw [List.length_take, List.length_nil] at hlen
              omega
            have hp3 : s3.msg.properties = none := by
              rw [b3]
              exact hnone
            have hin3 : s3.msg.in_ = some [] := by
              rw [b4]
              exact r4
            obtain ⟨-, e2, e3, e4⟩ := writeBody_absent L s3 s4 [] hin3 hp3 h4
            rw [hmsg]
            refine ⟨hempty.2, e2, ?_, [] ++ s3.frame, e3, ?_⟩
            · rw [e4, b7, r5]
              exact hzero
            · rw [List.nil_append, b6, r7, List.length_drop]
              omega
          · cases hfin
      · left
        refine ⟨?_, ?_⟩
        · rw [hst]
          exact hstate
        · rw [hmsg, hprops]
          exact hnone

theorem step_stuck (L : Lib) (m : MessageIn) (frame : List Nat) (frameFlags : Nat)
    (st : ReceiveState) (bound : Nat) (hs : m.Stuck L bound)
    (hb : bound + frame.length < kMod64)
    (h : (m.receivedFrame L frame frameFlags).outcome = .returned st) :
    frameFlags &&& kMoreComing ≠ 0 ∧ st = .kBeginning ∧
    (m.receivedFrame L frame frameFlags).msg.Stuck L frame.length := by
  obtain ⟨hL, hp, hps, w, hw, hwb⟩ := hs
  obtain ⟨s1, s2, s3, s4, s5, h1, h2, h3, h4, h5, hst, hmsg⟩ :=
    receivedFrame_steps L m frame frameFlags st h
  obtain ⟨g1, g2⟩ := (firstFrame_size m frame frameFlags s1 h1).1 w hw
  have hp1 : s1.msg.properties = none := by
    rw [g1]
    exact hp
  have hw1 : s1.msg.in_ = some w := by
    rw [g1]
    exact hw
  have hps1 : s1.msg.propertiesSize = 0 := by
    rw [g1]
    exact hps
  obtain ⟨b1, -, b3, b4, -, b6⟩ := acknowledge_facts s2 s3 h3
  have b7 := acknowledge_size s2 s3 h3
  obtain ⟨-, -, -, -, -, d6, d7, d8⟩ := finishMessage_ok L frameFlags s4 s5 h5
  rcases readProperties_absent L s1 s2 w hw1 hp1 h2 with ⟨hlt, -⟩ | ⟨-, hrem, r3, r4, r5, r6, r7⟩
  · omega
  · rw [hps1, g2] at hrem r6 r7
    have hw0 : w = [] := by
      by_contra hne
      have hpos : 0 < w.length := List.length_pos.mpr hne
      unfold kMod64 at hrem hb
      omega
    subst hw0
    have hrem0 : (0 + kMod64 - ([] : List Nat).length) % kMod64 = 0 := by
      unfold kMod64
      rfl
    rw [hrem0] at r6 r7
    have hnone : s2.msg.properties = none := by
      rw [r6]
      unfold Lib.finish
      rw [if_pos ⟨rfl, hL⟩]
    have hp3 : s3.msg.properties = none := by
      rw [b3]
      exact hnone
    have hin3 : s3.msg.in_ = some [] := by
      rw [b4]
      exact r4
    obtain ⟨e1, e2, e3, e4⟩ := writeBody_absent L s3 s4 [] hin3 hp3 h4
    have hmc : frameFlags &&& kMoreComing ≠ 0 := by
      intro hmc
      exact (d8 hmc).2.2.1 e2
    have e5 := d7 hmc
    rw [e5] at hst hmsg
    refine ⟨hmc, ?_, ?_⟩
    · rw [hst, e1, b1]
      exact r3
    · rw [hmsg]
      refine ⟨hL, e2, ?_, [] ++ s3.frame, e3, ?_⟩
      · rw [e4, b7, r5]
        exact hps1
      · rw [List.nil_append, b6, r7]
        simp

theorem framesBytes_cons (f : List Nat × Nat) (rest : List (List Nat × Nat)) :
    framesBytes (f :: rest) = f.1.length + framesBytes rest := by
  simp [framesBytes]

theorem receiveAll_cons_returned (L : Lib) (m : MessageIn) (f : List Nat × Nat)
    (rest : List (List Nat × Nat)) (sts : List ReceiveState)
    (h : (m.receiveAll L (f :: rest)).map (fun r => r.outcome) = sts.map Outcome.returned) :
    ∃ st sts2, sts = st :: sts2 ∧ (m.receivedFrame L f.1 f.2).outcome = .returned st ∧
      m.receiveAll L (f :: rest)
        = m.receivedFrame L f.1 f.2 :: (m.receivedFrame L f.1 f.2).msg.receiveAll L rest ∧
      ((m.receivedFrame L f.1 f.2).msg.receiveAll L rest).map (fun r => r.outcome)
        = sts2.map Outcome.returned := by
  obtain ⟨frame, frameFlags⟩ := f
  cases sts with
  | nil =>
    simp [MessageIn.receiveAll] at h
  | cons st sts2 =>
    unfold MessageIn.receiveAll at h
    simp only [List.map_cons, List.cons.injEq] at h
    obtain ⟨h1, h2⟩ := h
    have hall : m.receiveAll L ((frame, frameFlags) :: rest)
        = m.receivedFrame L frame frameFlags ::
          (m.receivedFrame L frame frameFlags).msg.receiveAll L rest := by
      rw [MessageIn.receiveAll]
      simp only [h1]
    rw [h1] at h2
    exact ⟨st, sts2, rfl, h1, hall, h2⟩

theorem seq_present (L : Lib) (frame : List Nat) (frameFlags : Nat)
    (hend : frameFlags &&& kMoreComing = 0) :
    ∀ (pre : List (List Nat × Nat)) (m : MessageIn) (sts : List ReceiveState),
      m.properties ≠ none → (∀ x ∈ pre, x.2 &&& kMoreComing ≠ 0) →
      (m.receiveAll L (pre ++ [(frame, frameFlags)])).map (fun r => r.outcome)
        = sts.map Outcome.returned →
      sts = List.replicate pre.length .kOther ++ [.kEnd] ∧
      ∀ r ∈ m.receiveAll L (pre ++ [(frame, frameFlags)]), r.msg.properties ≠ none := by
  intro pre
  induction pre with
  | nil =>
    intro m sts hp _ hacc
    obtain ⟨st, sts2, e, hout, hall, hrest⟩ :=
      receiveAll_cons_returned L m (frame, frameFlags) [] sts hacc
    obtain ⟨p1, -, p3⟩ := step_present L m frame frameFlags st hp hout
    have hnil : sts2 = [] := by
      simp only [MessageIn.receiveAll, List.map_nil] at hrest
      exact List.map_eq_nil_iff.mp hrest.symm
    refine ⟨?_, ?_⟩
    · rw [e, hnil, p3 hend]
      rfl
    · intro r hr
      rw [List.nil_append, hall] at hr
      simp only [MessageIn.receiveAll, List.mem_singleton] at hr
      rw [hr]
      exact p1
  | cons x pre ih =>
    intro m sts hp hmore hacc
    obtain ⟨st, sts2, e, hout, hall, hrest⟩ :=
      receiveAll_cons_returned L m x (pre ++ [(frame, frameFlags)]) sts hacc
    obtain ⟨p1, p2, -⟩ := step_present L m x.1 x.2 st hp hout
    obtain ⟨q1, q2⟩ := ih _ sts2 p1 (fun y hy => hmore y (List.mem_cons_of_mem _ hy)) hrest
    refine ⟨?_, ?_⟩
    · rw [e, q1, p2 (hmore x (List.mem_cons_self _ _))]
      rfl
    · intro r hr
      rw [List.cons_append, hall] at hr
      rcases List.mem_cons.mp hr with h | h
      · rw [h]
        exact p1
      · exact q2 r h

theorem seq_stuck (L : Lib) (frame : List Nat) (frameFlags : Nat)
    (hend : frameFlags &&& kMoreComing = 0) :
    ∀ (pre : List (List Nat × Nat)) (m : MessageIn) (bound : Nat) (sts : List ReceiveState),
      m.Stuck L bound → bound + framesBytes (pre ++ [(frame, frameFlags)]) < kMod64 →
      (m.receiveAll L (pre ++ [(frame, frameFlags)])).map (fun r => r.outcome)
        = sts.map Outcome.returned → False := by
  intro pre
  induction pre with
  | nil =>
    intro m bound sts hs hb hacc
    obtain ⟨st, sts2, -, hout, -, -⟩ :=
      receiveAll_cons_returned L m (frame, frameFlags) [] sts hacc
    rw [List.nil_append, framesBytes_cons] at hb
    have hb2 : bound + frame.length < kMod64 := by
      simp only at hb
      omega
    exact (step_stuck L m frame frameFlags st bound hs hb2 hout).1 hend
  | cons x pre ih =>
    intro m bound sts hs hb hacc
    obtain ⟨st, sts2, -, hout, -, hrest⟩ :=
      receiveAll_cons_returned L m x (pre ++ [(frame, frameFlags)]) sts hacc
    rw [List.cons_append, framesBytes_cons] at hb
    obtain ⟨-, -, p3⟩ := step_stuck L m x.1 x.2 st bound hs (by omega) hout
    exact ih _ x.1.length sts2 p3 (by omega) hrest

theorem seq_collecting (L : Lib) (frame : List Nat) (frameFlags : Nat)
    (hend : frameFlags &&& kMoreComing = 0) :
    ∀ (pre : List (List Nat × Nat)) (m : MessageIn) (sts : List ReceiveState),
      m.Collecting → (∀ x ∈ pre, x.2 &&& kMoreComing ≠ 0) →
      framesBytes (pre ++ [(frame, frameFlags)]) < kMod64 →
      (m.receiveAll L (pre ++ [(frame, frameFlags)])).map (fun r => r.outcome)
        = sts.map Outcome.returned →
      ∃ a b,
        (sts = List.replicate a .kOther ++ .kBeginning :: (List.replicate b .kOther ++ [.kEnd]) ∨
          sts = List.replicate a .kOther ++ [.kEnd]) ∧
        (∀ r ∈ (m.receiveAll L (pre ++ [(frame, frameFlags)])).take a,
          r.msg.properties = none) ∧
        (∀ r ∈ (m.receiveAll L (pre ++ [(frame, frameFlags)])).drop a,
          r.msg.properties ≠ none) := by
  intro pre
  induction pre with
  | nil =>
    intro m sts hc _ _ hacc
    obtain ⟨st, sts2, e, hout, hall, hrest⟩ :=
      receiveAll_cons_returned L m (frame, frameFlags) [] sts hacc
    obtain ⟨p1, p2⟩ := (step_collecting L m frame frameFlags st hc hout).1 hend
    have hnil : sts2 = [] := by
      simp only [MessageIn.receiveAll, List.map_nil] at hrest
      exact List.map_eq_nil_iff.mp hrest.symm
    refine ⟨0, 0, Or.inr ?_, ?_, ?_⟩
    · rw [e, hnil, p1]
      rfl
    · intro r hr
      simp at hr
    · intro r hr
      rw [List.drop_zero, List.nil_append, hall] at hr
      simp only [MessageIn.receiveAll, List.mem_singleton] at hr
      rw [hr]
      exact p2
  | cons x pre ih =>
    intro m sts hc hmore hsize hacc
    obtain ⟨st, sts2, e, hout, hall, hrest⟩ :=
      receiveAll_cons_returned L m x (pre ++ [(frame, frameFlags)]) sts hacc
    have hmore2 : ∀ y ∈ pre, y.2 &&& kMoreComing ≠ 0 :=
      fun y hy => hmore y (List.mem_cons_of_mem _ hy)
    rw [List.cons_append, framesBytes_cons] at hsize
    rcases (step_collecting L m x.1 x.2 st hc hout).2 (hmore x (List.mem_cons_self _ _)) with
      ⟨p1, p2⟩ | ⟨p1, p2⟩ | ⟨p1, p2⟩
    · obtain ⟨a, b, hsts, htake, hdrop⟩ := ih _ sts2 p2 hmore2 (by omega) hrest
      refine ⟨a + 1, b, ?_, ?_, ?_⟩
      · rw [e, p1]
        rcases hsts with h | h
        · left
          rw [h]
          rfl
        · right
          rw [h]
          rfl
      · intro r hr
        rw [List.cons_append, hall, List.take_succ_cons] at hr
        rcases List.mem_cons.mp hr with h | h
        · rw [h]
          exact p2.1
        · exact htake r h
      · intro r hr
        rw [List.cons_append, hall, List.drop_succ_cons] at hr
        exact hdrop r hr
    · obtain ⟨q1, q2⟩ := seq_present L frame frameFlags hend pre _ sts2 p2 hmore2 hrest
      refine ⟨0, pre.length, Or.inl ?_, ?_, ?_⟩
      · rw [e, p1, q1]
        rfl
      · intro r hr
        simp at hr
      · intro r hr
        rw [List.drop_zero, List.cons_append, hall] at hr
        rcases List.mem_cons.mp hr with h | h
        · rw [h]
          exact p2
        · exact q2 r h
    · exact absurd hrest (fun hrest =>
        seq_stuck L frame frameFlags hend pre _ x.1.length sts2 p2 (by omega) hrest)

/-- C26, as stated, fails: a fresh REQUEST number 1 receives its whole payload,
the length field 1 and the properties block of one NUL byte, in a single frame
with MORE_COMING clear.  receivedFrame accepts the frame, the properties
become complete in this call, and the one state returned is kEnd: no call
returns kBeginning. -/
theorem C26_counterexample :
    ((MessageIn.new 0 1 none 0).receiveAll plainLib [([1, 0], 0)]).map (fun r => r.outcome)
      = [.returned .kEnd] ∧
    ((MessageIn.new 0 1 none 0).receiveAll plainLib [([1, 0], 0)]).map
      (fun r => r.msg.properties) = [some [0]] ∧
    (0 : Nat) &&& kMoreComing = 0 ∧
    Outcome.returned .kBeginning ∉
      ((MessageIn.new 0 1 none 0).receiveAll plainLib [([1, 0], 0)]).map (fun r => r.outcome) := by
  decide

/-- C26, amended: for every fresh inbound message and every sequence of frames,
of fewer than 2^64 bytes in total, that receivedFrame accepts up to and
including the frame with MORE_COMING clear, the earlier frames having
MORE_COMING set: either the properties become complete before the final frame,
and the returned states are kOther a times, then kBeginning once, on the call
in which the properties become complete, then kOther b times, then kEnd once,
on the final frame; or the properties become complete on the final frame, and
the returned states are kOther a times followed by kEnd once, no call returning
kBeginning.  In both cases the properties are null after each of the first a
calls and present after every later call. -/
theorem C26_state_transitions (L : Lib) (inFlags inNumber : Nat) (onProgress : Option Nat)
    (outgoingSize : Nat) (pre : List (List Nat × Nat)) (frame : List Nat) (frameFlags : Nat)
    (sts : List ReceiveState)
    (hmore : ∀ x ∈ pre, x.2 &&& kMoreComing ≠ 0) (hend : frameFlags &&& kMoreComing = 0)
    (hsize : framesBytes (pre ++ [(frame, frameFlags)]) < kMod64)
    (hacc : ((MessageIn.new inFlags inNumber onProgress outgoingSize).receiveAll L
        (pre ++ [(frame, frameFlags)])).map (fun r => r.outcome)
      = sts.map Outcome.returned) :
    ∃ a b,
      (sts = List.replicate a .kOther ++ .kBeginning :: (List.replicate b .kOther ++ [.kEnd]) ∨
        sts = List.replicate a .kOther ++ [.kEnd]) ∧
      (∀ r ∈ ((MessageIn.new inFlags inNumber onProgress outgoingSize).receiveAll L
          (pre ++ [(frame, frameFlags)])).take a, r.msg.properties = none) ∧
      (∀ r ∈ ((MessageIn.new inFlags inNumber onProgress outgoingSize).receiveAll L
          (pre ++ [(frame, frameFlags)])).drop a, r.msg.properties ≠ none) :=
  seq_collecting L frame frameFlags hend pre _ sts ⟨rfl, Or.inl rfl⟩ hmore hsize hacc

/-- C26, amended, at a fresh REQUEST number 1 that receives the frame (1, 0)
with MORE_COMING set and then the frame (65) with MORE_COMING clear: the
returned states are kBeginning and kEnd. -/
theorem C26_state_transitions_witness :
    ((MessageIn.new 0 1 none 0).receiveAll plainLib ([([1, 0], 64)] ++ [([65], 0)])).map
        (fun r => r.outcome)
      = [ReceiveState.kBeginning, .kEnd].map Outcome.returned ∧
    ∃ a b,
      ([ReceiveState.kBeginning, .kEnd]
          = List.replicate a .kOther ++ .kBeginning :: (List.replicate b .kOther ++ [.kEnd]) ∨
        [ReceiveState.kBeginning, .kEnd] = List.replicate a .kOther ++ [.kEnd]) ∧
      (∀ r ∈ ((MessageIn.new 0 1 none 0).receiveAll plainLib
          ([([1, 0], 64)] ++ [([65], 0)])).take a, r.msg.properties = none) ∧
      (∀ r ∈ ((MessageIn.new 0 1 none 0).receiveAll plainLib
          ([([1, 0], 64)] ++ [([65], 0)])).drop a, r.msg.properties ≠ none) :=
  ⟨by decide,
   C26_state_transitions plainLib 0 1 none 0 [([1, 0], 64)] [65] 0 [.kBeginning, .kEnd]
     (by decide) (by decide) (by decide) (by decide)⟩

end Blip
